import Mathlib

/-!
# Lost Worlds — Way Home: a shallow embedding of `script.js`

The simulation core of the game (tile grid, player controller, patrol enemy,
Core Guardian boss, level manager, progress store) is translated function by
function from `src/script.js`.

Modelling conventions
* JavaScript numbers are modelled as exact rationals (`ℚ`); `Math.floor` is
  `Int.floor`.  Quantities that the program only ever moves by whole steps
  (player health, soul count, level index, boss phase, tile codes) are integers
  or naturals.
* A JavaScript array row is a `List (Option Nat)`: `none` is a hole (it reads as
  `undefined`), and an assignment past the end of a row grows the row, leaving
  holes, exactly as `row[i] = v` does.
* `Math.random()` is a hidden global generator: the state carries the stream of
  values it is going to return (`rng`), and each call site consumes its draws in
  source evaluation order.  The values of `Math.cos`/`Math.sin` of the aiming
  angle of a boss projectile are not rational; they are taken from the same
  stream, so every theorem quantified over the stream covers them.
* `setTimeout` callbacks are not run by the tick: scheduling one appends it to
  `timers`, and `Timer.fire` is the body of the callback.
* Audio, canvas drawing and DOM text are outside the model.  `saveProgress` is
  modelled by the log `saved` of the level indices handed to it.
* The fields `w`, `h`, `speed`, `maxSpeed` of the `player` object literal are
  never assigned; they are constant functions on `Player`.
-/

namespace LostWorlds

/-! ## Configuration -/

namespace TILE
abbrev EMPTY : Nat := 0
abbrev DIRT : Nat := 1
abbrev STONE : Nat := 2
abbrev GRASS : Nat := 3
abbrev SOUL : Nat := 4
abbrev HEART : Nat := 5
abbrev SPAWN : Nat := 9
abbrev ENEMY : Nat := 8
abbrev EXIT : Nat := 7
end TILE

abbrev TILE_SIZE : ℚ := 16
abbrev VPORT_W : ℚ := 320
abbrev VPORT_H : ℚ := 180
abbrev GRAVITY : ℚ := 9 / 10
abbrev MAX_FALL : ℚ := 18

/-! ## JavaScript arrays of tiles -/

/-- One row of the tile matrix; `none` is an array hole. -/
abbrev Row := List (Option Nat)

/-- The tile matrix `LEVEL_MAP`. -/
abbrev Grid := List Row

/-- The read `row[i]`: `none` stands for `undefined` (a hole, or past the end). -/
def jsGet (row : Row) (i : Nat) : Option Nat :=
  (row[i]?).join

/-- The assignment `row[i] = v`: in place when `i` is inside the row, otherwise
the row grows to length `i + 1` and the skipped indices are holes. -/
def jsSet (row : Row) (i : Nat) (v : Nat) : Row :=
  if i < row.length then row.set i (some v)
  else row ++ List.replicate (i - row.length) none ++ [some v]

/-- The read `LEVEL_MAP[r][c]`. -/
def Grid.cell (g : Grid) (r c : Nat) : Option Nat :=
  (g[r]?).bind (fun row => jsGet row c)

/-- The assignment `LEVEL_MAP[r][c] = v` (for a row index inside the matrix, the
only way the program uses it). -/
def Grid.assign (g : Grid) (r c : Nat) (v : Nat) : Grid :=
  match g[r]? with
  | some row => g.set r (jsSet row c v)
  | none => g

/-- A row written as a literal list of tile codes. -/
def rowOf (l : List Nat) : Row := l.map some

/-- The row built by `new Array(n).fill(v)`. -/
def filled (n v : Nat) : Row := List.replicate n (some v)

/-! ## Levels -/

/-- A level definition (title, objective and story are display text). -/
structure LevelDef where
  id : Nat
  map : Grid

def LEVELS : List LevelDef :=
  [ { id := 0, map :=
      [ rowOf [0,0,0,0,0,0,0,0,0,0,0,0,0,0,0,0,0,0,0,0],
        rowOf [0,0,0,0,4,0,0,0,0,0,0,0,0,0,4,0,0,0,0,0],
        rowOf [9,0,0,0,1,0,0,0,0,0,0,0,0,1,1,0,0,0,0,8],
        filled 20 2,
        filled 20 2 ] },
    { id := 1, map :=
      [ rowOf [0,0,0,0,4,0,0,0,0,0,0,0,5,0,0,0,0,0],
        rowOf [0,0,0,0,0,0,0,4,0,0,0,0,0,0,0,8],
        rowOf [9,0,0,0,1,1,0,1,1,0,0,0,0,1,3,1],
        filled 20 2,
        filled 20 2 ] },
    { id := 2, map :=
      [ rowOf [0,0,0,0,0,0,0,0,4,0,0,0,0,0,0,0],
        rowOf [0,8,0,0,0,0,0,0,0,0,0,4,0,0,0,0],
        rowOf [9,0,0,0,1,1,0,1,3,1,0,0,0,0,0,0],
        filled 16 2,
        filled 16 2 ] },
    { id := 3, map :=
      [ rowOf [0,0,0,0,4,0,0,0,0,0,0,0,0,0],
        rowOf [0,0,0,5,0,0,0,0,0,0,0,0,8,0],
        rowOf [9,0,0,1,1,1,0,1,3,1,0,0,0,0],
        filled 14 2,
        filled 14 2 ] },
    { id := 4, map :=
      [ rowOf [0,0,0,0,0,0,4,0,0,0,0,0],
        rowOf [9,0,0,0,0,0,0,0,0,0,8,0],
        filled 12 2,
        filled 12 2,
        filled 12 2 ] } ]

/-! ## World, player, entities -/

/-- The camera `cam`. -/
structure Cam where
  x : ℚ
  y : ℚ
  shake : ℚ

/-- A cosmetic particle (its colour is display data). -/
structure Particle where
  x : ℚ
  y : ℚ
  vx : ℚ
  vy : ℚ
  size : ℚ
  life : Int

/-- The mutable fields of the `player` object. -/
structure Player where
  x : ℚ
  y : ℚ
  vx : ℚ
  vy : ℚ
  onGround : Bool
  canDoubleJump : Bool
  facing : ℚ
  health : Int
  souls : Int
  dashCooldown : ℚ
  _jumped : Bool
  _used : Bool
  _dashed : Bool

/-- The constant `player.w`. -/
def Player.w (_ : Player) : ℚ := 12
/-- The constant `player.h`. -/
def Player.h (_ : Player) : ℚ := 16
/-- The constant `player.speed`. -/
def Player.speed (_ : Player) : ℚ := 16 / 10
/-- The constant `player.maxSpeed`. -/
def Player.maxSpeed (_ : Player) : ℚ := 42 / 10

/-- A patrolling enemy. -/
structure Enemy where
  x : ℚ
  y : ℚ
  w : ℚ
  h : ℚ
  vx : ℚ
  vy : ℚ
  life : Nat
  active : Bool

/-- A boss projectile. -/
structure Projectile where
  x : ℚ
  y : ℚ
  vx : ℚ
  vy : ℚ
  life : ℚ

/-- The boss. -/
structure CoreGuardian where
  x : ℚ
  y : ℚ
  w : ℚ
  h : ℚ
  centerX : ℚ
  centerY : ℚ
  maxHealth : ℚ
  health : ℚ
  phase : Nat
  shieldHealth : ℚ
  projectiles : List Projectile
  alive : Bool
  timer : ℚ

/-- The deferred callbacks the simulation schedules with `setTimeout`. -/
inductive Timer where
  /-- After 900 ms: `loadLevel(currentLevel)` (scheduled by `hurtPlayer`). -/
  | reloadLevel
  /-- After 600 ms: `this.active = true` for the enemy that hit the player,
  named by its index in `enemies` when it was scheduled. -/
  | reactivate (i : Nat)
  /-- After 600 ms: `setTile(cols-2, rows-2, TILE.EXIT)` (scheduled by `die`). -/
  | placeExit
deriving DecidableEq

/-- The global mutable state of the script. -/
structure State where
  currentLevel : Int
  LEVEL_MAP : Grid
  cols : Nat
  rows : Nat
  cam : Cam
  particles : List Particle
  enemies : List Enemy
  boss : Option CoreGuardian
  player : Player
  /-- The level indices handed to `saveProgress`, most recent first. -/
  saved : List Int
  /-- The callbacks scheduled so far, most recent first. -/
  timers : List Timer
  /-- The values the next calls of `Math.random()` return. -/
  rng : Nat → ℚ

/-- The state after `k` calls of `Math.random()`. -/
def State.advance (s : State) (k : Nat) : State :=
  { s with rng := fun n => s.rng (n + k) }

/-! ## Utils -/

/-- The function `rand(min,max)`, given the value `u` of its `Math.random()`. -/
def rand (u min max : ℚ) : ℚ := u * (max - min) + min

/-- The function `clamp(v,a,b)`. -/
def clamp (v a b : ℚ) : ℚ := max a (min b v)

/-- An axis-aligned rectangle, the argument type of `rectsIntersect`. -/
structure Rect where
  x : ℚ
  y : ℚ
  w : ℚ
  h : ℚ

/-- The function `rectsIntersect(a,b)` (callers fill in the default extent 4). -/
def rectsIntersect (a b : Rect) : Bool :=
  decide (a.x < b.x + b.w) && decide (a.x + a.w > b.x)
    && decide (a.y < b.y + b.h) && decide (a.y + a.h > b.y)

def Player.rect (p : Player) : Rect := { x := p.x, y := p.y, w := p.w, h := p.h }
def Enemy.rect (e : Enemy) : Rect := { x := e.x, y := e.y, w := e.w, h := e.h }
/-- A projectile has no `w`/`h`: `rectsIntersect` uses `?? 4`. -/
def Projectile.rect (p : Projectile) : Rect := { x := p.x, y := p.y, w := 4, h := 4 }

/-- The function `tileAt(px,py)`. -/
def tileAt (s : State) (px py : ℚ) : Nat :=
  let tx : Int := ⌊px / TILE_SIZE⌋
  let ty : Int := ⌊py / TILE_SIZE⌋
  if ty < 0 ∨ ty ≥ s.rows ∨ tx < 0 ∨ tx ≥ s.cols then TILE.EMPTY
  else (s.LEVEL_MAP.cell ty.toNat tx.toNat).getD TILE.EMPTY

/-- The function `setTile(tx,ty,val)`. -/
def setTile (s : State) (tx ty : Int) (val : Nat) : State :=
  if ty < 0 ∨ ty ≥ s.rows ∨ tx < 0 ∨ tx ≥ s.cols then s
  else { s with LEVEL_MAP := s.LEVEL_MAP.assign ty.toNat tx.toNat val }

/-- The function `spawnParticle(x,y,c)`: the particle starts with `life` 40. -/
def spawnParticle (s : State) (x y size vx vy : ℚ) : State :=
  { s with particles := s.particles ++ [{ x := x, y := y, vx := vx, vy := vy, size := size, life := 40 }] }

/-! ## Level manager -/

/-- The function `saveProgress(levelIndex)`. -/
def saveProgress (s : State) (levelIndex : Int) : State :=
  { s with saved := levelIndex :: s.saved }

/-- The first `SPAWN` cell in the scan `for r < rows, for c < cols`. -/
def findSpawn (g : Grid) (rows cols : Nat) : Option (Nat × Nat) :=
  (List.range rows).findSome? (fun r =>
    ((List.range cols).find? (fun c => g.cell r c == some TILE.SPAWN)).map (fun c => (r, c)))

/-- The function `spawnPlayerAtMap()`. -/
def spawnPlayerAtMap (s : State) : State :=
  match findSpawn s.LEVEL_MAP s.rows s.cols with
  | some (r, c) =>
    { s with player := { s.player with x := c * TILE_SIZE + 4, y := r * TILE_SIZE - s.player.h - 2 } }
  | none => { s with player := { s.player with x := 40, y := 40 } }

/-- The constructor `new Enemy(x,y)`; `u0` is the draw of `rand(0.6,1.2)` and `u1`
the draw of the sign. -/
def Enemy.new (x y u0 u1 : ℚ) : Enemy :=
  { x := x, y := y, w := 12, h := 12,
    vx := rand u0 (6 / 10) (12 / 10) * (if u1 < 1 / 2 then -1 else 1),
    vy := 0, life := 2, active := true }

/-- The constructor `new CoreGuardian(x,y)`. -/
def CoreGuardian.new (x y : ℚ) : CoreGuardian :=
  { x := x, y := y, w := 64, h := 64, centerX := x + 64 / 2, centerY := y + 64 / 2,
    maxHealth := 36, health := 36, phase := 0, shieldHealth := 14, projectiles := [],
    alive := true, timer := 0 }

/-- The cells in the order of `for (r<rows) for (c<cols)`. -/
def cellsRowMajor (rows cols : Nat) : List (Nat × Nat) :=
  (List.range rows).flatMap (fun r => (List.range cols).map (fun c => (r, c)))

/-- The body of the marker loop of `loadLevel` at the cell `(r,c)`. -/
def spawnEnemyAt (s : State) (rc : Nat × Nat) : State :=
  if s.LEVEL_MAP.cell rc.1 rc.2 = some TILE.ENEMY then
    { s.advance 2 with
      enemies := s.enemies ++ [Enemy.new (rc.2 * TILE_SIZE) (rc.1 * TILE_SIZE) (s.rng 0) (s.rng 1)],
      LEVEL_MAP := s.LEVEL_MAP.assign rc.1 rc.2 TILE.EMPTY }
  else s

/-- The function `loadLevel(idx)`. -/
def loadLevel (s : State) (idx : Int) : State :=
  if idx < 0 ∨ idx ≥ LEVELS.length then s
  else
    match LEVELS[idx.toNat]? with
    | none => s
    | some lv =>
      let s1 : State :=
        { s with currentLevel := idx, LEVEL_MAP := lv.map, cols := (lv.map.headD []).length,
                 rows := lv.map.length, enemies := [], boss := none, particles := [] }
      let s2 := spawnPlayerAtMap s1
      let s3 := (cellsRowMajor s2.rows s2.cols).foldl spawnEnemyAt s2
      let s4 : State :=
        if lv.id = 4 then
          { s3 with boss := some (CoreGuardian.new
              (⌊(s3.cols : ℚ) * TILE_SIZE * (55 / 100)⌋ : Int) (⌊(s3.rows : ℚ) * TILE_SIZE * (25 / 100)⌋ : Int)) }
        else s3
      { s4 with cam := { s4.cam with x := max 0 (s4.player.x - VPORT_W / 2),
                                     y := max 0 (s4.player.y - VPORT_H / 2) } }

/-- The function `loadProgress()`, reading the value stored last. -/
def loadProgress (s : State) : Bool × State :=
  match s.saved.head? with
  | none => (false, s)
  | some l =>
    if 0 ≤ l ∧ l < LEVELS.length then (true, loadLevel s l)
    else if l = -1 then (true, s)
    else (false, s)

/-! ## Game functions -/

/-- The function `hurtPlayer(dmg)`. -/
def hurtPlayer (s : State) (dmg : Int) : State :=
  let s1 : State := { s with player := { s.player with health := s.player.health - dmg } }
  let s2 := spawnParticle s1 (s1.player.x - s1.cam.x + s1.player.w / 2)
    (s1.player.y - s1.cam.y + s1.player.h / 2) 2 (rand (s.rng 0) (-1) 1) (rand (s.rng 1) (-2) (-(2 / 10)))
  let s3 : State := { s2.advance 2 with cam := { s2.cam with shake := 6 } }
  if s3.player.health ≤ 0 then { s3 with timers := Timer.reloadLevel :: s3.timers } else s3

/-! ## Enemy -/

/-- The six hit particles of `Enemy.update`, two draws each. -/
def enemyHitParticles (e : Enemy) : Nat → State → State
  | 0, s => s
  | n + 1, s =>
    enemyHitParticles e n
      ((spawnParticle s (e.x + e.w / 2) (e.y + e.h / 2) 2
        (rand (s.rng 0) (-1) 1) (rand (s.rng 1) (-2) (-(2 / 10)))).advance 2)

/-- The method `Enemy.update()` of the enemy at index `i` of `enemies`. -/
def Enemy.update (e : Enemy) (i : Nat) (s : State) : Enemy × State :=
  let e1 : Enemy := { e with vy := clamp (e.vy + GRAVITY * (15 / 100)) (-MAX_FALL) MAX_FALL }
  let e2 : Enemy :=
    if tileAt s (e1.x + (if e1.vx > 0 then e1.w + 1 else -1)) (e1.y + e1.h / 2) ≠ TILE.EMPTY
    then { e1 with vx := e1.vx * -1 } else e1
  let e3 : Enemy := { e2 with x := e2.x + e2.vx, y := e2.y + e2.vy }
  let e4 : Enemy :=
    if tileAt s (e3.x + e3.w / 2) (e3.y + e3.h) ≠ TILE.EMPTY
    then { e3 with y := (⌊(e3.y + e3.h) / TILE_SIZE⌋ : Int) * TILE_SIZE - e3.h, vy := 0 } else e3
  if rectsIntersect e4.rect s.player.rect && e4.active then
    let s1 := hurtPlayer s 1
    let e5 : Enemy := { e4 with vx := e4.vx * -1, active := false }
    let s2 := enemyHitParticles e5 6 s1
    (e5, { s2 with timers := Timer.reactivate i :: s2.timers })
  else (e4, s)

/-- The loop `for (i=enemies.length-1; i>=0; i--) enemies[i].update()` over the
enemies from index `i` on: the later ones are updated first. -/
def updateEnemies : List Enemy → Nat → State → List Enemy × State
  | [], _, s => ([], s)
  | e :: es, i, s =>
    let r := updateEnemies es (i + 1) s
    let q := e.update i r.2
    (q.1 :: r.1, q.2)

/-! ## Boss (Core Guardian) -/

/-- The particle burst of `die()`, five draws per particle. -/
def dieParticles (b : CoreGuardian) : Nat → State → State
  | 0, s => s
  | n + 1, s =>
    dieParticles b n
      ((spawnParticle s (b.centerX - s.cam.x + rand (s.rng 0) (-40) 40)
        (b.centerY - s.cam.y + rand (s.rng 1) (-40) 40) (rand (s.rng 2) 2 4)
        (rand (s.rng 3) (-4) 4) (rand (s.rng 4) (-6) (-1))).advance 5)

/-- The method `CoreGuardian.die()`. -/
def CoreGuardian.die (b : CoreGuardian) (s : State) : CoreGuardian × State :=
  let s1 := dieParticles b 120 s
  ({ b with alive := false },
   saveProgress { s1 with timers := Timer.placeExit :: s1.timers } (-1))

/-- The method `CoreGuardian.receiveHit(d)`: the returned flag, the boss and the
globals afterwards. -/
def CoreGuardian.receiveHit (b : CoreGuardian) (d : ℚ) (s : State) : Bool × CoreGuardian × State :=
  if b.phase = 0 then
    let b1 : CoreGuardian := { b with shieldHealth := b.shieldHealth - d, timer := b.timer + d * 6 }
    (false, if b1.shieldHealth ≤ 0 then { b1 with phase := 1 } else b1, s)
  else
    let b1 : CoreGuardian := { b with health := b.health - d }
    let r : CoreGuardian × State := if b1.health ≤ 0 then b1.die s else (b1, s)
    (true,
     if r.1.health ≤ r.1.maxHealth * (35 / 100) ∧ r.1.phase < 2 then { r.1 with phase := 2 } else r.1,
     r.2)

/-- The projectile loop of `CoreGuardian.update`, from the last projectile to
the first. -/
def stepProjectiles (dt : ℚ) : List Projectile → State → List Projectile × State
  | [], s => ([], s)
  | pr :: rest, s =>
    let r := stepProjectiles dt rest s
    let pr1 : Projectile :=
      { pr with vy := pr.vy + 2 / 100, x := pr.x + pr.vx, y := pr.y + (pr.vy + 2 / 100),
                life := pr.life - dt }
    if rectsIntersect pr1.rect r.2.player.rect then (r.1, hurtPlayer r.2 1)
    else if pr1.life ≤ 0 then (r.1, r.2)
    else (pr1 :: r.1, r.2)

/-- The projectile spawned by `CoreGuardian.update`.  The stream entries are, in
evaluation order: the two offsets of the origin, the speed, the value of
`Math.cos(angle)`, the x jitter, the value of `Math.sin(angle)`, the y jitter. -/
def CoreGuardian.aim (b : CoreGuardian) (u : Nat → ℚ) : Projectile :=
  let spd := if b.phase = 2 then rand (u 2) (26 / 10) (34 / 10) else rand (u 2) (16 / 10) (24 / 10)
  { x := b.centerX + rand (u 0) (-10) 10, y := b.centerY + rand (u 1) (-10) 10,
    vx := u 3 * spd + rand (u 4) (-(3 / 10)) (3 / 10),
    vy := u 5 * spd + rand (u 6) (-(3 / 10)) (3 / 10), life := 600 }

/-- The method `CoreGuardian.update(dt)`. -/
def CoreGuardian.update (b : CoreGuardian) (dt : ℚ) (s : State) : CoreGuardian × State :=
  if b.alive = false then (b, s)
  else
    let b1 : CoreGuardian := { b with timer := b.timer + dt * (6 / 100) }
    let fire : Bool := decide (s.rng 0 < (if b1.phase = 2 then 3 / 100 else 15 / 1000))
    let b2 : CoreGuardian :=
      if fire then { b1 with projectiles := b1.projectiles ++ [b1.aim (fun n => s.rng (n + 1))] } else b1
    let s1 := if fire then s.advance 8 else s.advance 1
    let r := stepProjectiles dt b2.projectiles s1
    ({ b2 with projectiles := r.1 }, r.2)

/-! ## Update loop -/

/-- The keyboard map `keys`, for the codes `update` reads. -/
structure Keys where
  KeyA : Bool
  ArrowLeft : Bool
  KeyD : Bool
  ArrowRight : Bool
  Space : Bool
  KeyW : Bool
  ArrowUp : Bool
  ShiftLeft : Bool
  ShiftRight : Bool
  KeyE : Bool

def Keys.left (k : Keys) : Bool := k.KeyA || k.ArrowLeft
def Keys.right (k : Keys) : Bool := k.KeyD || k.ArrowRight
def Keys.up (k : Keys) : Bool := k.Space || k.KeyW || k.ArrowUp
def Keys.dash (k : Keys) : Bool := k.ShiftLeft || k.ShiftRight
def Keys.use (k : Keys) : Bool := k.KeyE

/-- Horizontal input, damping and clamp (the three lines after the key reads). -/
def moveStep (left right : Bool) (s : State) : State :=
  let p := s.player
  let p1 : Player := if left then { p with vx := p.vx - p.speed, facing := -1 } else p
  let p2 : Player := if right then { p1 with vx := p1.vx + p1.speed, facing := 1 } else p1
  let p3 : Player := { p2 with vx := p2.vx * (9 / 10) }
  { s with player := { p3 with vx := clamp p3.vx (-p3.maxSpeed) p3.maxSpeed } }

/-- Gravity and jump. -/
def jumpStep (up : Bool) (s : State) : State :=
  let p := s.player
  let p1 : Player := { p with vy := clamp (p.vy + GRAVITY * (6 / 10)) (-MAX_FALL) MAX_FALL }
  let p2 : Player :=
    if up && !p1._jumped then
      let q : Player :=
        if p1.onGround then { p1 with vy := -(86 / 10), onGround := false, canDoubleJump := true }
        else if p1.canDoubleJump then { p1 with vy := -7, canDoubleJump := false }
        else p1
      { q with _jumped := true }
    else p1
  { s with player := if !up then { p2 with _jumped := false } else p2 }

/-- Dash and its cooldown. -/
def dashStep (dash : Bool) (dt : ℚ) (s : State) : State :=
  let p := s.player
  let p1 : Player :=
    if dash && decide (p.dashCooldown ≤ 0) && !p._dashed then
      { p with _dashed := true, dashCooldown := 80, vx := p.vx + p.facing * 6 }
    else p
  let p2 : Player := if !dash then { p1 with _dashed := false } else p1
  { s with player :=
      if p2.dashCooldown > 0 then { p2 with dashCooldown := p2.dashCooldown - dt * (6 / 100) } else p2 }

/-- The step `player.x += player.vx; player.y += player.vy`. -/
def integrate (s : State) : State :=
  { s with player := { s.player with x := s.player.x + s.player.vx, y := s.player.y + s.player.vy } }

/-- The tile sampled under the feet midpoint, `tileAt(x + w/2, y + h + 1)`. -/
def feetTile (s : State) : Nat :=
  tileAt s (s.player.x + s.player.w / 2) (s.player.y + s.player.h + 1)

/-- Feet collision. -/
def feetCollision (s : State) : State :=
  let p := s.player
  if feetTile s ≠ TILE.EMPTY then
    { s with player :=
        { p with onGround := true, canDoubleJump := true,
                 y := (⌊(p.y + p.h) / TILE_SIZE⌋ : Int) * TILE_SIZE - p.h, vy := 0 } }
  else { s with player := { p with onGround := false } }

/-- World bounds and falling out of the world. -/
def worldBounds (s : State) : State :=
  let p := s.player
  let p1 : Player := if p.x < 0 then { p with x := 0 } else p
  let p2 : Player :=
    if p1.x + p1.w > s.cols * TILE_SIZE then { p1 with x := s.cols * TILE_SIZE - p1.w } else p1
  if p2.y > s.rows * TILE_SIZE + 200 then hurtPlayer { s with player := { p2 with health := 0 } } 0
  else { s with player := p2 }

/-- The cell probed by the use key: `(tx, ty)`. -/
def probe (s : State) : Int × Int :=
  (⌊(s.player.x + s.player.w / 2 + s.player.facing * 12) / TILE_SIZE⌋,
   ⌊(s.player.y + s.player.h / 2) / TILE_SIZE⌋)

/-- The ten dirt particles of a dig, four draws each. -/
def mineParticles (tx ty : Int) : Nat → State → State
  | 0, s => s
  | n + 1, s =>
    mineParticles tx ty n
      ((spawnParticle s (tx * TILE_SIZE + rand (s.rng 0) 0 12) (ty * TILE_SIZE + rand (s.rng 1) 0 12) 1
        (rand (s.rng 2) (-1) 1) (rand (s.rng 3) (-2) (-(2 / 10)))).advance 4)

/-- The action on the probed in-range cell `(tx, ty)`: dig, or pick up. -/
def useAt (s : State) (tx ty : Int) : State :=
  match s.LEVEL_MAP.cell ty.toNat tx.toNat with
  | none => s
  | some t =>
    if t = TILE.DIRT ∨ t = TILE.STONE then
      let s1 : State := { s with LEVEL_MAP := s.LEVEL_MAP.assign ty.toNat tx.toNat TILE.EMPTY }
      let s2 := mineParticles tx ty 10 s1
      let s3 := s2.advance 1
      if s2.rng 0 < 22 / 100 then
        { s3 with LEVEL_MAP := s3.LEVEL_MAP.assign (max 0 (ty - 1)).toNat tx.toNat TILE.SOUL }
      else s3
    else if t = TILE.SOUL then
      { s with LEVEL_MAP := s.LEVEL_MAP.assign ty.toNat tx.toNat TILE.EMPTY,
               player := { s.player with souls := s.player.souls + 1 } }
    else if t = TILE.HEART then
      { s with LEVEL_MAP := s.LEVEL_MAP.assign ty.toNat tx.toNat TILE.EMPTY,
               player := { s.player with health := min 9 (s.player.health + 1) } }
    else s

/-- Use / mine (E). -/
def useMine (use : Bool) (s : State) : State :=
  let s1 : State :=
    if use && !s.player._used then
      let s0 : State := { s with player := { s.player with _used := true } }
      let tx := (probe s0).1
      let ty := (probe s0).2
      if ty ≥ 0 ∧ ty < s0.rows ∧ tx ≥ 0 ∧ tx < s0.cols then useAt s0 tx ty else s0
    else s
  if !use then { s1 with player := { s1.player with _used := false } } else s1

/-- Update enemies. -/
def enemiesStep (s : State) : State :=
  let r := updateEnemies s.enemies 0 s
  { r.2 with enemies := r.1 }

/-- Boss update and hit check. -/
def bossStep (dt : ℚ) (s : State) : State :=
  match s.boss with
  | none => s
  | some b =>
    let r := b.update dt s
    let b1 := r.1
    let s1 := r.2
    let coreRect : Rect := { x := b1.centerX - 20, y := b1.centerY - 20, w := 40, h := 40 }
    if b1.alive ∧ b1.phase > 0 ∧ rectsIntersect s1.player.rect coreRect = true
        ∧ (s1.player.vy > 4 ∨ |s1.player.vx| > 5) then
      let h := b1.receiveHit 2 s1
      let s2 := h.2.2
      if h.1 then
        { s2 with boss := some h.2.1,
                  player := { s2.player with vy := -3, vx := s2.player.vx * -(4 / 10) } }
      else { s2 with boss := some h.2.1 }
    else { s1 with boss := some b1 }

/-- Exit tile check. -/
def exitCheck (s : State) : State :=
  if feetTile s = TILE.EXIT then
    if s.currentLevel + 1 < LEVELS.length then
      let s1 := loadLevel s (s.currentLevel + 1)
      saveProgress s1 (s1.currentLevel + 1)
    else saveProgress s (-1)
  else s

/-- Camera smoothing and shake. -/
def cameraStep (s : State) : State :=
  let p := s.player
  let targetX := clamp (p.x - VPORT_W / 2 + p.w / 2) 0 (max 0 (s.cols * TILE_SIZE - VPORT_W))
  let targetY := clamp (p.y - VPORT_H / 2 + p.h / 2) 0 (max 0 (s.rows * TILE_SIZE - VPORT_H))
  let c1 : Cam := { s.cam with x := s.cam.x + (targetX - s.cam.x) * (12 / 100),
                               y := s.cam.y + (targetY - s.cam.y) * (12 / 100) }
  if c1.shake > 0 then
    let sh := c1.shake * (9 / 10)
    { s.advance 2 with cam := { x := c1.x + rand (s.rng 0) (-sh) sh,
                                y := c1.y + rand (s.rng 1) (-sh) sh, shake := sh } }
  else { s with cam := c1 }

/-- One particle of the particle loop. -/
def Particle.step (p : Particle) : Particle :=
  { p with x := p.x + p.vx, y := p.y + p.vy, vy := p.vy + 6 / 100, life := p.life - 1 }

/-- Particles update. -/
def particlesStep (s : State) : State :=
  { s with particles := (s.particles.map Particle.step).filter (fun p => decide (0 < p.life)) }

/-- The function `update(dt)`, reading the keyboard map `keys`. -/
def update (dt : ℚ) (keys : Keys) (s : State) : State :=
  s |> moveStep keys.left keys.right
    |> jumpStep keys.up
    |> dashStep keys.dash dt
    |> integrate
    |> feetCollision
    |> worldBounds
    |> useMine keys.use
    |> enemiesStep
    |> bossStep dt
    |> exitCheck
    |> cameraStep
    |> particlesStep

/-! ## Deferred callbacks, restart, initial state -/

/-- The body of a scheduled callback. -/
def Timer.fire (t : Timer) (s : State) : State :=
  match t with
  | .reloadLevel => loadLevel s s.currentLevel
  | .reactivate i => { s with enemies := s.enemies.modify (fun e => { e with active := true }) i }
  | .placeExit => setTile s ((s.cols : Int) - 2) ((s.rows : Int) - 2) TILE.EXIT

/-- The click handler of the restart button. -/
def restart (s : State) : State :=
  loadLevel { s with player := { s.player with health := 5, souls := 0 } } 0

/-- The globals as the script declares them, before any tick. -/
def initialState (rng : Nat → ℚ) : State :=
  let LEVEL_MAP : Grid := (LEVELS.headD { id := 0, map := [] }).map
  { currentLevel := 0,
    LEVEL_MAP := LEVEL_MAP,
    cols := (LEVEL_MAP.headD []).length, rows := LEVEL_MAP.length,
    cam := { x := 0, y := 0, shake := 0 },
    particles := [], enemies := [], boss := none,
    player := { x := 32, y := 32, vx := 0, vy := 0, onGround := false, canDoubleJump := true,
                facing := 1, health := 5, souls := 0, dashCooldown := 0,
                _jumped := false, _used := false, _dashed := false },
    saved := [], timers := [], rng := rng }

/-! ## Definitions used by the statements and proofs -/

/-- The level definition `LEVELS[i]`. -/
def levelAt (i : Nat) : LevelDef := LEVELS.getD i { id := 0, map := [] }

/-- The effect of the marker loop of `loadLevel` on the grid alone. -/
def clearEnemyAt (g : Grid) (rc : Nat × Nat) : Grid :=
  if g.cell rc.1 rc.2 = some TILE.ENEMY then g.assign rc.1 rc.2 TILE.EMPTY else g

/-- The grid `loadLevel` builds from a level definition. -/
def loadedGrid (lv : LevelDef) : Grid :=
  (cellsRowMajor lv.map.length (lv.map.headD []).length).foldl clearEnemyAt lv.map

/-- The player `q` is the player `p` after zero or more damage events: nothing
but `health` differs, and `health` did not grow. -/
def hurtOf (p q : Player) : Prop :=
  q = { p with health := q.health } ∧ q.health ≤ p.health

/-- One event of the game: an update tick, a damage event, a use action, a
level load, a deferred callback, or the restart button. -/
inductive Step : State → State → Prop where
  | tick (dt : ℚ) (keys : Keys) (s : State) : Step s (update dt keys s)
  | hurt (dmg : Int) (h : 0 ≤ dmg) (s : State) : Step s (hurtPlayer s dmg)
  | pickup (s : State) : Step s (useMine true s)
  | load (idx : Int) (s : State) : Step s (loadLevel s idx)
  | timer (t : Timer) (s : State) : Step s (t.fire s)
  | restart (s : State) : Step s (restart s)

/-- The states the game can be in. -/
inductive Reachable : State → Prop where
  | init (rng : Nat → ℚ) : Reachable (initialState rng)
  | step {s t : State} : Reachable s → Step s t → Reachable t

/-- The boss and the globals after `n` successive calls `receiveHit(d)`. -/
def receiveHits (d : ℚ) : Nat → CoreGuardian → State → CoreGuardian × State
  | 0, b, s => (b, s)
  | n + 1, b, s =>
    let r := receiveHits d n b s
    let h := r.1.receiveHit d r.2
    (h.2.1, h.2.2)

/-- The state `t` has the grid, the extent and the level index of `s`. -/
def sameGrid (s t : State) : Prop :=
  t.LEVEL_MAP = s.LEVEL_MAP ∧ t.cols = s.cols ∧ t.rows = s.rows ∧ t.currentLevel = s.currentLevel

/-- The grid invariant of the running game: `rows` is the number of rows of
`LEVEL_MAP`, and the world is at least two cells wide and two cells high. -/
def GridOk (s : State) : Prop :=
  s.rows = s.LEVEL_MAP.length ∧ 2 ≤ s.rows ∧ 2 ≤ s.cols

/-- The guard of the ground-jump assignment `player.vy = -8.6` in `update`:
`up && !player._jumped` with `player.onGround`. -/
def groundJump (up : Bool) (p : Player) : Bool := up && !p._jumped && p.onGround

/-- The guard of the double-jump assignment `player.vy = -7` in `update`:
`up && !player._jumped`, not `player.onGround`, and `player.canDoubleJump`. -/
def doubleJump (up : Bool) (p : Player) : Bool :=
  up && !p._jumped && !p.onGround && p.canDoubleJump

/-- A jump action: one of the two assignments of an upward impulse to `vy`. -/
def jumpAction (up : Bool) (p : Player) : Bool := groundJump up p || doubleJump up p

/-- The state of a tick when it reaches the feet-collision step. -/
def atFeet (dt : ℚ) (keys : Keys) (s : State) : State :=
  integrate (dashStep keys.dash dt (jumpStep keys.up (moveStep keys.left keys.right s)))

/-- The feet-collision step of the tick detects a non-empty tile. -/
def contact (dt : ℚ) (keys : Keys) (s : State) : Bool :=
  decide (feetTile (atFeet dt keys s) ≠ TILE.EMPTY)

/-- The state after `n` consecutive update ticks from `s`; tick `j` (counted
from 0) runs with the frame time and keyboard state `inp j`. -/
def tickState (inp : Nat → ℚ × Keys) (s : State) : Nat → State
  | 0 => s
  | n + 1 => update (inp n).1 (inp n).2 (tickState inp s n)

/-- The grid the spec describes for a loaded level: the definition's matrix
with each `ENEMY` marker replaced by `EMPTY`. -/
def specGrid (lv : LevelDef) : Grid :=
  lv.map.map (fun row => row.map (fun t => if t = some TILE.ENEMY then some TILE.EMPTY else t))

/-- The `ENEMY` marker cells `(r,c)` of a grid in row-major order, each row
taken over its own length. -/
def markerCells (g : Grid) : List (Nat × Nat) :=
  (List.range g.length).flatMap (fun r =>
    ((List.range (g.getD r []).length).filter (fun c => g.cell r c == some TILE.ENEMY)).map
      (fun c => (r, c)))

/-- The cells at which the marker loop of `loadLevel` finds `ENEMY`, visiting
`cells` in order on the grid `g` (each found marker is cleared). -/
def scanEnemies (g : Grid) : List (Nat × Nat) → List (Nat × Nat)
  | [] => []
  | rc :: rest =>
    if g.cell rc.1 rc.2 = some TILE.ENEMY then
      rc :: scanEnemies (g.assign rc.1 rc.2 TILE.EMPTY) rest
    else scanEnemies g rest

/-- The position of an enemy. -/
def Enemy.pos (e : Enemy) : ℚ × ℚ := (e.x, e.y)

/-- The position `(c*16, r*16)` of the enemy spawned from the marker cell
`(r,c)`. -/
def markerPos (rc : Nat × Nat) : ℚ × ℚ := ((rc.2 : ℚ) * TILE_SIZE, (rc.1 : ℚ) * TILE_SIZE)

/-- The guard of the dash statement of `update`:
`dash && player.dashCooldown <= 0 && !player._dashed`. -/
def dashFires (dash : Bool) (p : Player) : Bool :=
  dash && decide (p.dashCooldown ≤ 0) && !p._dashed

/-- The state of a tick when it reaches the dash statement. -/
def atDash (keys : Keys) (s : State) : State :=
  jumpStep keys.up (moveStep keys.left keys.right s)

/-- The state `t` has the enemies, the boss and the level index of `s`. -/
def sameCast (s t : State) : Prop :=
  t.enemies = s.enemies ∧ t.boss = s.boss ∧ t.currentLevel = s.currentLevel

/-- The enemy at its post-move position in `Enemy.update()`: after gravity, the
wall probe, the integration and the ground snap, before the contact test. -/
def Enemy.moved (e : Enemy) (s : State) : Enemy :=
  let e1 : Enemy := { e with vy := clamp (e.vy + GRAVITY * (15 / 100)) (-MAX_FALL) MAX_FALL }
  let e2 : Enemy :=
    if tileAt s (e1.x + (if e1.vx > 0 then e1.w + 1 else -1)) (e1.y + e1.h / 2) ≠ TILE.EMPTY
    then { e1 with vx := e1.vx * -1 } else e1
  let e3 : Enemy := { e2 with x := e2.x + e2.vx, y := e2.y + e2.vy }
  if tileAt s (e3.x + e3.w / 2) (e3.y + e3.h) ≠ TILE.EMPTY
  then { e3 with y := (⌊(e3.y + e3.h) / TILE_SIZE⌋ : Int) * TILE_SIZE - e3.h, vy := 0 } else e3

/-- The wall probe of `Enemy.update()` finds a tile ahead of the enemy. -/
def Enemy.wallAhead (e : Enemy) (s : State) : Bool :=
  decide (tileAt s (e.x + (if e.vx > 0 then e.w + 1 else -1)) (e.y + e.h / 2) ≠ TILE.EMPTY)

/-- The guard of the contact branch of `Enemy.update()`:
`rectsIntersect(this, player) && this.active` at the post-move position. -/
def Enemy.hits (e : Enemy) (s : State) : Bool :=
  rectsIntersect (e.moved s).rect s.player.rect && (e.moved s).active

/-- The state of a tick when it reaches the enemies loop. -/
def atEnemies (dt : ℚ) (keys : Keys) (s : State) : State :=
  useMine keys.use (worldBounds (feetCollision (atFeet dt keys s)))

/-- The state of a tick when it reaches the exit tile check. -/
def atExit (dt : ℚ) (keys : Keys) (s : State) : State :=
  bossStep dt (enemiesStep (atEnemies dt keys s))

/-- The globals when the enemies loop started in `s` calls `enemies[i].update()`:
the enemies after `i` have been updated, the last one first. -/
def loopState (s : State) (i : Nat) : State :=
  (updateEnemies (s.enemies.drop (i + 1)) (i + 1) s).2

/-- The enemy `enemies[i]` deals contact damage in the enemies loop started in
`s`. -/
def enemyHits (i : Nat) (s : State) : Bool :=
  match s.enemies[i]? with
  | some e => e.hits (loopState s i)
  | none => false

/-- The enemy `enemies[i]` deals contact damage in the tick from `s`. -/
def dealsDamage (i : Nat) (dt : ℚ) (keys : Keys) (s : State) : Bool :=
  enemyHits i (atEnemies dt keys s)

/-- The enemy `enemies[i]` exists and its `active` flag is set. -/
def isActive (i : Nat) (s : State) : Bool :=
  match s.enemies[i]? with
  | some e => e.active
  | none => false

/-- The exit check of the tick from `s` loads the next level: the guard of
`loadLevel(currentLevel + 1)` in `update`. -/
def levelChange (dt : ℚ) (keys : Keys) (s : State) : Bool :=
  decide (feetTile (atExit dt keys s) = TILE.EXIT
    ∧ (atExit dt keys s).currentLevel + 1 < LEVELS.length)

/-- The state is on the final level and its boss is as the constructor left it
in the fields a hit would change: phase 0, shield 14, health 36, alive. -/
def FreshBoss (s : State) : Prop :=
  s.currentLevel = 4
  ∧ ∃ b, s.boss = some b ∧ b.phase = 0 ∧ b.shieldHealth = 14 ∧ b.health = 36 ∧ b.alive = true

/-- The vertical velocity gravity alone leaves in a tick:
`clamp(vy + GRAVITY * 0.6, -MAX_FALL, MAX_FALL)`. -/
def gravityVy (p : Player) : ℚ := clamp (p.vy + GRAVITY * (6 / 10)) (-MAX_FALL) MAX_FALL

/-- The tick from `s` performs a jump action, read off what `update` has done to
the player when it reaches the feet collision: `vy` is not the value gravity
alone leaves, or `onGround` or `canDoubleJump` has changed. -/
def jumpEffect (dt : ℚ) (keys : Keys) (s : State) : Bool :=
  decide ((atFeet dt keys s).player.vy ≠ gravityVy s.player)
    || ((atFeet dt keys s).player.onGround != s.player.onGround)
    || ((atFeet dt keys s).player.canDoubleJump != s.player.canDoubleJump)

/-- The tick from `s` performs a jump action while the player is not on the
ground: a double jump. -/
def airJump (dt : ℚ) (keys : Keys) (s : State) : Bool :=
  jumpEffect dt keys s && !s.player.onGround

/-- The dash cooldown a tick leaves when it only runs the cooldown down:
`dashCooldown - dt * 0.06` if `dashCooldown > 0`, else `dashCooldown`. -/
def runningCooldown (dt : ℚ) (p : Player) : ℚ :=
  if p.dashCooldown > 0 then p.dashCooldown - dt * (6 / 100) else p.dashCooldown

/-- The tick from `s` applies a dash impulse, read off what `update` has done to
the player when it reaches the feet collision: `vx` is not the damped and
clamped value the horizontal input leaves, or `dashCooldown` is not the one the
running cooldown leaves. -/
def dashEffect (dt : ℚ) (keys : Keys) (s : State) : Bool :=
  decide ((atFeet dt keys s).player.vx ≠ (moveStep keys.left keys.right s).player.vx)
    || decide ((atFeet dt keys s).player.dashCooldown ≠ runningCooldown dt s.player)

/-! ## Concrete states used to evaluate the program -/

/-- No key held. -/
def noKeys : Keys :=
  { KeyA := false, ArrowLeft := false, KeyD := false, ArrowRight := false, Space := false,
    KeyW := false, ArrowUp := false, ShiftLeft := false, ShiftRight := false, KeyE := false }

/-- Only the left shift key (dash) held. -/
def dashKeys : Keys := { noKeys with ShiftLeft := true }

/-- A two-row world whose second row is shorter than `cols`. -/
def raggedState : State :=
  { initialState (fun _ => 0) with LEVEL_MAP := [rowOf [0, 0, 0], rowOf [2]], cols := 3, rows := 2 }

/-- A one-row world with a dirt tile in row 0, the player facing it; every draw
of `Math.random()` is 0. -/
def topRowState : State :=
  { initialState (fun _ => 0) with
    LEVEL_MAP := [rowOf [0, 1]], cols := 2, rows := 1,
    player := { (initialState (fun _ => 0)).player with x := 0, y := 0 } }

/-- Level 3 ("Ruined Sanctum") as `loadLevel(3)` leaves its grid, the player
standing on the stone floor at `(32,32)` facing right, so that the probed cell
is the dirt tile `(3,2)` under the heart `(3,1)`; every draw of `Math.random()`
is 0. -/
def sanctumState : State :=
  { initialState (fun _ => 0) with
    currentLevel := 3,
    LEVEL_MAP :=
      [ rowOf [0,0,0,0,4,0,0,0,0,0,0,0,0,0],
        rowOf [0,0,0,5,0,0,0,0,0,0,0,0,0,0],
        rowOf [9,0,0,1,1,1,0,1,3,1,0,0,0,0],
        filled 14 2,
        filled 14 2 ],
    cols := 14, rows := 5,
    player := { (initialState (fun _ => 0)).player with x := 32, y := 32, onGround := true } }

/-- Level 0 with an exit tile at the cell `(18,3)` (the cell `(cols-2, rows-2)`
that the callback of `die()` writes), the player standing on it at `(290,32)`;
no enemies, no boss. -/
def exitState : State :=
  { initialState (fun _ => 0) with
    LEVEL_MAP := (initialState (fun _ => 0)).LEVEL_MAP.assign 3 18 TILE.EXIT,
    player := { (initialState (fun _ => 0)).player with x := 290, y := 32, onGround := true } }

/-- Level 0, the player falling beside the dirt block: at `(50, 27.34)` with
`vy = 3.24`, which is where seven ticks of free fall from a bottom edge at 32
bring it (0.54 + 1.08 + ... + 3.24 = 11.34). -/
def dropState : State :=
  { initialState (fun _ => 0) with
    player := { (initialState (fun _ => 0)).player with
                x := 50, y := 2734 / 100, vy := 324 / 100, onGround := false } }

/-- The initial state after six calls `hurtPlayer(1)`. -/
def sixHits : State :=
  hurtPlayer (hurtPlayer (hurtPlayer (hurtPlayer (hurtPlayer (hurtPlayer
    (initialState (fun _ => 0)) 1) 1) 1) 1) 1) 1

/-- Only the space key (jump) held. -/
def jumpKeys : Keys := { noKeys with Space := true }

/-- The input sequence that keeps the jump key held, 16 ms per tick. -/
def heldJump : Nat → ℚ × Keys := fun _ => (16, jumpKeys)

/-- Level 0, the player in the air at `(50,10)` facing right, so that the probed
cell is the soul `(4,1)`. -/
def soulState : State :=
  { initialState (fun _ => 0) with
    player := { (initialState (fun _ => 0)).player with x := 50, y := 10 } }

/-- Level 3, the player in the air at `(32,10)` facing right, so that the probed
cell is the heart `(3,1)`. -/
def heartState : State :=
  { sanctumState with player := { sanctumState.player with y := 10, onGround := false } }

/-- An active enemy moving right at `(51,36)`, on the stone floor of level 0,
one pixel short of the dirt block of cell `(4,2)`. -/
def wallEnemy : Enemy :=
  { x := 51, y := 36, w := 12, h := 12, vx := 1, vy := 0, life := 2, active := true }

/-- Level 0 with `wallEnemy` as its only enemy and the player standing at
`(44,32)`, overlapping it. -/
def wallState : State :=
  { initialState (fun _ => 0) with
    enemies := [wallEnemy],
    player := { (initialState (fun _ => 0)).player with x := 44, y := 32, onGround := true } }

/-- The input sequence with no key held, 16 ms per tick. -/
def idle : Nat → ℚ × Keys := fun _ => (16, noKeys)

/-- The state one tick after `loadLevel(0)` with no key held: the player, spawned
with its bottom edge at 30, is falling onto the spawn tile. -/
def spawnFall : State := update 16 noKeys (loadLevel (initialState (fun _ => 0)) 0)

/-- The input sequence of a dash press, a release for one tick, and a second
press that is kept held; 40 ms per tick. -/
def heldDash : Nat → ℚ × Keys := fun n => (40, if n = 1 then noKeys else dashKeys)

/-! ## Lemmas: tile rows and the grid -/

theorem jsGet_jsSet_same (row : Row) (i v : Nat) : jsGet (jsSet row i v) i = some v := by
  unfold jsGet jsSet
  split
  · next h => simp [List.getElem?_set_self h]
  · next h =>
    have h1 : (row ++ List.replicate (i - row.length) none).length = i := by
      simp; omega
    rw [List.getElem?_append_right (by omega)]
    simp [h1]

theorem jsGet_jsSet_other (row : Row) (i j v : Nat) (hij : j ≠ i) :
    jsGet (jsSet row i v) j = jsGet row j := by
  unfold jsGet jsSet
  split
  · next h => rw [List.getElem?_set_ne (Ne.symm hij)]
  · next h =>
    rcases Nat.lt_or_ge j row.length with hj | hj
    · rw [List.append_assoc, List.getElem?_append_left hj]
    · rw [List.getElem?_eq_none hj]
      rcases Nat.lt_or_ge j i with hji | hji
      · rw [List.getElem?_append_left (by simp; omega), List.getElem?_append_right hj,
          List.getElem?_replicate]
        simp
      · rw [List.getElem?_eq_none (by simp; omega)]

theorem Grid.cell_assign_same (g : Grid) (r c v : Nat) (hr : r < g.length) :
    (g.assign r c v).cell r c = some v := by
  unfold Grid.assign Grid.cell
  rw [List.getElem?_eq_getElem hr]
  simp [List.getElem?_set_self hr, jsGet_jsSet_same]

theorem Grid.cell_assign_other (g : Grid) (r c r1 c1 v : Nat) (h : r1 ≠ r ∨ c1 ≠ c) :
    (g.assign r c v).cell r1 c1 = g.cell r1 c1 := by
  unfold Grid.assign Grid.cell
  cases hg : g[r]? with
  | none => rfl
  | some row =>
    by_cases hr : r1 = r
    · subst hr
      have hc : c1 ≠ c := by
        rcases h with h | h
        · exact absurd rfl h
        · exact h
      have hlt : r1 < g.length := by
        rcases List.getElem?_eq_some.mp hg with ⟨hl, _⟩
        exact hl
      simp [List.getElem?_set_self hlt, hg, jsGet_jsSet_other _ _ _ _ hc]
    · simp [List.getElem?_set_ne (Ne.symm hr)]

theorem Grid.length_assign (g : Grid) (r c v : Nat) : (g.assign r c v).length = g.length := by
  unfold Grid.assign
  split <;> simp

theorem Grid.lt_length_of_cell (g : Grid) (r c t : Nat) (h : g.cell r c = some t) :
    r < g.length := by
  unfold Grid.cell at h
  cases hg : g[r]? with
  | none => simp [hg] at h
  | some row =>
    rcases List.getElem?_eq_some.mp hg with ⟨hl, _⟩
    exact hl

theorem Grid.cell_eq_none (g : Grid) (n m r c : Nat) (hn : g.length ≤ n)
    (hm : ∀ row ∈ g, row.length ≤ m) (h : n ≤ r ∨ m ≤ c) : g.cell r c = none := by
  unfold Grid.cell
  cases hg : g[r]? with
  | none => rfl
  | some row =>
    rcases List.getElem?_eq_some.mp hg with ⟨hl, hrow⟩
    have hmem : row ∈ g := hrow ▸ List.getElem_mem hl
    have hlen := hm row hmem
    rcases h with h | h
    · omega
    · simp only [Option.some_bind, jsGet]
      rw [List.getElem?_eq_none (by omega)]
      rfl

/-! ## Lemmas: mining -/

theorem mineParticles_LEVEL_MAP (tx ty : Int) (n : Nat) (s : State) :
    (mineParticles tx ty n s).LEVEL_MAP = s.LEVEL_MAP := by
  induction n generalizing s with
  | zero => rfl
  | succ n ih => rw [mineParticles, ih]; rfl

theorem mineParticles_rng (tx ty : Int) (n : Nat) (s : State) (k : Nat) :
    (mineParticles tx ty n s).rng k = s.rng (k + 4 * n) := by
  induction n generalizing s k with
  | zero => rfl
  | succ n ih =>
    rw [mineParticles, ih]
    show s.rng (k + 4 * n + 4) = s.rng (k + 4 * (n + 1))
    congr 1

theorem mineParticles_player (tx ty : Int) (n : Nat) (s : State) :
    (mineParticles tx ty n s).player = s.player := by
  induction n generalizing s with
  | zero => rfl
  | succ n ih => rw [mineParticles, ih]; rfl

/-- The grid after a use-key press that digs: the probed cell is cleared, and
when the 41st draw (after the 40 particle draws) is below 0.22 a soul is
written at `(tx, max(0, ty-1))`. -/
theorem useMine_dig_grid (s : State) (tx ty : Int) (hu : s.player._used = false)
    (hp : probe s = (tx, ty))
    (hr : 0 ≤ ty ∧ ty < (s.rows : Int) ∧ 0 ≤ tx ∧ tx < (s.cols : Int))
    (ht : s.LEVEL_MAP.cell ty.toNat tx.toNat = some TILE.DIRT
      ∨ s.LEVEL_MAP.cell ty.toNat tx.toNat = some TILE.STONE) :
    (useMine true s).LEVEL_MAP =
      if s.rng 40 < 22 / 100 then
        (s.LEVEL_MAP.assign ty.toNat tx.toNat TILE.EMPTY).assign (max 0 (ty - 1)).toNat tx.toNat TILE.SOUL
      else s.LEVEL_MAP.assign ty.toNat tx.toNat TILE.EMPTY := by
  have hp0 : probe { s with player := { s.player with _used := true } } = (tx, ty) := hp
  have hg : ty ≥ 0 ∧ ty < (s.rows : Int) ∧ tx ≥ 0 ∧ tx < (s.cols : Int) := by omega
  have hrng : (mineParticles tx ty 10
      { s with player := { s.player with _used := true },
               LEVEL_MAP := s.LEVEL_MAP.assign ty.toNat tx.toNat TILE.EMPTY }).rng 0 = s.rng 40 := by
    rw [mineParticles_rng]
  unfold useMine
  simp only [hu, Bool.not_false, Bool.and_self, if_true, hp0, hg, and_self, Bool.not_true,
    Bool.false_eq_true, if_false]
  unfold useAt
  rcases ht with ht | ht
  · simp only [ht, true_or, if_true, hrng]
    split
    · simp only [State.advance, mineParticles_LEVEL_MAP]
    · simp only [State.advance, mineParticles_LEVEL_MAP]
  · simp only [ht, or_true, if_true, hrng]
    split
    · simp only [State.advance, mineParticles_LEVEL_MAP]
    · simp only [State.advance, mineParticles_LEVEL_MAP]

theorem topRowState_facts :
    topRowState.player._used = false ∧ probe topRowState = (1, 0)
    ∧ (0 ≤ (0 : Int) ∧ (0 : Int) < (topRowState.rows : Int) ∧ 0 ≤ (1 : Int)
        ∧ (1 : Int) < (topRowState.cols : Int))
    ∧ topRowState.LEVEL_MAP.cell 0 1 = some TILE.DIRT
    ∧ topRowState.rng 40 < 22 / 100 := by
  refine ⟨rfl, ?_, ?_, ?_, ?_⟩
  · norm_num [probe, topRowState, initialState, Player.w, Player.h]
  · norm_num [topRowState]
  · simp [topRowState, Grid.cell, jsGet, rowOf]
  · norm_num [topRowState, initialState]

theorem sanctumState_facts :
    sanctumState.player._used = false ∧ probe sanctumState = (3, 2)
    ∧ (0 ≤ (2 : Int) ∧ (2 : Int) < (sanctumState.rows : Int) ∧ 0 ≤ (3 : Int)
        ∧ (3 : Int) < (sanctumState.cols : Int))
    ∧ sanctumState.LEVEL_MAP.cell 2 3 = some TILE.DIRT
    ∧ sanctumState.LEVEL_MAP.cell 1 3 = some TILE.HEART
    ∧ sanctumState.rng 40 < 22 / 100 := by
  refine ⟨rfl, ?_, ?_, ?_, ?_, ?_⟩
  · norm_num [probe, sanctumState, initialState, Player.w, Player.h]
  · norm_num [sanctumState]
  · simp [sanctumState, Grid.cell, jsGet, rowOf]
  · simp [sanctumState, Grid.cell, jsGet, rowOf]
  · norm_num [sanctumState, initialState]

/-! ## Lemmas: level load -/

theorem foldl_spawnEnemyAt_LEVEL_MAP (cells : List (Nat × Nat)) (s : State) :
    (cells.foldl spawnEnemyAt s).LEVEL_MAP = cells.foldl clearEnemyAt s.LEVEL_MAP := by
  induction cells generalizing s with
  | nil => rfl
  | cons rc cells ih =>
    rw [List.foldl_cons, List.foldl_cons, ih]
    congr 1
    unfold spawnEnemyAt clearEnemyAt
    split <;> rfl

theorem foldl_spawnEnemyAt_frame (cells : List (Nat × Nat)) (s : State) :
    (cells.foldl spawnEnemyAt s).player = s.player
    ∧ (cells.foldl spawnEnemyAt s).currentLevel = s.currentLevel
    ∧ (cells.foldl spawnEnemyAt s).saved = s.saved
    ∧ (cells.foldl spawnEnemyAt s).timers = s.timers
    ∧ (cells.foldl spawnEnemyAt s).cols = s.cols
    ∧ (cells.foldl spawnEnemyAt s).rows = s.rows
    ∧ (cells.foldl spawnEnemyAt s).cam = s.cam
    ∧ (cells.foldl spawnEnemyAt s).boss = s.boss
    ∧ (cells.foldl spawnEnemyAt s).particles = s.particles := by
  induction cells generalizing s with
  | nil => exact ⟨rfl, rfl, rfl, rfl, rfl, rfl, rfl, rfl, rfl⟩
  | cons rc cells ih =>
    rw [List.foldl_cons]
    have h := ih (spawnEnemyAt s rc)
    have h0 : (spawnEnemyAt s rc).player = s.player
        ∧ (spawnEnemyAt s rc).currentLevel = s.currentLevel
        ∧ (spawnEnemyAt s rc).saved = s.saved
        ∧ (spawnEnemyAt s rc).timers = s.timers
        ∧ (spawnEnemyAt s rc).cols = s.cols
        ∧ (spawnEnemyAt s rc).rows = s.rows
        ∧ (spawnEnemyAt s rc).cam = s.cam
        ∧ (spawnEnemyAt s rc).boss = s.boss
        ∧ (spawnEnemyAt s rc).particles = s.particles := by
      unfold spawnEnemyAt
      split <;> exact ⟨rfl, rfl, rfl, rfl, rfl, rfl, rfl, rfl, rfl⟩
    obtain ⟨a1, a2, a3, a4, a5, a6, a7, a8, a9⟩ := h
    obtain ⟨b1, b2, b3, b4, b5, b6, b7, b8, b9⟩ := h0
    exact ⟨a1.trans b1, a2.trans b2, a3.trans b3, a4.trans b4, a5.trans b5, a6.trans b6,
      a7.trans b7, a8.trans b8, a9.trans b9⟩

theorem spawnPlayerAtMap_frame (s : State) :
    (spawnPlayerAtMap s).LEVEL_MAP = s.LEVEL_MAP ∧ (spawnPlayerAtMap s).rows = s.rows
    ∧ (spawnPlayerAtMap s).cols = s.cols := by
  unfold spawnPlayerAtMap
  split <;> exact ⟨rfl, rfl, rfl⟩

theorem spawnPlayerAtMap_player (s : State) :
    ∃ x y, (spawnPlayerAtMap s).player = { s.player with x := x, y := y } := by
  unfold spawnPlayerAtMap
  split
  · exact ⟨_, _, rfl⟩
  · exact ⟨_, _, rfl⟩

theorem loadLevel_LEVEL_MAP (s : State) (idx : Int) (lv : LevelDef) (h0 : 0 ≤ idx)
    (h5 : idx < LEVELS.length) (hlv : LEVELS[idx.toNat]? = some lv) :
    (loadLevel s idx).LEVEL_MAP = loadedGrid lv := by
  have hg : ¬ (idx < 0 ∨ idx ≥ (LEVELS.length : Int)) := by omega
  unfold loadLevel
  simp only [if_neg hg, hlv]
  have h : ∀ t : State, (if lv.id = 4 then { t with boss := some (CoreGuardian.new
      (⌊(t.cols : ℚ) * TILE_SIZE * (55 / 100)⌋ : Int) (⌊(t.rows : ℚ) * TILE_SIZE * (25 / 100)⌋ : Int)) }
      else t).LEVEL_MAP = t.LEVEL_MAP := by
    intro t; split <;> rfl
  show (if lv.id = 4 then _ else _ : State).LEVEL_MAP = _
  rw [h, foldl_spawnEnemyAt_LEVEL_MAP, (spawnPlayerAtMap_frame _).1, (spawnPlayerAtMap_frame _).2.1,
    (spawnPlayerAtMap_frame _).2.2]
  rfl

theorem LEVELS_getElem? (i : Nat) (hi : i < 5) : LEVELS[i]? = some (levelAt i) := by
  interval_cases i <;> rfl

set_option maxRecDepth 100000 in
theorem loadedGrid_no_enemy :
    ∀ i < 5, ∀ r < 5, ∀ c < 20, (loadedGrid (levelAt i)).cell r c ≠ some TILE.ENEMY := by
  decide

set_option maxRecDepth 100000 in
theorem loadedGrid_enemy_cleared :
    ∀ i < 5, ∀ r < 5, ∀ c < 20, (levelAt i).map.cell r c = some TILE.ENEMY →
      (loadedGrid (levelAt i)).cell r c = some TILE.EMPTY := by
  decide

set_option maxRecDepth 100000 in
theorem loadedGrid_spawn_kept :
    ∀ i < 5, ∀ r < 5, ∀ c < 20, (levelAt i).map.cell r c = some TILE.SPAWN →
      (loadedGrid (levelAt i)).cell r c = some TILE.SPAWN := by
  decide

set_option maxRecDepth 100000 in
theorem level_extent :
    ∀ i < 5, (loadedGrid (levelAt i)).length ≤ 5 ∧ (∀ row ∈ loadedGrid (levelAt i), row.length ≤ 20)
      ∧ (levelAt i).map.length ≤ 5 ∧ (∀ row ∈ (levelAt i).map, row.length ≤ 20) := by
  decide

theorem loadLevel_LEVEL_MAP_valid (s : State) (idx : Int) (h0 : 0 ≤ idx) (h5 : idx < 5) :
    (loadLevel s idx).LEVEL_MAP = loadedGrid (levelAt idx.toNat) :=
  loadLevel_LEVEL_MAP s idx _ h0 (by simpa [LEVELS] using h5) (LEVELS_getElem? _ (by omega))

theorem loadLevel_player (s : State) (idx : Int) :
    ∃ x y, (loadLevel s idx).player = { s.player with x := x, y := y } := by
  unfold loadLevel
  split
  · exact ⟨s.player.x, s.player.y, rfl⟩
  · split
    · exact ⟨s.player.x, s.player.y, rfl⟩
    · next lv hlv =>
      dsimp only
      obtain ⟨x, y, hxy⟩ := spawnPlayerAtMap_player
        { s with currentLevel := idx, LEVEL_MAP := lv.map, cols := (lv.map.headD []).length,
                 rows := lv.map.length, enemies := [], boss := none, particles := [] }
      refine ⟨x, y, ?_⟩
      split_ifs
      · show (List.foldl spawnEnemyAt _ _).player = _
        rw [(foldl_spawnEnemyAt_frame _ _).1, hxy]
      · show (List.foldl spawnEnemyAt _ _).player = _
        rw [(foldl_spawnEnemyAt_frame _ _).1, hxy]

theorem loadLevel_frame (s : State) (idx : Int) (h0 : 0 ≤ idx) (h5 : idx < 5) :
    (loadLevel s idx).currentLevel = idx ∧ (loadLevel s idx).saved = s.saved
    ∧ (loadLevel s idx).timers = s.timers := by
  have hg : ¬ (idx < 0 ∨ idx ≥ (LEVELS.length : Int)) := by
    have : (LEVELS.length : Int) = 5 := rfl
    omega
  unfold loadLevel
  simp only [if_neg hg, LEVELS_getElem? idx.toNat (by omega)]
  have hsp : ∀ t : State, (spawnPlayerAtMap t).currentLevel = t.currentLevel
      ∧ (spawnPlayerAtMap t).saved = t.saved ∧ (spawnPlayerAtMap t).timers = t.timers := by
    intro t
    unfold spawnPlayerAtMap
    split <;> exact ⟨rfl, rfl, rfl⟩
  split_ifs
  · refine ⟨?_, ?_, ?_⟩
    · show (List.foldl spawnEnemyAt _ _).currentLevel = _
      rw [(foldl_spawnEnemyAt_frame _ _).2.1, (hsp _).1]
    · show (List.foldl spawnEnemyAt _ _).saved = _
      rw [(foldl_spawnEnemyAt_frame _ _).2.2.1, (hsp _).2.1]
    · show (List.foldl spawnEnemyAt _ _).timers = _
      rw [(foldl_spawnEnemyAt_frame _ _).2.2.2.1, (hsp _).2.2]
  · refine ⟨?_, ?_, ?_⟩
    · show (List.foldl spawnEnemyAt _ _).currentLevel = _
      rw [(foldl_spawnEnemyAt_frame _ _).2.1, (hsp _).1]
    · show (List.foldl spawnEnemyAt _ _).saved = _
      rw [(foldl_spawnEnemyAt_frame _ _).2.2.1, (hsp _).2.1]
    · show (List.foldl spawnEnemyAt _ _).timers = _
      rw [(foldl_spawnEnemyAt_frame _ _).2.2.2.1, (hsp _).2.2]

theorem loadLevel_health (s : State) (idx : Int) :
    (loadLevel s idx).player.health = s.player.health := by
  obtain ⟨x, y, h⟩ := loadLevel_player s idx
  rw [h]

/-! ## Lemmas: the boss -/

theorem CoreGuardian.die_fst (b : CoreGuardian) (s : State) :
    (b.die s).1 = { b with alive := false } := rfl

theorem CoreGuardian.update_phase_alive (b : CoreGuardian) (dt : ℚ) (s : State) :
    (b.update dt s).1.phase = b.phase ∧ (b.update dt s).1.alive = b.alive := by
  unfold CoreGuardian.update
  split
  · exact ⟨rfl, rfl⟩
  · dsimp only
    constructor <;> split_ifs <;> rfl

theorem CoreGuardian.receiveHit_phase (b : CoreGuardian) (d : ℚ) (s : State) (hp : b.phase ≤ 2) :
    (b.receiveHit d s).2.1.phase ≤ 2 ∧ b.phase ≤ (b.receiveHit d s).2.1.phase := by
  unfold CoreGuardian.receiveHit
  split
  · next h0 =>
    dsimp only
    split
    · simp [h0]
    · simp [h0]
  · dsimp only
    split <;> split <;> simp [CoreGuardian.die_fst] <;> omega

theorem CoreGuardian.receiveHit_alive (b : CoreGuardian) (d : ℚ) (s : State)
    (ha : b.alive = false) : (b.receiveHit d s).2.1.alive = false := by
  unfold CoreGuardian.receiveHit
  split
  · dsimp only
    split <;> simp [ha]
  · dsimp only
    split <;> split <;> simp [CoreGuardian.die_fst, ha]

/-! ## Lemmas: what a damage event does to the player -/

theorem hurtOf_refl (p : Player) : hurtOf p p := ⟨rfl, le_refl _⟩

theorem hurtOf_trans {p q r : Player} (h1 : hurtOf p q) (h2 : hurtOf q r) : hurtOf p r := by
  obtain ⟨e1, l1⟩ := h1
  obtain ⟨e2, l2⟩ := h2
  refine ⟨?_, le_trans l2 l1⟩
  rw [e2, e1]

theorem hurtOf_vx_facing {p q : Player} (h : hurtOf p q) : q.vx = p.vx ∧ q.facing = p.facing := by
  obtain ⟨e, _⟩ := h
  rw [e]
  exact ⟨rfl, rfl⟩

theorem hurtOf_health_le {p q : Player} (h : hurtOf p q) : q.health ≤ p.health := h.2

theorem hurtPlayer_player (s : State) (dmg : Int) :
    (hurtPlayer s dmg).player = { s.player with health := s.player.health - dmg } := by
  unfold hurtPlayer
  dsimp only
  split <;> rfl

theorem hurtPlayer_hurtOf (s : State) (dmg : Int) (hd : 0 ≤ dmg) :
    hurtOf s.player (hurtPlayer s dmg).player := by
  rw [hurtPlayer_player]
  exact ⟨rfl, by show s.player.health - dmg ≤ s.player.health; omega⟩

theorem enemyHitParticles_player (e : Enemy) (n : Nat) (s : State) :
    (enemyHitParticles e n s).player = s.player := by
  induction n generalizing s with
  | zero => rfl
  | succ n ih => rw [enemyHitParticles, ih]; rfl

theorem dieParticles_player (b : CoreGuardian) (n : Nat) (s : State) :
    (dieParticles b n s).player = s.player := by
  induction n generalizing s with
  | zero => rfl
  | succ n ih => rw [dieParticles, ih]; rfl

theorem enemyUpdate_hurtOf (e : Enemy) (i : Nat) (s : State) :
    hurtOf s.player (e.update i s).2.player := by
  unfold Enemy.update
  dsimp only
  split_ifs
  all_goals try simp only [enemyHitParticles_player]
  all_goals first
    | exact hurtPlayer_hurtOf s 1 (by decide)
    | exact hurtOf_refl _

theorem updateEnemies_hurtOf (es : List Enemy) (i : Nat) (s : State) :
    hurtOf s.player (updateEnemies es i s).2.player := by
  induction es generalizing i with
  | nil => exact hurtOf_refl _
  | cons e es ih =>
    rw [updateEnemies]
    exact hurtOf_trans (ih (i + 1)) (enemyUpdate_hurtOf _ _ _)

theorem enemiesStep_hurtOf (s : State) : hurtOf s.player (enemiesStep s).player :=
  updateEnemies_hurtOf s.enemies 0 s

theorem stepProjectiles_hurtOf (dt : ℚ) (ps : List Projectile) (s : State) :
    hurtOf s.player (stepProjectiles dt ps s).2.player := by
  induction ps with
  | nil => exact hurtOf_refl _
  | cons pr rest ih =>
    rw [stepProjectiles]
    dsimp only
    split_ifs
    · exact hurtOf_trans ih (hurtPlayer_hurtOf _ 1 (by decide))
    · exact ih
    · exact ih

theorem bossUpdate_hurtOf (b : CoreGuardian) (dt : ℚ) (s : State) :
    hurtOf s.player (b.update dt s).2.player := by
  unfold CoreGuardian.update
  dsimp only
  split_ifs
  all_goals first
    | exact hurtOf_refl _
    | exact stepProjectiles_hurtOf dt _ (s.advance 8)
    | exact stepProjectiles_hurtOf dt _ (s.advance 1)

theorem CoreGuardian.receiveHit_player (b : CoreGuardian) (d : ℚ) (s : State) :
    (b.receiveHit d s).2.2.player = s.player := by
  unfold CoreGuardian.receiveHit CoreGuardian.die saveProgress
  dsimp only
  split_ifs
  all_goals try simp only [dieParticles_player]

theorem bossStep_player (dt : ℚ) (s : State) :
    ∃ q, hurtOf s.player q
      ∧ ((bossStep dt s).player = q
        ∨ (bossStep dt s).player = { q with vy := -3, vx := q.vx * -(4 / 10) }) := by
  unfold bossStep
  cases hb : s.boss with
  | none => exact ⟨s.player, hurtOf_refl _, Or.inl rfl⟩
  | some b =>
    refine ⟨(b.update dt s).2.player, bossUpdate_hurtOf b dt s, ?_⟩
    dsimp only
    split_ifs
    · right
      simp only [CoreGuardian.receiveHit_player]
    · left
      simp only [CoreGuardian.receiveHit_player]
    · left
      rfl

theorem bossStep_health (dt : ℚ) (s : State) : (bossStep dt s).player.health ≤ s.player.health := by
  obtain ⟨q, hq, hb⟩ := bossStep_player dt s
  rcases hb with hb | hb <;> rw [hb] <;> exact hq.2

/-! ## Lemmas: the phases of a tick -/

theorem exitCheck_player (s : State) :
    ∃ x y, (exitCheck s).player = { s.player with x := x, y := y } := by
  unfold exitCheck saveProgress
  split_ifs
  · exact loadLevel_player s _
  · exact ⟨s.player.x, s.player.y, rfl⟩
  · exact ⟨s.player.x, s.player.y, rfl⟩

theorem exitCheck_health (s : State) : (exitCheck s).player.health = s.player.health := by
  obtain ⟨x, y, h⟩ := exitCheck_player s
  rw [h]

/-- The exit transition on any level `k` that has a successor: the level
becomes `k + 1` and the index handed to `saveProgress` is `k + 2`, because
`currentLevel + 1` is read after `loadLevel` has already advanced
`currentLevel`. -/
theorem exitCheck_next_level (s : State) (he : feetTile s = TILE.EXIT) (h0 : 0 ≤ s.currentLevel)
    (h1 : s.currentLevel + 1 < 5) :
    (exitCheck s).currentLevel = s.currentLevel + 1
    ∧ (exitCheck s).saved = (s.currentLevel + 2) :: s.saved := by
  have hl : s.currentLevel + 1 < (LEVELS.length : Int) := h1
  obtain ⟨a, b, _⟩ := loadLevel_frame s (s.currentLevel + 1) (by omega) h1
  unfold exitCheck saveProgress
  rw [if_pos he, if_pos hl]
  dsimp only
  rw [a, b]
  exact ⟨rfl, by rw [add_assoc]; rfl⟩

theorem cameraStep_player (s : State) : (cameraStep s).player = s.player := by
  unfold cameraStep
  dsimp only
  split_ifs <;> rfl

theorem particlesStep_player (s : State) : (particlesStep s).player = s.player := rfl

theorem abs_clamp_le (v m : ℚ) (hm : 0 ≤ m) : |clamp v (-m) m| ≤ m := by
  unfold clamp
  rw [abs_le]
  constructor
  · exact le_max_left _ _
  · exact max_le (by linarith) (min_le_left _ _)

theorem moveStep_vx (left right : Bool) (s : State) :
    |(moveStep left right s).player.vx| ≤ 42 / 10 := by
  unfold moveStep
  dsimp only
  exact abs_clamp_le _ _ (by norm_num [Player.maxSpeed])

theorem moveStep_dash_fields (left right : Bool) (s : State) :
    (moveStep left right s).player.dashCooldown = s.player.dashCooldown
    ∧ (moveStep left right s).player._dashed = s.player._dashed := by
  unfold moveStep
  dsimp only
  split_ifs <;> exact ⟨rfl, rfl⟩

theorem jumpStep_dash_fields (up : Bool) (s : State) :
    (jumpStep up s).player.vx = s.player.vx
    ∧ (jumpStep up s).player.facing = s.player.facing
    ∧ (jumpStep up s).player.dashCooldown = s.player.dashCooldown
    ∧ (jumpStep up s).player._dashed = s.player._dashed := by
  unfold jumpStep
  dsimp only
  split_ifs <;> exact ⟨rfl, rfl, rfl, rfl⟩

theorem dashStep_vx (dash : Bool) (dt : ℚ) (s : State) :
    (dashStep dash dt s).player.vx
      = (if dash = true ∧ s.player.dashCooldown ≤ 0 ∧ s.player._dashed = false
          then s.player.vx + s.player.facing * 6 else s.player.vx)
    ∧ (dashStep dash dt s).player.facing = s.player.facing := by
  unfold dashStep
  dsimp only
  by_cases h : dash = true ∧ s.player.dashCooldown ≤ 0 ∧ s.player._dashed = false
  · obtain ⟨h1, h2, h3⟩ := h
    simp only [h1, h2, h3, decide_True, Bool.not_false, Bool.and_self, if_true, Bool.not_true,
      Bool.false_eq_true, if_false, and_self]
    split_ifs <;> exact ⟨rfl, rfl⟩
  · rw [if_neg h]
    have hc : (dash && decide (s.player.dashCooldown ≤ 0) && !s.player._dashed) = false := by
      by_contra hcon
      apply h
      simp only [Bool.not_eq_false, Bool.and_eq_true, decide_eq_true_eq, Bool.not_eq_true'] at hcon
      exact ⟨hcon.1.1, hcon.1.2, hcon.2⟩
    simp only [hc, Bool.false_eq_true, if_false]
    split_ifs <;> exact ⟨rfl, rfl⟩

theorem integrate_vx_facing (s : State) :
    (integrate s).player.vx = s.player.vx ∧ (integrate s).player.facing = s.player.facing :=
  ⟨rfl, rfl⟩

theorem feetCollision_vx_facing (s : State) :
    (feetCollision s).player.vx = s.player.vx
    ∧ (feetCollision s).player.facing = s.player.facing := by
  unfold feetCollision
  dsimp only
  split_ifs <;> exact ⟨rfl, rfl⟩

theorem worldBounds_vx_facing (s : State) :
    (worldBounds s).player.vx = s.player.vx ∧ (worldBounds s).player.facing = s.player.facing := by
  unfold worldBounds
  dsimp only
  split_ifs <;> exact ⟨rfl, rfl⟩

theorem useAt_vx_facing (s : State) (tx ty : Int) :
    (useAt s tx ty).player.vx = s.player.vx ∧ (useAt s tx ty).player.facing = s.player.facing := by
  unfold useAt
  split
  · exact ⟨rfl, rfl⟩
  · dsimp only
    split_ifs
    all_goals exact ⟨rfl, rfl⟩

theorem useMine_vx_facing (use : Bool) (s : State) :
    (useMine use s).player.vx = s.player.vx ∧ (useMine use s).player.facing = s.player.facing := by
  unfold useMine
  dsimp only
  split_ifs
  all_goals first
    | exact ⟨rfl, rfl⟩
    | exact useAt_vx_facing _ _ _

theorem update_vx_facing (dt : ℚ) (keys : Keys) (s : State) :
    |(update dt keys s).player.vx|
      ≤ |(dashStep keys.dash dt (jumpStep keys.up (moveStep keys.left keys.right s))).player.vx|
    ∧ (update dt keys s).player.facing
      = (dashStep keys.dash dt (jumpStep keys.up (moveStep keys.left keys.right s))).player.facing := by
  unfold update
  generalize dashStep keys.dash dt (jumpStep keys.up (moveStep keys.left keys.right s)) = s3
  rw [particlesStep_player, cameraStep_player]
  obtain ⟨x, y, he⟩ := exitCheck_player (bossStep dt (enemiesStep (useMine keys.use
    (worldBounds (feetCollision (integrate s3))))))
  rw [he]
  have h4 := integrate_vx_facing s3
  have h5 := feetCollision_vx_facing (integrate s3)
  have h6 := worldBounds_vx_facing (feetCollision (integrate s3))
  have h7 := useMine_vx_facing keys.use (worldBounds (feetCollision (integrate s3)))
  have h8 := hurtOf_vx_facing (enemiesStep_hurtOf (useMine keys.use
    (worldBounds (feetCollision (integrate s3)))))
  have hvx : (enemiesStep (useMine keys.use (worldBounds (feetCollision (integrate s3))))).player.vx
      = s3.player.vx := by
    rw [h8.1, h7.1, h6.1, h5.1, h4.1]
  have hfc : (enemiesStep (useMine keys.use (worldBounds (feetCollision (integrate s3))))).player.facing
      = s3.player.facing := by
    rw [h8.2, h7.2, h6.2, h5.2, h4.2]
  obtain ⟨q, hq, hb⟩ := bossStep_player dt (enemiesStep (useMine keys.use
    (worldBounds (feetCollision (integrate s3)))))
  have hq2 := hurtOf_vx_facing hq
  rcases hb with hb | hb
  · rw [hb]
    show |q.vx| ≤ _ ∧ q.facing = _
    rw [hq2.1, hq2.2, hvx, hfc]
    exact ⟨le_refl _, rfl⟩
  · rw [hb]
    show |q.vx * -(4 / 10)| ≤ _ ∧ q.facing = _
    rw [hq2.1, hq2.2, hvx, hfc]
    refine ⟨?_, rfl⟩
    rw [abs_mul]
    have : |(-(4 / 10) : ℚ)| = 4 / 10 := by norm_num [abs_of_nonneg]
    rw [this]
    nlinarith [abs_nonneg s3.player.vx]

theorem update_speed_bound (dt : ℚ) (keys : Keys) (s : State) :
    |(update dt keys s).player.vx|
      ≤ 42 / 10 + (if keys.dash = true ∧ s.player.dashCooldown ≤ 0 ∧ s.player._dashed = false
          then 6 * |(update dt keys s).player.facing| else 0) := by
  obtain ⟨h1, h2⟩ := update_vx_facing dt keys s
  have hm := moveStep_vx keys.left keys.right s
  have hmd := moveStep_dash_fields keys.left keys.right s
  have hj := jumpStep_dash_fields keys.up (moveStep keys.left keys.right s)
  have hd := dashStep_vx keys.dash dt (jumpStep keys.up (moveStep keys.left keys.right s))
  rw [h2, hd.2]
  refine le_trans h1 ?_
  rw [hd.1, hj.2.2.1, hj.2.2.2, hmd.1, hmd.2, hj.1]
  split_ifs
  · refine le_trans (abs_add _ _) ?_
    rw [abs_mul]
    have : |(6 : ℚ)| = 6 := by norm_num
    rw [this]
    linarith
  · linarith

theorem early_health (dash up left right : Bool) (dt : ℚ) (s : State) :
    (feetCollision (integrate (dashStep dash dt (jumpStep up (moveStep left right s))))).player.health
      = s.player.health := by
  have h1 : ∀ t : State, (feetCollision t).player.health = t.player.health := by
    intro t; unfold feetCollision; dsimp only; split_ifs <;> rfl
  have h2 : ∀ t : State, (dashStep dash dt t).player.health = t.player.health := by
    intro t; unfold dashStep; dsimp only; split_ifs <;> rfl
  have h3 : ∀ t : State, (jumpStep up t).player.health = t.player.health := by
    intro t; unfold jumpStep; dsimp only; split_ifs <;> rfl
  have h4 : ∀ t : State, (moveStep left right t).player.health = t.player.health := by
    intro t; unfold moveStep; dsimp only; split_ifs <;> rfl
  rw [h1, show (integrate (dashStep dash dt (jumpStep up (moveStep left right s)))).player.health
    = (dashStep dash dt (jumpStep up (moveStep left right s))).player.health from rfl, h2, h3, h4]

theorem worldBounds_health (s : State) (h : s.player.health ≤ 9) :
    (worldBounds s).player.health ≤ 9 := by
  unfold worldBounds
  dsimp only
  split_ifs <;> first
    | exact h
    | (rw [hurtPlayer_player]; show (0 : Int) - 0 ≤ 9; decide)

theorem useAt_health (s : State) (tx ty : Int) (h : s.player.health ≤ 9) :
    (useAt s tx ty).player.health ≤ 9 := by
  unfold useAt
  split
  · exact h
  · dsimp only
    split_ifs
    all_goals first
      | exact h
      | exact min_le_left _ _

theorem useMine_health (use : Bool) (s : State) (h : s.player.health ≤ 9) :
    (useMine use s).player.health ≤ 9 := by
  unfold useMine
  dsimp only
  split_ifs
  all_goals first
    | exact h
    | exact useAt_health _ _ _ h

theorem update_health (dt : ℚ) (keys : Keys) (s : State) (h : s.player.health ≤ 9) :
    (update dt keys s).player.health ≤ 9 := by
  unfold update
  rw [particlesStep_player, cameraStep_player, exitCheck_health]
  refine le_trans (bossStep_health _ _) ?_
  refine le_trans (enemiesStep_hurtOf _).2 ?_
  apply useMine_health
  apply worldBounds_health
  rw [early_health]
  exact h

theorem Timer.fire_health (t : Timer) (s : State) : (t.fire s).player.health = s.player.health := by
  cases t with
  | reloadLevel => exact loadLevel_health s _
  | reactivate i => rfl
  | placeExit =>
    unfold Timer.fire setTile
    dsimp only
    split_ifs <;> rfl

theorem Step.health_le {s t : State} (hst : Step s t) (h : s.player.health ≤ 9) :
    t.player.health ≤ 9 := by
  cases hst with
  | tick dt keys => exact update_health dt keys s h
  | hurt dmg hd => exact le_trans (hurtPlayer_hurtOf s dmg hd).2 h
  | pickup => exact useMine_health true s h
  | load idx => rw [loadLevel_health]; exact h
  | timer t => rw [Timer.fire_health]; exact h
  | restart =>
    unfold LostWorlds.restart
    rw [loadLevel_health]
    show (5 : Int) ≤ 9
    decide

theorem reachable_health_le (s : State) (h : Reachable s) : s.player.health ≤ 9 := by
  induction h with
  | init rng => show (5 : Int) ≤ 9; decide
  | step _ hst ih => exact hst.health_le ih

/-! ## Lemmas: what leaves the grid and its extent alone -/

theorem sameGrid_refl (s : State) : sameGrid s s := ⟨rfl, rfl, rfl, rfl⟩

theorem sameGrid_trans {s t u : State} (h1 : sameGrid s t) (h2 : sameGrid t u) : sameGrid s u :=
  ⟨h2.1.trans h1.1, h2.2.1.trans h1.2.1, h2.2.2.1.trans h1.2.2.1, h2.2.2.2.trans h1.2.2.2⟩

theorem hurtPlayer_sameGrid (s : State) (dmg : Int) : sameGrid s (hurtPlayer s dmg) := by
  unfold hurtPlayer
  dsimp only
  split <;> exact ⟨rfl, rfl, rfl, rfl⟩

theorem enemyHitParticles_sameGrid (e : Enemy) (n : Nat) (s : State) :
    sameGrid s (enemyHitParticles e n s) := by
  induction n generalizing s with
  | zero => exact sameGrid_refl s
  | succ n ih =>
    rw [enemyHitParticles]
    exact sameGrid_trans ⟨rfl, rfl, rfl, rfl⟩ (ih _)

theorem dieParticles_sameGrid (b : CoreGuardian) (n : Nat) (s : State) :
    sameGrid s (dieParticles b n s) := by
  induction n generalizing s with
  | zero => exact sameGrid_refl s
  | succ n ih =>
    rw [dieParticles]
    exact sameGrid_trans ⟨rfl, rfl, rfl, rfl⟩ (ih _)

theorem mineParticles_sameGrid (tx ty : Int) (n : Nat) (s : State) :
    sameGrid s (mineParticles tx ty n s) := by
  induction n generalizing s with
  | zero => exact sameGrid_refl s
  | succ n ih =>
    rw [mineParticles]
    exact sameGrid_trans ⟨rfl, rfl, rfl, rfl⟩ (ih _)

theorem ite_snd_prop {α : Type} (P : State → Prop) (c : Prop) [Decidable c] (a b : α × State)
    (ha : P a.2) (hb : P b.2) : P (if c then a else b).2 := by
  split <;> assumption

theorem enemyUpdate_sameGrid (e : Enemy) (i : Nat) (s : State) :
    sameGrid s (e.update i s).2 := by
  unfold Enemy.update
  dsimp only
  apply ite_snd_prop (sameGrid s)
  · have hp := hurtPlayer_sameGrid s 1
    unfold sameGrid at hp ⊢
    simp only [(enemyHitParticles_sameGrid _ _ _).1, (enemyHitParticles_sameGrid _ _ _).2.1,
      (enemyHitParticles_sameGrid _ _ _).2.2.1, (enemyHitParticles_sameGrid _ _ _).2.2.2]
    exact hp
  · exact sameGrid_refl s

theorem updateEnemies_sameGrid (es : List Enemy) (i : Nat) (s : State) :
    sameGrid s (updateEnemies es i s).2 := by
  induction es generalizing i with
  | nil => exact sameGrid_refl s
  | cons e es ih =>
    rw [updateEnemies]
    exact sameGrid_trans (ih (i + 1)) (enemyUpdate_sameGrid _ _ _)

theorem enemiesStep_sameGrid (s : State) : sameGrid s (enemiesStep s) := by
  have h := updateEnemies_sameGrid s.enemies 0 s
  exact ⟨h.1, h.2.1, h.2.2.1, h.2.2.2⟩

theorem stepProjectiles_sameGrid (dt : ℚ) (ps : List Projectile) (s : State) :
    sameGrid s (stepProjectiles dt ps s).2 := by
  induction ps with
  | nil => exact sameGrid_refl s
  | cons pr rest ih =>
    rw [stepProjectiles]
    dsimp only
    split_ifs
    · exact sameGrid_trans ih (hurtPlayer_sameGrid _ 1)
    · exact ih
    · exact ih

theorem bossUpdate_sameGrid (b : CoreGuardian) (dt : ℚ) (s : State) :
    sameGrid s (b.update dt s).2 := by
  unfold CoreGuardian.update
  dsimp only
  split_ifs
  all_goals first
    | exact sameGrid_refl s
    | exact sameGrid_trans (show sameGrid s (s.advance 8) from ⟨rfl, rfl, rfl, rfl⟩)
        (stepProjectiles_sameGrid dt _ (s.advance 8))
    | exact sameGrid_trans (show sameGrid s (s.advance 1) from ⟨rfl, rfl, rfl, rfl⟩)
        (stepProjectiles_sameGrid dt _ (s.advance 1))

theorem die_sameGrid (b : CoreGuardian) (s : State) : sameGrid s (b.die s).2 := by
  unfold CoreGuardian.die saveProgress
  dsimp only
  have h := dieParticles_sameGrid b 120 s
  exact ⟨h.1, h.2.1, h.2.2.1, h.2.2.2⟩

theorem receiveHit_sameGrid (b : CoreGuardian) (d : ℚ) (s : State) :
    sameGrid s (b.receiveHit d s).2.2 := by
  unfold CoreGuardian.receiveHit
  dsimp only
  split
  · exact sameGrid_refl s
  · show sameGrid s (if _ then _ else _ : CoreGuardian × State).2
    apply ite_snd_prop (sameGrid s)
    · exact die_sameGrid _ s
    · exact sameGrid_refl s

theorem bossStep_sameGrid (dt : ℚ) (s : State) : sameGrid s (bossStep dt s) := by
  unfold bossStep
  cases hb : s.boss with
  | none => exact sameGrid_refl s
  | some b =>
    dsimp only
    have hu := bossUpdate_sameGrid b dt s
    split_ifs
    · have hr := sameGrid_trans hu (receiveHit_sameGrid (b.update dt s).1 2 (b.update dt s).2)
      exact ⟨hr.1, hr.2.1, hr.2.2.1, hr.2.2.2⟩
    · have hr := sameGrid_trans hu (receiveHit_sameGrid (b.update dt s).1 2 (b.update dt s).2)
      exact ⟨hr.1, hr.2.1, hr.2.2.1, hr.2.2.2⟩
    · exact ⟨hu.1, hu.2.1, hu.2.2.1, hu.2.2.2⟩

theorem moveStep_sameGrid (l r : Bool) (s : State) : sameGrid s (moveStep l r s) :=
  ⟨rfl, rfl, rfl, rfl⟩

theorem jumpStep_sameGrid (up : Bool) (s : State) : sameGrid s (jumpStep up s) :=
  ⟨rfl, rfl, rfl, rfl⟩

theorem dashStep_sameGrid (dash : Bool) (dt : ℚ) (s : State) : sameGrid s (dashStep dash dt s) :=
  ⟨rfl, rfl, rfl, rfl⟩

theorem integrate_sameGrid (s : State) : sameGrid s (integrate s) := ⟨rfl, rfl, rfl, rfl⟩

theorem feetCollision_sameGrid (s : State) : sameGrid s (feetCollision s) := by
  unfold feetCollision
  dsimp only
  split_ifs <;> exact ⟨rfl, rfl, rfl, rfl⟩

theorem worldBounds_sameGrid (s : State) : sameGrid s (worldBounds s) := by
  unfold worldBounds
  dsimp only
  split_ifs
  all_goals exact ⟨rfl, rfl, rfl, rfl⟩

theorem cameraStep_sameGrid (s : State) : sameGrid s (cameraStep s) := by
  unfold cameraStep
  dsimp only
  split_ifs <;> exact ⟨rfl, rfl, rfl, rfl⟩

theorem particlesStep_sameGrid (s : State) : sameGrid s (particlesStep s) := ⟨rfl, rfl, rfl, rfl⟩

/-! ## Lemmas: the extent and the spawn of a loaded level -/

set_option maxRecDepth 100000 in
theorem level_shape :
    ∀ i < 5, (levelAt i).map.length = 5 ∧ 12 ≤ ((levelAt i).map.headD []).length
      ∧ (loadedGrid (levelAt i)).length = 5 := by
  decide

set_option maxRecDepth 100000 in
theorem level_spawn_column :
    ∀ i < 5, (findSpawn (levelAt i).map (levelAt i).map.length
      ((levelAt i).map.headD []).length).map Prod.snd = some 0 := by
  decide

theorem loadLevel_extent (s : State) (idx : Int) (h0 : 0 ≤ idx) (h5 : idx < 5) :
    (loadLevel s idx).cols = ((levelAt idx.toNat).map.headD []).length
    ∧ (loadLevel s idx).rows = (levelAt idx.toNat).map.length := by
  have hg : ¬ (idx < 0 ∨ idx ≥ (LEVELS.length : Int)) := by
    have : (LEVELS.length : Int) = 5 := rfl
    omega
  unfold loadLevel
  simp only [if_neg hg, LEVELS_getElem? idx.toNat (by omega)]
  split_ifs
  · refine ⟨?_, ?_⟩
    · show (List.foldl spawnEnemyAt _ _).cols = _
      rw [(foldl_spawnEnemyAt_frame _ _).2.2.2.2.1, (spawnPlayerAtMap_frame _).2.2]
    · show (List.foldl spawnEnemyAt _ _).rows = _
      rw [(foldl_spawnEnemyAt_frame _ _).2.2.2.2.2.1, (spawnPlayerAtMap_frame _).2.1]
  · refine ⟨?_, ?_⟩
    · show (List.foldl spawnEnemyAt _ _).cols = _
      rw [(foldl_spawnEnemyAt_frame _ _).2.2.2.2.1, (spawnPlayerAtMap_frame _).2.2]
    · show (List.foldl spawnEnemyAt _ _).rows = _
      rw [(foldl_spawnEnemyAt_frame _ _).2.2.2.2.2.1, (spawnPlayerAtMap_frame _).2.1]

theorem loadLevel_player_valid (s : State) (idx : Int) (h0 : 0 ≤ idx) (h5 : idx < 5) :
    (loadLevel s idx).player
      = (spawnPlayerAtMap
          { s with currentLevel := idx, LEVEL_MAP := (levelAt idx.toNat).map,
                   cols := ((levelAt idx.toNat).map.headD []).length,
                   rows := (levelAt idx.toNat).map.length,
                   enemies := [], boss := none, particles := [] }).player := by
  have hg : ¬ (idx < 0 ∨ idx ≥ (LEVELS.length : Int)) := by
    have : (LEVELS.length : Int) = 5 := rfl
    omega
  unfold loadLevel
  simp only [if_neg hg, LEVELS_getElem? idx.toNat (by omega)]
  split_ifs
  · show (List.foldl spawnEnemyAt _ _).player = _
    rw [(foldl_spawnEnemyAt_frame _ _).1]
  · show (List.foldl spawnEnemyAt _ _).player = _
    rw [(foldl_spawnEnemyAt_frame _ _).1]

theorem loadLevel_x (s : State) (idx : Int) (h0 : 0 ≤ idx) (h5 : idx < 5) :
    (loadLevel s idx).player.x = 4 := by
  rw [loadLevel_player_valid s idx h0 h5]
  have hc := level_spawn_column idx.toNat (by omega)
  unfold spawnPlayerAtMap
  dsimp only
  cases hf : findSpawn (levelAt idx.toNat).map (levelAt idx.toNat).map.length
      ((levelAt idx.toNat).map.headD []).length with
  | none => rw [hf] at hc; simp at hc
  | some rc =>
    obtain ⟨r, c⟩ := rc
    rw [hf] at hc
    simp only [Option.map_some', Option.some.injEq] at hc
    subst hc
    show ((0 : Nat) : ℚ) * TILE_SIZE + 4 = 4
    norm_num

theorem loadLevel_GridOk (s : State) (idx : Int) (h : GridOk s) : GridOk (loadLevel s idx) := by
  by_cases hv : 0 ≤ idx ∧ idx < 5
  · obtain ⟨h0, h5⟩ := hv
    have hs := level_shape idx.toNat (by omega)
    obtain ⟨hc, hr⟩ := loadLevel_extent s idx h0 h5
    unfold GridOk
    rw [hc, hr, loadLevel_LEVEL_MAP_valid s idx h0 h5, hs.1, hs.2.2]
    exact ⟨rfl, by decide, by omega⟩
  · have hg : idx < 0 ∨ idx ≥ (LEVELS.length : Int) := by
      have : (LEVELS.length : Int) = 5 := rfl
      omega
    unfold loadLevel
    rw [if_pos hg]
    exact h

theorem loadLevel_invalid (s : State) (idx : Int) (h : idx < 0 ∨ 5 ≤ idx) : loadLevel s idx = s := by
  have hg : idx < 0 ∨ idx ≥ (LEVELS.length : Int) := by
    have : (LEVELS.length : Int) = 5 := rfl
    omega
  unfold loadLevel
  rw [if_pos hg]

theorem useAt_extent (s : State) (tx ty : Int) :
    (useAt s tx ty).cols = s.cols ∧ (useAt s tx ty).rows = s.rows
    ∧ (useAt s tx ty).currentLevel = s.currentLevel
    ∧ (useAt s tx ty).LEVEL_MAP.length = s.LEVEL_MAP.length := by
  unfold useAt
  split
  · exact ⟨rfl, rfl, rfl, rfl⟩
  · dsimp only
    split_ifs
    all_goals
      simp only [State.advance, (mineParticles_sameGrid _ _ _ _).1, (mineParticles_sameGrid _ _ _ _).2.1,
        (mineParticles_sameGrid _ _ _ _).2.2.1, (mineParticles_sameGrid _ _ _ _).2.2.2,
        Grid.length_assign, and_self]

theorem useMine_extent (use : Bool) (s : State) :
    (useMine use s).cols = s.cols ∧ (useMine use s).rows = s.rows
    ∧ (useMine use s).currentLevel = s.currentLevel
    ∧ (useMine use s).LEVEL_MAP.length = s.LEVEL_MAP.length := by
  unfold useMine
  dsimp only
  split_ifs
  all_goals first
    | exact ⟨rfl, rfl, rfl, rfl⟩
    | exact useAt_extent _ _ _

theorem GridOk_of_sameGrid {s t : State} (h : sameGrid s t) (hs : GridOk s) : GridOk t := by
  unfold GridOk at hs ⊢
  rw [h.1, h.2.1, h.2.2.1]
  exact hs

theorem useMine_GridOk (use : Bool) (s : State) (hs : GridOk s) : GridOk (useMine use s) := by
  obtain ⟨a, b, _, d⟩ := useMine_extent use s
  unfold GridOk at hs ⊢
  rw [a, b, d]
  exact hs

theorem exitCheck_GridOk (s : State) (hs : GridOk s) : GridOk (exitCheck s) := by
  unfold exitCheck saveProgress
  split_ifs
  · exact loadLevel_GridOk s _ hs
  · exact hs
  · exact hs

theorem update_GridOk (dt : ℚ) (keys : Keys) (s : State) (hs : GridOk s) :
    GridOk (update dt keys s) := by
  unfold update
  apply GridOk_of_sameGrid (particlesStep_sameGrid _)
  apply GridOk_of_sameGrid (cameraStep_sameGrid _)
  apply exitCheck_GridOk
  apply GridOk_of_sameGrid (bossStep_sameGrid _ _)
  apply GridOk_of_sameGrid (enemiesStep_sameGrid _)
  apply useMine_GridOk
  apply GridOk_of_sameGrid (worldBounds_sameGrid _)
  apply GridOk_of_sameGrid (feetCollision_sameGrid _)
  apply GridOk_of_sameGrid (integrate_sameGrid _)
  apply GridOk_of_sameGrid (dashStep_sameGrid _ _ _)
  apply GridOk_of_sameGrid (jumpStep_sameGrid _ _)
  apply GridOk_of_sameGrid (moveStep_sameGrid _ _ _)
  exact hs

theorem setTile_GridOk (s : State) (tx ty : Int) (v : Nat) (hs : GridOk s) :
    GridOk (setTile s tx ty v) := by
  unfold setTile
  split_ifs
  · exact hs
  · unfold GridOk at hs ⊢
    simp only [Grid.length_assign]
    exact hs

theorem fire_GridOk (t : Timer) (s : State) (hs : GridOk s) : GridOk (t.fire s) := by
  cases t with
  | reloadLevel => exact loadLevel_GridOk s _ hs
  | reactivate i => exact hs
  | placeExit => exact setTile_GridOk s _ _ _ hs

theorem step_GridOk {s t : State} (hst : Step s t) (hs : GridOk s) : GridOk t := by
  cases hst with
  | tick dt keys => exact update_GridOk dt keys s hs
  | hurt dmg hd => exact GridOk_of_sameGrid (hurtPlayer_sameGrid s dmg) hs
  | pickup => exact useMine_GridOk true s hs
  | load idx => exact loadLevel_GridOk s idx hs
  | timer t => exact fire_GridOk t s hs
  | restart =>
    unfold LostWorlds.restart
    exact loadLevel_GridOk _ 0 hs

theorem reachable_GridOk (s : State) (h : Reachable s) : GridOk s := by
  induction h with
  | init rng => exact ⟨rfl, by show 2 ≤ 5; decide, by show 2 ≤ 20; decide⟩
  | step _ hst ih => exact step_GridOk hst ih

/-- Every state of the game has a grid at least two columns wide. -/
theorem reachable_cols (s : State) (h : Reachable s) : 2 ≤ s.cols :=
  (reachable_GridOk s h).2.2

theorem foldl_spawnEnemyAt_enemies (cells : List (Nat × Nat)) (s : State) :
    (cells.foldl spawnEnemyAt s).enemies.map Enemy.pos
      = s.enemies.map Enemy.pos ++ (scanEnemies s.LEVEL_MAP cells).map markerPos := by
  induction cells generalizing s with
  | nil => simp [scanEnemies]
  | cons rc cells ih =>
    rw [List.foldl_cons, ih, scanEnemies]
    unfold spawnEnemyAt
    by_cases h : s.LEVEL_MAP.cell rc.1 rc.2 = some TILE.ENEMY
    · rw [if_pos h, if_pos h]
      simp [State.advance, Enemy.pos, Enemy.new, markerPos]
    · rw [if_neg h, if_neg h]

set_option maxRecDepth 100000 in
theorem level_scan :
    ∀ i < 5, scanEnemies (levelAt i).map
        (cellsRowMajor (levelAt i).map.length ((levelAt i).map.headD []).length)
      = markerCells (levelAt i).map := by
  decide

set_option maxRecDepth 100000 in
theorem level_specGrid : ∀ i < 5, loadedGrid (levelAt i) = specGrid (levelAt i) := by
  decide

theorem level_id : ∀ i < 5, (levelAt i).id = i := by
  decide

theorem loadLevel_enemies (s : State) (idx : Int) (h0 : 0 ≤ idx) (h5 : idx < 5) :
    (loadLevel s idx).enemies.map Enemy.pos
      = (markerCells (levelAt idx.toNat).map).map markerPos := by
  have hg : ¬ (idx < 0 ∨ idx ≥ (LEVELS.length : Int)) := by
    have : (LEVELS.length : Int) = 5 := rfl
    omega
  have hsc := level_scan idx.toNat (by omega)
  have key : ∀ t : State, t.enemies = [] → t.LEVEL_MAP = (levelAt idx.toNat).map →
      t.rows = (levelAt idx.toNat).map.length → t.cols = ((levelAt idx.toNat).map.headD []).length →
      ((cellsRowMajor t.rows t.cols).foldl spawnEnemyAt t).enemies.map Enemy.pos
        = (markerCells (levelAt idx.toNat).map).map markerPos := by
    intro t he hm hr hc
    rw [foldl_spawnEnemyAt_enemies, he, hm, hr, hc, hsc]
    rfl
  have hsp : ∀ t : State, (spawnPlayerAtMap t).enemies = t.enemies := by
    intro t
    unfold spawnPlayerAtMap
    split <;> rfl
  unfold loadLevel
  simp only [if_neg hg, LEVELS_getElem? idx.toNat (by omega)]
  split_ifs
  · show (List.foldl spawnEnemyAt _ _).enemies.map Enemy.pos = _
    exact key _ (by rw [hsp]) (spawnPlayerAtMap_frame _).1 (spawnPlayerAtMap_frame _).2.1
      (spawnPlayerAtMap_frame _).2.2
  · show (List.foldl spawnEnemyAt _ _).enemies.map Enemy.pos = _
    exact key _ (by rw [hsp]) (spawnPlayerAtMap_frame _).1 (spawnPlayerAtMap_frame _).2.1
      (spawnPlayerAtMap_frame _).2.2

theorem loadLevel_boss (s : State) (idx : Int) (h0 : 0 ≤ idx) (h5 : idx < 5) :
    (idx = 4 → ∃ x y, (loadLevel s idx).boss = some (CoreGuardian.new x y))
    ∧ (idx ≠ 4 → (loadLevel s idx).boss = none) := by
  have hg : ¬ (idx < 0 ∨ idx ≥ (LEVELS.length : Int)) := by
    have : (LEVELS.length : Int) = 5 := rfl
    omega
  have hid := level_id idx.toNat (by omega)
  have hsp : ∀ t : State, (spawnPlayerAtMap t).boss = t.boss := by
    intro t
    unfold spawnPlayerAtMap
    split <;> rfl
  unfold loadLevel
  simp only [if_neg hg, LEVELS_getElem? idx.toNat (by omega)]
  by_cases h4 : (levelAt idx.toNat).id = 4
  · rw [if_pos h4]
    have : idx = 4 := by omega
    exact ⟨fun _ => ⟨_, _, rfl⟩, fun hne => absurd this hne⟩
  · rw [if_neg h4]
    have : idx ≠ 4 := by
      intro h
      apply h4
      rw [hid, h]
      rfl
    refine ⟨fun h => absurd h this, fun _ => ?_⟩
    show (List.foldl spawnEnemyAt _ _).boss = none
    rw [(foldl_spawnEnemyAt_frame _ _).2.2.2.2.2.2.2.1, hsp]

theorem range_find?_none (n : Nat) (p : Nat → Bool) (h : ∀ c, c < n → p c = false) :
    (List.range n).find? p = none := by
  rw [List.find?_eq_none]
  intro x hx
  rw [h x (List.mem_range.mp hx)]
  decide

theorem range_find?_some (n : Nat) (p : Nat → Bool) (c : Nat) (hc : c < n) (hp : p c = true)
    (hmin : ∀ c1, c1 < c → p c1 = false) : (List.range n).find? p = some c := by
  induction n with
  | zero => omega
  | succ m ih =>
    rw [List.range_succ, List.find?_append]
    by_cases hcm : c < m
    · rw [ih hcm]
      rfl
    · have : c = m := by omega
      subst this
      rw [range_find?_none c p hmin, Option.none_or, List.find?_cons, hp]

theorem range_findSome?_none {β : Type} (n : Nat) (f : Nat → Option β)
    (h : ∀ r, r < n → f r = none) : (List.range n).findSome? f = none := by
  rw [List.findSome?_eq_none_iff]
  intro x hx
  exact h x (List.mem_range.mp hx)

theorem range_findSome?_some {β : Type} (n : Nat) (f : Nat → Option β) (r : Nat) (v : β)
    (hr : r < n) (hf : f r = some v) (hmin : ∀ r1, r1 < r → f r1 = none) :
    (List.range n).findSome? f = some v := by
  induction n with
  | zero => omega
  | succ m ih =>
    rw [List.range_succ, List.findSome?_append]
    by_cases hrm : r < m
    · rw [ih hrm]
      rfl
    · have : r = m := by omega
      subst this
      rw [range_findSome?_none r f hmin, Option.none_or, List.findSome?_cons, hf]

/-- The scan of `spawnPlayerAtMap` returns the first `SPAWN` cell in row-major
order. -/
theorem findSpawn_first (g : Grid) (rows cols r c : Nat) (hr : r < rows) (hc : c < cols)
    (hs : g.cell r c = some TILE.SPAWN)
    (hmin : ∀ r1 c1, r1 < rows → c1 < cols → (r1 < r ∨ (r1 = r ∧ c1 < c)) →
      g.cell r1 c1 ≠ some TILE.SPAWN) :
    findSpawn g rows cols = some (r, c) := by
  unfold findSpawn
  apply range_findSome?_some rows _ r (r, c) hr
  · rw [range_find?_some cols _ c hc]
    · rfl
    · rw [hs]; rfl
    · intro c1 hc1
      have := hmin r c1 hr (by omega) (Or.inr ⟨rfl, hc1⟩)
      simpa using this
  · intro r1 hr1
    rw [range_find?_none]
    · rfl
    · intro c1 hc1
      have := hmin r1 c1 (by omega) hc1 (Or.inl hr1)
      simpa using this

theorem findSpawn_none (g : Grid) (rows cols : Nat)
    (h : ∀ r c, r < rows → c < cols → g.cell r c ≠ some TILE.SPAWN) :
    findSpawn g rows cols = none := by
  unfold findSpawn
  apply range_findSome?_none
  intro r hr
  rw [range_find?_none]
  · rfl
  · intro c hc
    have := h r c hr hc
    simpa using this

theorem loadLevel_cam (s : State) (idx : Int) (h0 : 0 ≤ idx) (h5 : idx < 5) :
    (loadLevel s idx).cam.x = max 0 ((loadLevel s idx).player.x - 160)
    ∧ (loadLevel s idx).cam.y = max 0 ((loadLevel s idx).player.y - 90) := by
  have hg : ¬ (idx < 0 ∨ idx ≥ (LEVELS.length : Int)) := by
    have : (LEVELS.length : Int) = 5 := rfl
    omega
  have hw : VPORT_W / 2 = 160 := by norm_num
  have hh : VPORT_H / 2 = 90 := by norm_num
  unfold loadLevel
  simp only [if_neg hg, LEVELS_getElem? idx.toNat (by omega)]
  rw [hw, hh]
  exact ⟨rfl, rfl⟩

/-! ## Lemmas: the shield and the death of the boss -/

theorem receiveHit_shielded (b : CoreGuardian) (d : ℚ) (s : State) (h0 : b.phase = 0) :
    (b.receiveHit d s).2.1.phase = (if b.shieldHealth - d ≤ 0 then 1 else 0)
    ∧ (b.receiveHit d s).2.1.shieldHealth = b.shieldHealth - d
    ∧ (b.receiveHit d s).2.1.health = b.health := by
  unfold CoreGuardian.receiveHit
  simp only [if_pos h0]
  split_ifs <;> simp [h0]

theorem receiveHits_shield (x y : ℚ) (s : State) (k : Nat) (hk : k < 7) :
    (receiveHits 2 k (CoreGuardian.new x y) s).1.phase = 0
    ∧ (receiveHits 2 k (CoreGuardian.new x y) s).1.shieldHealth = 14 - 2 * (k : ℚ)
    ∧ (receiveHits 2 k (CoreGuardian.new x y) s).1.health = 36 := by
  induction k with
  | zero => exact ⟨rfl, by norm_num [receiveHits, CoreGuardian.new], rfl⟩
  | succ n ih =>
    obtain ⟨h1, h2, h3⟩ := ih (by omega)
    obtain ⟨a1, a2, a3⟩ := receiveHit_shielded (receiveHits 2 n (CoreGuardian.new x y) s).1 2
      (receiveHits 2 n (CoreGuardian.new x y) s).2 h1
    rw [receiveHits]
    dsimp only
    rw [a1, a2, a3, h2, h3]
    have hn : (n : ℚ) ≤ 5 := by
      have : n ≤ 5 := by omega
      exact_mod_cast this
    refine ⟨?_, ?_, rfl⟩
    · rw [if_neg (by linarith)]
    · push_cast; ring

theorem receiveHits_seven (x y : ℚ) (s : State) :
    (receiveHits 2 7 (CoreGuardian.new x y) s).1.phase = 1
    ∧ (receiveHits 2 7 (CoreGuardian.new x y) s).1.health = 36 := by
  obtain ⟨h1, h2, h3⟩ := receiveHits_shield x y s 6 (by decide)
  obtain ⟨a1, a2, a3⟩ := receiveHit_shielded (receiveHits 2 6 (CoreGuardian.new x y) s).1 2
      (receiveHits 2 6 (CoreGuardian.new x y) s).2 h1
  rw [receiveHits]
  dsimp only
  rw [a1, a3, h2, h3]
  exact ⟨by norm_num, rfl⟩

theorem dieParticles_log (b : CoreGuardian) (n : Nat) (s : State) :
    (dieParticles b n s).saved = s.saved ∧ (dieParticles b n s).timers = s.timers := by
  induction n generalizing s with
  | zero => exact ⟨rfl, rfl⟩
  | succ n ih =>
    rw [dieParticles]
    exact ⟨(ih _).1, (ih _).2⟩

theorem receiveHit_lethal (b : CoreGuardian) (d : ℚ) (s : State) (hp : b.phase = 1 ∨ b.phase = 2)
    (hd : b.health - d ≤ 0) :
    (b.receiveHit d s).2.1.alive = false
    ∧ (b.receiveHit d s).2.2.saved = -1 :: s.saved
    ∧ (b.receiveHit d s).2.2.timers = Timer.placeExit :: s.timers := by
  have hne : b.phase ≠ 0 := by omega
  unfold CoreGuardian.receiveHit
  simp only [if_neg hne, if_pos hd]
  unfold CoreGuardian.die saveProgress
  dsimp only
  refine ⟨?_, ?_, ?_⟩
  · split_ifs <;> rfl
  · rw [(dieParticles_log _ 120 s).1]
  · rw [(dieParticles_log _ 120 s).2]

theorem placeExit_cell (s : State) (h : GridOk s) :
    (Timer.placeExit.fire s).LEVEL_MAP.cell (s.rows - 2) (s.cols - 2) = some TILE.EXIT := by
  obtain ⟨h1, h2, h3⟩ := h
  have hg : ¬ (((s.rows : Int) - 2 < 0) ∨ ((s.rows : Int) - 2 ≥ (s.rows : Int))
      ∨ ((s.cols : Int) - 2 < 0) ∨ ((s.cols : Int) - 2 ≥ (s.cols : Int))) := by omega
  have hr : ((s.rows : Int) - 2).toNat = s.rows - 2 := by omega
  have hc : ((s.cols : Int) - 2).toNat = s.cols - 2 := by omega
  unfold Timer.fire setTile
  simp only [if_neg hg, hr, hc]
  exact Grid.cell_assign_same _ _ _ _ (by omega)

theorem finalLevel_extent (s : State) : (loadLevel s 4).cols = 12 ∧ (loadLevel s 4).rows = 5 := by
  obtain ⟨hc, hr⟩ := loadLevel_extent s 4 (by decide) (by decide)
  rw [hc, hr]
  exact ⟨by decide, by decide⟩

/-! ## Lemmas: pickups -/

theorem useMine_fresh (s : State) (tx ty : Int) (hu : s.player._used = false)
    (hp : probe s = (tx, ty))
    (hr : 0 ≤ ty ∧ ty < (s.rows : Int) ∧ 0 ≤ tx ∧ tx < (s.cols : Int)) :
    useMine true s = useAt { s with player := { s.player with _used := true } } tx ty := by
  have hp0 : probe { s with player := { s.player with _used := true } } = (tx, ty) := hp
  have hg : ty ≥ 0 ∧ ty < (s.rows : Int) ∧ tx ≥ 0 ∧ tx < (s.cols : Int) := by omega
  unfold useMine
  simp only [hu, Bool.not_false, Bool.and_self, if_true, hp0, hg, and_self, Bool.not_true,
    Bool.false_eq_true, if_false]

theorem useAt_soul (s : State) (tx ty : Int)
    (ht : s.LEVEL_MAP.cell ty.toNat tx.toNat = some TILE.SOUL) :
    useAt s tx ty
      = { s with LEVEL_MAP := s.LEVEL_MAP.assign ty.toNat tx.toNat TILE.EMPTY,
                 player := { s.player with souls := s.player.souls + 1 } } := by
  unfold useAt
  simp only [ht]
  rw [if_neg (by decide), if_pos trivial]

theorem useAt_heart (s : State) (tx ty : Int)
    (ht : s.LEVEL_MAP.cell ty.toNat tx.toNat = some TILE.HEART) :
    useAt s tx ty
      = { s with LEVEL_MAP := s.LEVEL_MAP.assign ty.toNat tx.toNat TILE.EMPTY,
                 player := { s.player with health := min 9 (s.player.health + 1) } } := by
  unfold useAt
  simp only [ht]
  rw [if_neg (by decide), if_neg (by decide), if_pos trivial]

/-! ## Lemmas: the player across the phases of a tick -/

theorem worldBounds_shape (s : State) :
    ∃ x h, (worldBounds s).player = { s.player with x := x, health := h } := by
  unfold worldBounds
  dsimp only
  split_ifs
  all_goals exact ⟨_, _, rfl⟩

theorem useAt_shape (s : State) (tx ty : Int) :
    ∃ so h, (useAt s tx ty).player = { s.player with souls := so, health := h } := by
  unfold useAt
  split
  · exact ⟨_, _, rfl⟩
  · dsimp only
    split_ifs
    all_goals exact ⟨_, _, rfl⟩

theorem useMine_shape (use : Bool) (s : State) :
    ∃ u so h, (useMine use s).player = { s.player with _used := u, souls := so, health := h } := by
  unfold useMine
  dsimp only
  split_ifs
  all_goals first
    | exact ⟨_, _, _, rfl⟩
    | (obtain ⟨so, h, e⟩ := useAt_shape _ _ _
       exact ⟨_, so, h, by rw [e]⟩)

theorem hurtOf_shape {p q : Player} (h : hurtOf p q) : ∃ hl, q = { p with health := hl } :=
  ⟨q.health, h.1⟩

/-- The phases of a tick after the feet collision change nothing of the player
but the position, the velocity, `health`, `souls` and the use latch. -/
theorem late_shape (dt : ℚ) (use : Bool) (s : State) :
    ∃ x y vx vy h so u,
      (particlesStep (cameraStep (exitCheck (bossStep dt (enemiesStep
        (useMine use (worldBounds s))))))).player
        = { s.player with x := x, y := y, vx := vx, vy := vy, health := h, souls := so, _used := u } := by
  rw [particlesStep_player, cameraStep_player]
  obtain ⟨x1, h1, e1⟩ := worldBounds_shape s
  obtain ⟨u2, so2, h2, e2⟩ := useMine_shape use (worldBounds s)
  obtain ⟨h3, e3⟩ := hurtOf_shape (enemiesStep_hurtOf (useMine use (worldBounds s)))
  obtain ⟨q, hq, hb⟩ := bossStep_player dt (enemiesStep (useMine use (worldBounds s)))
  obtain ⟨h4, e4⟩ := hurtOf_shape hq
  obtain ⟨x5, y5, e5⟩ := exitCheck_player (bossStep dt (enemiesStep (useMine use (worldBounds s))))
  rw [e5]
  rcases hb with hb | hb
  · rw [hb, e4, e3, e2, e1]
    exact ⟨_, _, _, _, _, _, _, rfl⟩
  · rw [hb, e4, e3, e2, e1]
    exact ⟨_, _, _, _, _, _, _, rfl⟩

/-- What `jumpStep` does to the player, by jump action. -/
theorem jumpStep_player (up : Bool) (s : State) :
    (jumpStep up s).player =
      if groundJump up s.player = true then
        { s.player with vy := -(86 / 10), onGround := false, canDoubleJump := true, _jumped := true }
      else if doubleJump up s.player = true then
        { s.player with vy := -7, canDoubleJump := false, _jumped := true }
      else
        { s.player with vy := clamp (s.player.vy + GRAVITY * (6 / 10)) (-MAX_FALL) MAX_FALL,
                        _jumped := up } := by
  unfold jumpStep groundJump doubleJump
  dsimp only
  cases up <;> cases hj : s.player._jumped <;> cases hg : s.player.onGround <;>
    cases hc : s.player.canDoubleJump <;> simp [hj, hg, hc]

theorem moveStep_control (l r : Bool) (s : State) :
    (moveStep l r s).player._jumped = s.player._jumped
    ∧ (moveStep l r s).player.onGround = s.player.onGround
    ∧ (moveStep l r s).player.canDoubleJump = s.player.canDoubleJump := by
  unfold moveStep
  dsimp only
  split_ifs <;> exact ⟨rfl, rfl, rfl⟩

theorem dashStep_control (dash : Bool) (dt : ℚ) (s : State) :
    (dashStep dash dt s).player._jumped = s.player._jumped
    ∧ (dashStep dash dt s).player.onGround = s.player.onGround
    ∧ (dashStep dash dt s).player.canDoubleJump = s.player.canDoubleJump
    ∧ (dashStep dash dt s).player.vy = s.player.vy := by
  unfold dashStep
  dsimp only
  split_ifs <;> exact ⟨rfl, rfl, rfl, rfl⟩

theorem atFeet_control (dt : ℚ) (keys : Keys) (s : State) :
    (atFeet dt keys s).player._jumped = keys.up
    ∧ (atFeet dt keys s).player.canDoubleJump
        = (groundJump keys.up s.player || (!doubleJump keys.up s.player && s.player.canDoubleJump)) := by
  obtain ⟨m1, m2, m3⟩ := moveStep_control keys.left keys.right s
  obtain ⟨d1, d2, d3, _⟩ := dashStep_control keys.dash dt
    (jumpStep keys.up (moveStep keys.left keys.right s))
  have hj := jumpStep_player keys.up (moveStep keys.left keys.right s)
  have hgj : groundJump keys.up (moveStep keys.left keys.right s).player
      = groundJump keys.up s.player := by
    unfold groundJump; rw [m1, m2]
  have hdj : doubleJump keys.up (moveStep keys.left keys.right s).player
      = doubleJump keys.up s.player := by
    unfold doubleJump; rw [m1, m2, m3]
  rw [hgj, hdj] at hj
  show (dashStep keys.dash dt (jumpStep keys.up (moveStep keys.left keys.right s))).player._jumped = _
    ∧ (dashStep keys.dash dt (jumpStep keys.up (moveStep keys.left keys.right s))).player.canDoubleJump = _
  rw [d1, d3, hj]
  by_cases hg : groundJump keys.up s.player = true
  · rw [if_pos hg, hg]
    have hup : keys.up = true := by
      unfold groundJump at hg
      cases hk : keys.up
      · rw [hk] at hg; simp at hg
      · rfl
    exact ⟨hup.symm, by simp⟩
  · rw [if_neg hg]
    have hg' : groundJump keys.up s.player = false := by
      cases h : groundJump keys.up s.player
      · rfl
      · exact absurd h hg
    by_cases hd : doubleJump keys.up s.player = true
    · rw [if_pos hd, hd, hg']
      have hup : keys.up = true := by
        unfold doubleJump at hd
        cases hk : keys.up
        · rw [hk] at hd; simp at hd
        · rfl
      exact ⟨hup.symm, by simp⟩
    · rw [if_neg hd]
      have hd' : doubleJump keys.up s.player = false := by
        cases h : doubleJump keys.up s.player
        · rfl
        · exact absurd h hd
      rw [hd', hg']
      exact ⟨rfl, by simp [m3]⟩

/-- The control flags of the player at the end of a tick. -/
theorem tick_control (dt : ℚ) (keys : Keys) (s : State) :
    (update dt keys s).player._jumped = keys.up
    ∧ (update dt keys s).player.onGround = contact dt keys s
    ∧ (update dt keys s).player.canDoubleJump
        = (contact dt keys s
            || (groundJump keys.up s.player || (!doubleJump keys.up s.player && s.player.canDoubleJump))) := by
  obtain ⟨a1, a2⟩ := atFeet_control dt keys s
  obtain ⟨x, y, vx, vy, h, so, u, e⟩ := late_shape dt keys.use (feetCollision (atFeet dt keys s))
  have hu : update dt keys s = particlesStep (cameraStep (exitCheck (bossStep dt (enemiesStep
      (useMine keys.use (worldBounds (feetCollision (atFeet dt keys s)))))))) := rfl
  rw [hu, e]
  show (feetCollision (atFeet dt keys s)).player._jumped = _
    ∧ (feetCollision (atFeet dt keys s)).player.onGround = _
    ∧ (feetCollision (atFeet dt keys s)).player.canDoubleJump = _
  unfold feetCollision contact
  dsimp only
  by_cases hc : feetTile (atFeet dt keys s) ≠ TILE.EMPTY
  · have hd : decide (feetTile (atFeet dt keys s) ≠ TILE.EMPTY) = true := decide_eq_true hc
    rw [if_pos hc, hd]
    exact ⟨a1, rfl, rfl⟩
  · have hd : decide (feetTile (atFeet dt keys s) ≠ TILE.EMPTY) = false := decide_eq_false hc
    rw [if_neg hc, hd]
    exact ⟨a1, rfl, a2⟩

theorem jumpAction_latched (up : Bool) (p : Player) (h : p._jumped = true) :
    jumpAction up p = false := by
  unfold jumpAction groundJump doubleJump
  rw [h]
  simp

/-- While the jump key stays held, no tick after the first performs a jump
action. -/
theorem no_jump_after_first (inp : Nat → ℚ × Keys) (s : State) (a k : Nat)
    (hheld : (inp (a + k)).2.up = true) :
    jumpAction (inp (a + k + 1)).2.up (tickState inp s (a + k + 1)).player = false := by
  apply jumpAction_latched
  show (update (inp (a + k)).1 (inp (a + k)).2 (tickState inp s (a + k))).player._jumped = true
  rw [(tick_control _ _ _).1, hheld]

theorem jump_count_le_one (inp : Nat → ℚ × Keys) (s : State) (a n : Nat)
    (hheld : ∀ j, a ≤ j → j < a + n → (inp j).2.up = true) :
    (List.range n).countP
      (fun k => jumpAction (inp (a + k)).2.up (tickState inp s (a + k)).player) ≤ 1 := by
  cases n with
  | zero => simp
  | succ m =>
    rw [List.range_succ_eq_map, List.countP_cons, List.countP_map]
    have hz : (List.range m).countP
        ((fun k => jumpAction (inp (a + k)).2.up (tickState inp s (a + k)).player) ∘ Nat.succ) = 0 := by
      rw [List.countP_eq_zero]
      intro k hk
      have hk' : k < m := List.mem_range.mp hk
      have := no_jump_after_first inp s a k (hheld (a + k) (by omega) (by omega))
      simp only [Function.comp, Nat.succ_eq_add_one, ← Nat.add_assoc, this]
      decide
    rw [hz]
    split <;> omega

theorem canDoubleJump_iff (inp : Nat → ℚ × Keys) (s : State) (hs : s.player.canDoubleJump = true)
    (n : Nat) :
    (tickState inp s (n + 1)).player.canDoubleJump = false ↔
      ∃ t, t ≤ n ∧ doubleJump (inp t).2.up (tickState inp s t).player = true
        ∧ ∀ j, t ≤ j → j ≤ n → contact (inp j).1 (inp j).2 (tickState inp s j) = false := by
  induction n with
  | zero =>
    obtain ⟨_, _, h3⟩ := tick_control (inp 0).1 (inp 0).2 s
    show (update (inp 0).1 (inp 0).2 s).player.canDoubleJump = false ↔ _
    rw [h3, hs]
    constructor
    · intro h
      refine ⟨0, le_refl _, ?_, ?_⟩
      · show doubleJump (inp 0).2.up s.player = true
        cases hd : doubleJump (inp 0).2.up s.player
        · rw [hd] at h; simp at h
        · rfl
      · intro j _ hj
        have : j = 0 := by omega
        subst this
        show contact (inp 0).1 (inp 0).2 s = false
        cases hc : contact (inp 0).1 (inp 0).2 s
        · rfl
        · rw [hc] at h; simp at h
    · rintro ⟨t, ht, hd, hc⟩
      have : t = 0 := by omega
      subst this
      have hd' : doubleJump (inp 0).2.up s.player = true := hd
      have hc' : contact (inp 0).1 (inp 0).2 s = false := hc 0 (le_refl _) (le_refl _)
      have hg : groundJump (inp 0).2.up s.player = false := by
        unfold doubleJump at hd'
        unfold groundJump
        cases h1 : (inp 0).2.up <;> cases h2 : s.player._jumped <;> cases h3 : s.player.onGround <;>
          simp [h1, h2, h3] at hd' ⊢
      rw [hd', hc', hg]
      rfl
  | succ n ih =>
    obtain ⟨_, h2, h3⟩ := tick_control (inp (n + 1)).1 (inp (n + 1)).2 (tickState inp s (n + 1))
    have hprev := tick_control (inp n).1 (inp n).2 (tickState inp s n)
    have hog : (tickState inp s (n + 1)).player.onGround
        = contact (inp n).1 (inp n).2 (tickState inp s n) := hprev.2.1
    show (update (inp (n + 1)).1 (inp (n + 1)).2 (tickState inp s (n + 1))).player.canDoubleJump = false ↔ _
    rw [h3]
    constructor
    · intro h
      have hc : contact (inp (n + 1)).1 (inp (n + 1)).2 (tickState inp s (n + 1)) = false := by
        cases hc : contact (inp (n + 1)).1 (inp (n + 1)).2 (tickState inp s (n + 1))
        · rfl
        · rw [hc] at h; simp at h
      rw [hc] at h
      by_cases hd : doubleJump (inp (n + 1)).2.up (tickState inp s (n + 1)).player = true
      · refine ⟨n + 1, le_refl _, hd, ?_⟩
        intro j hj1 hj2
        have : j = n + 1 := by omega
        subst this
        exact hc
      · have hd' : doubleJump (inp (n + 1)).2.up (tickState inp s (n + 1)).player = false := by
          cases hx : doubleJump (inp (n + 1)).2.up (tickState inp s (n + 1)).player
          · rfl
          · exact absurd hx hd
        rw [hd'] at h
        have hcdj : (tickState inp s (n + 1)).player.canDoubleJump = false := by
          cases hx : (tickState inp s (n + 1)).player.canDoubleJump
          · rfl
          · rw [hx] at h; simp at h
        obtain ⟨t, ht, hdt, hct⟩ := ih.mp hcdj
        refine ⟨t, by omega, hdt, ?_⟩
        intro j hj1 hj2
        by_cases hjn : j ≤ n
        · exact hct j hj1 hjn
        · have : j = n + 1 := by omega
          subst this
          exact hc
    · rintro ⟨t, ht, hdt, hct⟩
      have hc : contact (inp (n + 1)).1 (inp (n + 1)).2 (tickState inp s (n + 1)) = false :=
        hct (n + 1) ht (le_refl _)
      rw [hc]
      by_cases htn : t = n + 1
      · subst htn
        have hg : groundJump (inp (n + 1)).2.up (tickState inp s (n + 1)).player = false := by
          unfold doubleJump at hdt
          unfold groundJump
          cases h1 : (inp (n + 1)).2.up <;> cases h2 : (tickState inp s (n + 1)).player._jumped <;>
            cases h3 : (tickState inp s (n + 1)).player.onGround <;> simp [h1, h2, h3] at hdt ⊢
        rw [hdt, hg]
        rfl
      · have htn' : t ≤ n := by omega
        have hcdj : (tickState inp s (n + 1)).player.canDoubleJump = false :=
          ih.mpr ⟨t, htn', hdt, fun j hj1 hj2 => hct j hj1 (by omega)⟩
        have hcn : contact (inp n).1 (inp n).2 (tickState inp s n) = false :=
          hct n htn' (by omega)
        have hg : groundJump (inp (n + 1)).2.up (tickState inp s (n + 1)).player = false := by
          unfold groundJump
          rw [hog, hcn]
          simp
        rw [hg, hcdj]
        simp

theorem doubleJump_needs_contact (inp : Nat → ℚ × Keys) (s : State)
    (hs : s.player.canDoubleJump = true) (t u : Nat) (htu : t < u)
    (hdt : doubleJump (inp t).2.up (tickState inp s t).player = true)
    (hdu : doubleJump (inp u).2.up (tickState inp s u).player = true) :
    ∃ j, t ≤ j ∧ j < u ∧ contact (inp j).1 (inp j).2 (tickState inp s j) = true := by
  by_contra hno
  have hall : ∀ j, t ≤ j → j ≤ u - 1 → contact (inp j).1 (inp j).2 (tickState inp s j) = false := by
    intro j hj1 hj2
    cases hc : contact (inp j).1 (inp j).2 (tickState inp s j)
    · rfl
    · exact absurd ⟨j, hj1, by omega, hc⟩ hno
  have hcdj := (canDoubleJump_iff inp s hs (u - 1)).mpr ⟨t, by omega, hdt, hall⟩
  have hu : u - 1 + 1 = u := by omega
  rw [hu] at hcdj
  unfold doubleJump at hdu
  rw [hcdj] at hdu
  simp at hdu

theorem abs_clamp_fall (v : ℚ) : -MAX_FALL ≤ clamp v (-MAX_FALL) MAX_FALL
    ∧ clamp v (-MAX_FALL) MAX_FALL ≤ MAX_FALL := by
  unfold clamp
  exact ⟨le_max_left _ _, max_le (by norm_num) (min_le_left _ _)⟩

theorem jumpStep_vy (up : Bool) (s : State) :
    -MAX_FALL ≤ (jumpStep up s).player.vy ∧ (jumpStep up s).player.vy ≤ MAX_FALL := by
  rw [jumpStep_player]
  split_ifs
  · exact ⟨by norm_num, by norm_num⟩
  · exact ⟨by norm_num, by norm_num⟩
  · exact abs_clamp_fall _

theorem atFeet_vy (dt : ℚ) (keys : Keys) (s : State) :
    -MAX_FALL ≤ (atFeet dt keys s).player.vy ∧ (atFeet dt keys s).player.vy ≤ MAX_FALL := by
  have h := jumpStep_vy keys.up (moveStep keys.left keys.right s)
  have hd := (dashStep_control keys.dash dt (jumpStep keys.up (moveStep keys.left keys.right s))).2.2.2
  show -MAX_FALL ≤ (dashStep keys.dash dt (jumpStep keys.up (moveStep keys.left keys.right s))).player.vy
    ∧ (dashStep keys.dash dt (jumpStep keys.up (moveStep keys.left keys.right s))).player.vy ≤ MAX_FALL
  rw [hd]
  exact h

theorem feetCollision_vy (s : State) :
    (feetCollision s).player.vy = 0 ∨ (feetCollision s).player.vy = s.player.vy := by
  unfold feetCollision
  dsimp only
  split_ifs
  · exact Or.inl rfl
  · exact Or.inr rfl

theorem late_vy (dt : ℚ) (use : Bool) (s : State) :
    (particlesStep (cameraStep (exitCheck (bossStep dt (enemiesStep
        (useMine use (worldBounds s))))))).player.vy = s.player.vy
    ∨ (particlesStep (cameraStep (exitCheck (bossStep dt (enemiesStep
        (useMine use (worldBounds s))))))).player.vy = -3 := by
  rw [particlesStep_player, cameraStep_player]
  obtain ⟨x1, h1, e1⟩ := worldBounds_shape s
  obtain ⟨u2, so2, h2, e2⟩ := useMine_shape use (worldBounds s)
  obtain ⟨h3, e3⟩ := hurtOf_shape (enemiesStep_hurtOf (useMine use (worldBounds s)))
  obtain ⟨q, hq, hb⟩ := bossStep_player dt (enemiesStep (useMine use (worldBounds s)))
  obtain ⟨h4, e4⟩ := hurtOf_shape hq
  obtain ⟨x5, y5, e5⟩ := exitCheck_player (bossStep dt (enemiesStep (useMine use (worldBounds s))))
  rw [e5]
  rcases hb with hb | hb
  · rw [hb, e4, e3, e2, e1]
    exact Or.inl rfl
  · rw [hb]
    exact Or.inr rfl

theorem update_vy (dt : ℚ) (keys : Keys) (s : State) :
    -MAX_FALL ≤ (update dt keys s).player.vy ∧ (update dt keys s).player.vy ≤ MAX_FALL := by
  have hu : update dt keys s = particlesStep (cameraStep (exitCheck (bossStep dt (enemiesStep
      (useMine keys.use (worldBounds (feetCollision (atFeet dt keys s)))))))) := rfl
  have ha := atFeet_vy dt keys s
  rw [hu]
  rcases late_vy dt keys.use (feetCollision (atFeet dt keys s)) with h | h
  · rw [h]
    rcases feetCollision_vy (atFeet dt keys s) with h0 | h0
    · rw [h0]
      exact ⟨by norm_num, by norm_num⟩
    · rw [h0]
      exact ha
  · rw [h]
    exact ⟨by norm_num, by norm_num⟩

theorem worldBounds_x (s : State) (hc : 1 ≤ s.cols) :
    0 ≤ (worldBounds s).player.x
    ∧ (worldBounds s).player.x ≤ (s.cols : ℚ) * TILE_SIZE - (worldBounds s).player.w := by
  have hc' : (1 : ℚ) ≤ (s.cols : ℚ) := by exact_mod_cast hc
  unfold worldBounds
  dsimp only
  have h16 : (TILE_SIZE : ℚ) = 16 := rfl
  rw [h16]
  split_ifs <;> simp only [hurtPlayer_player, Player.w] at * <;> constructor <;> linarith

theorem exitCheck_x (s : State)
    (h : 0 ≤ s.player.x ∧ s.player.x ≤ (s.cols : ℚ) * TILE_SIZE - 12) :
    0 ≤ (exitCheck s).player.x
    ∧ (exitCheck s).player.x ≤ ((exitCheck s).cols : ℚ) * TILE_SIZE - 12 := by
  unfold exitCheck saveProgress
  split_ifs with he hl
  · dsimp only
    by_cases h0 : 0 ≤ s.currentLevel + 1
    · have h5 : s.currentLevel + 1 < 5 := hl
      show 0 ≤ (loadLevel s (s.currentLevel + 1)).player.x
        ∧ (loadLevel s (s.currentLevel + 1)).player.x
            ≤ ((loadLevel s (s.currentLevel + 1)).cols : ℚ) * TILE_SIZE - 12
      rw [loadLevel_x s _ h0 h5, (loadLevel_extent s _ h0 h5).1]
      have hs := (level_shape (s.currentLevel + 1).toNat (by omega)).2.1
      have hs' : (12 : ℚ) ≤ ((((levelAt (s.currentLevel + 1).toNat).map.headD []).length : Nat) : ℚ) := by
        exact_mod_cast hs
      have h16 : (TILE_SIZE : ℚ) = 16 := rfl
      rw [h16]
      constructor <;> linarith
    · show 0 ≤ (loadLevel s (s.currentLevel + 1)).player.x
        ∧ (loadLevel s (s.currentLevel + 1)).player.x
            ≤ ((loadLevel s (s.currentLevel + 1)).cols : ℚ) * TILE_SIZE - 12
      rw [loadLevel_invalid s _ (Or.inl (by omega))]
      exact h
  · exact h
  · exact h

theorem update_x (dt : ℚ) (keys : Keys) (s : State) (hc : 1 ≤ s.cols) :
    0 ≤ (update dt keys s).player.x
    ∧ (update dt keys s).player.x
        ≤ ((update dt keys s).cols : ℚ) * TILE_SIZE - (update dt keys s).player.w := by
  have hu : update dt keys s = particlesStep (cameraStep (exitCheck (bossStep dt (enemiesStep
      (useMine keys.use (worldBounds (feetCollision (atFeet dt keys s)))))))) := rfl
  have hcols : (feetCollision (atFeet dt keys s)).cols = s.cols := by
    have h1 := feetCollision_sameGrid (atFeet dt keys s)
    rw [h1.2.1]
    rfl
  have hw := worldBounds_x (feetCollision (atFeet dt keys s)) (by rw [hcols]; exact hc)
  have hwc := (worldBounds_sameGrid (feetCollision (atFeet dt keys s))).2.1
  obtain ⟨u2, so2, h2, e2⟩ := useMine_shape keys.use (worldBounds (feetCollision (atFeet dt keys s)))
  have hmc := (useMine_extent keys.use (worldBounds (feetCollision (atFeet dt keys s)))).1
  obtain ⟨h3, e3⟩ := hurtOf_shape (enemiesStep_hurtOf (useMine keys.use
    (worldBounds (feetCollision (atFeet dt keys s)))))
  have hec := (enemiesStep_sameGrid (useMine keys.use
    (worldBounds (feetCollision (atFeet dt keys s))))).2.1
  obtain ⟨q, hq, hb⟩ := bossStep_player dt (enemiesStep (useMine keys.use
    (worldBounds (feetCollision (atFeet dt keys s)))))
  obtain ⟨h4, e4⟩ := hurtOf_shape hq
  have hbc := (bossStep_sameGrid dt (enemiesStep (useMine keys.use
    (worldBounds (feetCollision (atFeet dt keys s)))))).2.1
  have hbx : (bossStep dt (enemiesStep (useMine keys.use
      (worldBounds (feetCollision (atFeet dt keys s)))))).player.x
      = (worldBounds (feetCollision (atFeet dt keys s))).player.x := by
    rcases hb with hb | hb
    · rw [hb, e4, e3, e2]
    · rw [hb, e4, e3, e2]
  have hpre : 0 ≤ (bossStep dt (enemiesStep (useMine keys.use
      (worldBounds (feetCollision (atFeet dt keys s)))))).player.x
      ∧ (bossStep dt (enemiesStep (useMine keys.use
          (worldBounds (feetCollision (atFeet dt keys s)))))).player.x
        ≤ ((bossStep dt (enemiesStep (useMine keys.use
            (worldBounds (feetCollision (atFeet dt keys s)))))).cols : ℚ) * TILE_SIZE - 12 := by
    rw [hbx, hbc, hec, hmc, hwc]
    exact hw
  have hx := exitCheck_x _ hpre
  rw [hu]
  show 0 ≤ (cameraStep _).player.x ∧ (cameraStep _).player.x ≤ ((cameraStep _).cols : ℚ) * TILE_SIZE - 12
  rw [cameraStep_player, (cameraStep_sameGrid _).2.1]
  exact hx

/-! ## Lemmas: the ground snap -/

/-- On a non-empty sample the feet collision puts the bottom edge of the player
at `16 * floor((y + h)/16)`, with `y` taken before the step. -/
theorem feetCollision_snap (s : State) (h : feetTile s ≠ TILE.EMPTY) :
    (feetCollision s).player.y + (feetCollision s).player.h
        = 16 * (⌊(s.player.y + s.player.h) / 16⌋ : Int)
    ∧ (feetCollision s).player.vy = 0
    ∧ (feetCollision s).player.onGround = true := by
  unfold feetCollision
  dsimp only
  rw [if_pos h]
  refine ⟨?_, rfl, rfl⟩
  show ((⌊(s.player.y + s.player.h) / TILE_SIZE⌋ : Int) : ℚ) * TILE_SIZE - s.player.h + s.player.h = _
  have h16 : (TILE_SIZE : ℚ) = 16 := rfl
  rw [h16]
  ring

/-- The row sampled at `v + 1` is the row of `v`, or the next one when `v` is
within one pixel of the next tile boundary. -/
theorem floor_probe_row (v : ℚ) :
    (⌊(v + 1) / 16⌋ : Int) = ⌊v / 16⌋ + (if 15 ≤ v - 16 * (⌊v / 16⌋ : Int) then 1 else 0) := by
  have h1 := Int.floor_le (v / 16)
  have h2 := Int.lt_floor_add_one (v / 16)
  split_ifs with h
  · rw [Int.floor_eq_iff]
    push_cast
    constructor
    · linarith
    · linarith
  · rw [add_zero, Int.floor_eq_iff]
    constructor
    · linarith
    · push_neg at h
      linarith

/-- The snapped bottom edge against the top boundary of the sampled tile: they
agree unless the bottom edge was within one pixel of the next tile boundary, in
which case the snap lands one tile (16 pixels) above the sampled tile. -/
theorem feetCollision_snap_row (s : State) (h : feetTile s ≠ TILE.EMPTY) :
    (feetCollision s).player.y + (feetCollision s).player.h
      = 16 * (⌊(s.player.y + s.player.h + 1) / 16⌋ : Int)
        - (if 15 ≤ s.player.y + s.player.h - 16 * (⌊(s.player.y + s.player.h) / 16⌋ : Int)
            then 16 else 0) := by
  rw [(feetCollision_snap s h).1, floor_probe_row]
  split_ifs <;> push_cast <;> ring

/-! ## Lemmas: the dash latch -/

/-- What `dashStep` does to the dash latch, the cooldown and `vx`. -/
theorem dashStep_dash (dash : Bool) (dt : ℚ) (s : State) :
    (dashStep dash dt s).player._dashed = (dash && (s.player._dashed || dashFires dash s.player))
    ∧ (dashFires dash s.player = true →
        (dashStep dash dt s).player.dashCooldown = 80 - dt * (6 / 100)
        ∧ (dashStep dash dt s).player.vx = s.player.vx + s.player.facing * 6)
    ∧ (dashFires dash s.player = false →
        (dashStep dash dt s).player.dashCooldown
            = (if s.player.dashCooldown > 0 then s.player.dashCooldown - dt * (6 / 100)
                else s.player.dashCooldown)
        ∧ (dashStep dash dt s).player.vx = s.player.vx) := by
  unfold dashStep dashFires
  dsimp only
  cases dash <;> cases hd : s.player._dashed <;>
    by_cases hc : s.player.dashCooldown ≤ 0 <;>
    by_cases hc2 : s.player.dashCooldown > 0 <;>
    simp [hd, hc, hc2]

/-- The dash latch at the end of a tick, and the guard of the dash statement
when the tick reaches it. -/
theorem tick_dash (dt : ℚ) (keys : Keys) (s : State) :
    (update dt keys s).player._dashed
        = (keys.dash && (s.player._dashed || dashFires keys.dash s.player))
    ∧ dashFires keys.dash (atDash keys s).player = dashFires keys.dash s.player := by
  obtain ⟨m1, m2⟩ := moveStep_dash_fields keys.left keys.right s
  obtain ⟨_, _, j1, j2⟩ := jumpStep_dash_fields keys.up (moveStep keys.left keys.right s)
  have hf : dashFires keys.dash (jumpStep keys.up (moveStep keys.left keys.right s)).player
      = dashFires keys.dash s.player := by
    unfold dashFires
    rw [j1, j2, m1, m2]
  refine ⟨?_, hf⟩
  obtain ⟨x, y, vx, vy, h, so, u, e⟩ := late_shape dt keys.use (feetCollision (atFeet dt keys s))
  have hu : update dt keys s = particlesStep (cameraStep (exitCheck (bossStep dt (enemiesStep
      (useMine keys.use (worldBounds (feetCollision (atFeet dt keys s)))))))) := rfl
  rw [hu, e]
  show (feetCollision (atFeet dt keys s)).player._dashed = _
  have hfc : (feetCollision (atFeet dt keys s)).player._dashed = (atFeet dt keys s).player._dashed := by
    unfold feetCollision
    dsimp only
    split_ifs <;> rfl
  rw [hfc]
  show (dashStep keys.dash dt (jumpStep keys.up (moveStep keys.left keys.right s))).player._dashed = _
  rw [(dashStep_dash _ _ _).1, hf, j2, m2]

theorem dashFires_held (dash : Bool) (p : Player) (h : dashFires dash p = true) :
    dash = true ∧ p.dashCooldown ≤ 0 ∧ p._dashed = false := by
  unfold dashFires at h
  simp only [Bool.and_eq_true, decide_eq_true_eq, Bool.not_eq_true'] at h
  exact ⟨h.1.1, h.1.2, h.2⟩

/-- Once a dash has fired, the latch stays set as long as the key stays held. -/
theorem dashed_while_held (inp : Nat → ℚ × Keys) (s : State) (m k : Nat)
    (hfire : dashFires (inp m).2.dash (tickState inp s m).player = true)
    (hheld : ∀ j, m ≤ j → j < m + k + 1 → (inp j).2.dash = true) :
    (tickState inp s (m + k + 1)).player._dashed = true := by
  induction k with
  | zero =>
    show (update (inp m).1 (inp m).2 (tickState inp s m)).player._dashed = true
    rw [(tick_dash _ _ _).1, hfire, hheld m (le_refl _) (by omega)]
    simp
  | succ k ih =>
    show (update (inp (m + k + 1)).1 (inp (m + k + 1)).2 (tickState inp s (m + k + 1))).player._dashed
      = true
    rw [(tick_dash _ _ _).1, ih (fun j h1 h2 => hheld j h1 (by omega)),
      hheld (m + k + 1) (by omega) (by omega)]
    simp

theorem dash_once_per_hold (inp : Nat → ℚ × Keys) (s : State) (n : Nat)
    (hfire : dashFires (inp n).2.dash (tickState inp s n).player = true) :
    (inp n).2.dash = true
    ∧ (tickState inp s n).player.dashCooldown ≤ 0
    ∧ (tickState inp s n).player._dashed = false
    ∧ ∀ m, m < n → (∀ j, m ≤ j → j < n → (inp j).2.dash = true) →
        dashFires (inp m).2.dash (tickState inp s m).player = false := by
  obtain ⟨h1, h2, h3⟩ := dashFires_held _ _ hfire
  refine ⟨h1, h2, h3, ?_⟩
  intro m hm hheld
  by_contra hcon
  have hm' : dashFires (inp m).2.dash (tickState inp s m).player = true := by
    cases h : dashFires (inp m).2.dash (tickState inp s m).player
    · exact absurd h hcon
    · rfl
  obtain ⟨k, hk⟩ : ∃ k, n = m + k + 1 := ⟨n - m - 1, by omega⟩
  have := dashed_while_held inp s m k hm' (fun j a b => hheld j a (by omega))
  rw [← hk, h3] at this
  exact Bool.false_ne_true this

/-! ## Lemmas: what leaves the enemies and the boss alone -/

theorem sameCast_refl (s : State) : sameCast s s := ⟨rfl, rfl, rfl⟩

theorem sameCast_trans {s t u : State} (h1 : sameCast s t) (h2 : sameCast t u) : sameCast s u :=
  ⟨h2.1.trans h1.1, h2.2.1.trans h1.2.1, h2.2.2.trans h1.2.2⟩

theorem hurtPlayer_sameCast (s : State) (dmg : Int) : sameCast s (hurtPlayer s dmg) := by
  unfold hurtPlayer
  dsimp only
  split <;> exact ⟨rfl, rfl, rfl⟩

theorem enemyHitParticles_sameCast (e : Enemy) (n : Nat) (s : State) :
    sameCast s (enemyHitParticles e n s) := by
  induction n generalizing s with
  | zero => exact sameCast_refl s
  | succ n ih =>
    rw [enemyHitParticles]
    exact sameCast_trans ⟨rfl, rfl, rfl⟩ (ih _)

theorem dieParticles_sameCast (b : CoreGuardian) (n : Nat) (s : State) :
    sameCast s (dieParticles b n s) := by
  induction n generalizing s with
  | zero => exact sameCast_refl s
  | succ n ih =>
    rw [dieParticles]
    exact sameCast_trans ⟨rfl, rfl, rfl⟩ (ih _)

theorem mineParticles_sameCast (tx ty : Int) (n : Nat) (s : State) :
    sameCast s (mineParticles tx ty n s) := by
  induction n generalizing s with
  | zero => exact sameCast_refl s
  | succ n ih =>
    rw [mineParticles]
    exact sameCast_trans ⟨rfl, rfl, rfl⟩ (ih _)

theorem enemyUpdate_sameCast (e : Enemy) (i : Nat) (s : State) :
    sameCast s (e.update i s).2 := by
  unfold Enemy.update
  dsimp only
  apply ite_snd_prop (sameCast s)
  · have hp := hurtPlayer_sameCast s 1
    unfold sameCast at hp ⊢
    simp only [(enemyHitParticles_sameCast _ _ _).1, (enemyHitParticles_sameCast _ _ _).2.1,
      (enemyHitParticles_sameCast _ _ _).2.2]
    exact hp
  · exact sameCast_refl s

theorem updateEnemies_sameCast (es : List Enemy) (i : Nat) (s : State) :
    sameCast s (updateEnemies es i s).2 := by
  induction es generalizing i with
  | nil => exact sameCast_refl s
  | cons e es ih =>
    rw [updateEnemies]
    exact sameCast_trans (ih (i + 1)) (enemyUpdate_sameCast _ _ _)

theorem stepProjectiles_sameCast (dt : ℚ) (ps : List Projectile) (s : State) :
    sameCast s (stepProjectiles dt ps s).2 := by
  induction ps with
  | nil => exact sameCast_refl s
  | cons pr rest ih =>
    rw [stepProjectiles]
    dsimp only
    split_ifs
    · exact sameCast_trans ih (hurtPlayer_sameCast _ 1)
    · exact ih
    · exact ih

theorem bossUpdate_sameCast (b : CoreGuardian) (dt : ℚ) (s : State) :
    sameCast s (b.update dt s).2 := by
  unfold CoreGuardian.update
  dsimp only
  split_ifs
  all_goals first
    | exact sameCast_refl s
    | exact sameCast_trans (show sameCast s (s.advance 8) from ⟨rfl, rfl, rfl⟩)
        (stepProjectiles_sameCast dt _ (s.advance 8))
    | exact sameCast_trans (show sameCast s (s.advance 1) from ⟨rfl, rfl, rfl⟩)
        (stepProjectiles_sameCast dt _ (s.advance 1))

theorem die_sameCast (b : CoreGuardian) (s : State) : sameCast s (b.die s).2 := by
  unfold CoreGuardian.die saveProgress
  dsimp only
  have h := dieParticles_sameCast b 120 s
  exact ⟨h.1, h.2.1, h.2.2⟩

theorem receiveHit_sameCast (b : CoreGuardian) (d : ℚ) (s : State) :
    sameCast s (b.receiveHit d s).2.2 := by
  unfold CoreGuardian.receiveHit
  dsimp only
  split
  · exact sameCast_refl s
  · show sameCast s (if _ then _ else _ : CoreGuardian × State).2
    apply ite_snd_prop (sameCast s)
    · exact die_sameCast _ s
    · exact sameCast_refl s

theorem worldBounds_sameCast (s : State) : sameCast s (worldBounds s) := by
  unfold worldBounds
  dsimp only
  split_ifs
  all_goals exact ⟨rfl, rfl, rfl⟩

theorem useAt_sameCast (s : State) (tx ty : Int) : sameCast s (useAt s tx ty) := by
  unfold useAt
  split
  · exact sameCast_refl s
  · dsimp only
    unfold sameCast
    split_ifs
    all_goals
      simp only [State.advance, (mineParticles_sameCast _ _ _ _).1,
        (mineParticles_sameCast _ _ _ _).2.1, (mineParticles_sameCast _ _ _ _).2.2, and_self]

theorem useMine_sameCast (use : Bool) (s : State) : sameCast s (useMine use s) := by
  unfold useMine
  dsimp only
  split_ifs
  all_goals first
    | exact ⟨rfl, rfl, rfl⟩
    | exact useAt_sameCast _ _ _

theorem feetCollision_sameCast (s : State) : sameCast s (feetCollision s) := by
  unfold feetCollision
  dsimp only
  split_ifs <;> exact ⟨rfl, rfl, rfl⟩

theorem cameraStep_sameCast (s : State) : sameCast s (cameraStep s) := by
  unfold cameraStep
  dsimp only
  split_ifs <;> exact ⟨rfl, rfl, rfl⟩

/-! ## Lemmas: one call of `Enemy.update()` -/

theorem enemyUpdate_miss (e : Enemy) (i : Nat) (s : State) (h : e.hits s = false) :
    e.update i s = (e.moved s, s) := by
  unfold Enemy.hits Enemy.moved at h
  unfold Enemy.update Enemy.moved
  dsimp only at h ⊢
  rw [if_neg (by rw [h]; exact Bool.false_ne_true)]

theorem moved_vx_active (e : Enemy) (s : State) :
    (e.moved s).vx = (if e.wallAhead s = true then e.vx * -1 else e.vx)
    ∧ (e.moved s).active = e.active := by
  unfold Enemy.moved Enemy.wallAhead
  dsimp only
  by_cases hw : tileAt s (e.x + (if e.vx > 0 then e.w + 1 else -1)) (e.y + e.h / 2) ≠ TILE.EMPTY
  · simp only [if_pos hw, decide_eq_true hw, if_true]
    split_ifs <;> exact ⟨rfl, rfl⟩
  · simp only [if_neg hw, decide_eq_false hw, Bool.false_eq_true, if_false]
    split_ifs <;> exact ⟨rfl, rfl⟩

theorem enemyUpdate_hit (e : Enemy) (i : Nat) (s : State) (h : e.hits s = true) :
    (e.update i s).2.player.health = s.player.health - 1
    ∧ (e.update i s).1 = { e.moved s with vx := (e.moved s).vx * -1, active := false } := by
  unfold Enemy.hits Enemy.moved at h
  unfold Enemy.update Enemy.moved
  dsimp only at h ⊢
  rw [if_pos h]
  refine ⟨?_, rfl⟩
  simp only [enemyHitParticles_player, hurtPlayer_player]

/-! ## Lemmas: the enemies over the ticks -/

/-- The enemy at index `i` after the loop is the result of its own `update()`,
called in the state the enemies after it have left. -/
theorem updateEnemies_getElem? (es : List Enemy) (j i : Nat) (s : State) :
    (updateEnemies es j s).1[i]?
      = (es[i]?).map (fun e => (e.update (j + i) (updateEnemies (es.drop (i + 1)) (j + i + 1) s).2).1) := by
  induction es generalizing j i with
  | nil => simp [updateEnemies]
  | cons e es ih =>
    rw [updateEnemies]
    cases i with
    | zero => simp
    | succ i =>
      simp only [List.getElem?_cons_succ, List.drop_succ_cons]
      rw [ih (j + 1) i]
      have h1 : j + 1 + i = j + (i + 1) := by omega
      rw [h1]

theorem enemiesStep_getElem? (s : State) (i : Nat) :
    (enemiesStep s).enemies[i]? = (s.enemies[i]?).map (fun e => (e.update i (loopState s i)).1) := by
  unfold enemiesStep loopState
  dsimp only
  rw [updateEnemies_getElem?]
  simp only [Nat.zero_add]

theorem enemyUpdate_active (e : Enemy) (i : Nat) (s : State) :
    (e.update i s).1.active = (e.active && !e.hits s) := by
  cases h : e.hits s
  · rw [enemyUpdate_miss e i s h, (moved_vx_active e s).2]
    simp
  · rw [(enemyUpdate_hit e i s h).2]
    simp

theorem hits_active (e : Enemy) (s : State) (h : e.hits s = true) : e.active = true := by
  unfold Enemy.hits at h
  rw [(moved_vx_active e s).2] at h
  simp only [Bool.and_eq_true] at h
  exact h.2

theorem enemiesStep_active (s : State) (i : Nat) :
    isActive i (enemiesStep s) = (isActive i s && !enemyHits i s) := by
  unfold isActive enemyHits
  rw [enemiesStep_getElem?]
  cases s.enemies[i]? with
  | none => rfl
  | some e => exact enemyUpdate_active e i _

theorem enemyHits_active (s : State) (i : Nat) (h : enemyHits i s = true) : isActive i s = true := by
  unfold isActive
  unfold enemyHits at h
  cases he : s.enemies[i]? with
  | none => rw [he] at h; exact h
  | some e => rw [he] at h; exact hits_active e _ h

theorem atEnemies_sameCast (dt : ℚ) (keys : Keys) (s : State) : sameCast s (atEnemies dt keys s) := by
  unfold atEnemies atFeet
  apply sameCast_trans _ (useMine_sameCast _ _)
  apply sameCast_trans _ (worldBounds_sameCast _)
  apply sameCast_trans _ (feetCollision_sameCast _)
  exact ⟨rfl, rfl, rfl⟩

theorem bossStep_enemies (dt : ℚ) (s : State) :
    (bossStep dt s).enemies = s.enemies ∧ (bossStep dt s).currentLevel = s.currentLevel := by
  unfold bossStep
  cases hb : s.boss with
  | none => exact ⟨rfl, rfl⟩
  | some b =>
    dsimp only
    have hu := bossUpdate_sameCast b dt s
    split_ifs
    · have hr := sameCast_trans hu (receiveHit_sameCast (b.update dt s).1 2 (b.update dt s).2)
      exact ⟨hr.1, hr.2.2⟩
    · have hr := sameCast_trans hu (receiveHit_sameCast (b.update dt s).1 2 (b.update dt s).2)
      exact ⟨hr.1, hr.2.2⟩
    · exact ⟨hu.1, hu.2.2⟩

theorem isActive_congr {s t : State} (i : Nat) (h : t.enemies = s.enemies) :
    isActive i t = isActive i s := by
  unfold isActive
  rw [h]

/-- The `active` flag of `enemies[i]` at the end of a tick that does not load a
level. -/
theorem tick_active (i : Nat) (dt : ℚ) (keys : Keys) (s : State)
    (hl : levelChange dt keys s = false) :
    isActive i (update dt keys s) = (isActive i s && !dealsDamage i dt keys s) := by
  have hu : update dt keys s = particlesStep (cameraStep (exitCheck (atExit dt keys s))) := rfl
  have h1 : (update dt keys s).enemies = (atExit dt keys s).enemies := by
    rw [hu]
    show (cameraStep (exitCheck (atExit dt keys s))).enemies = _
    rw [(cameraStep_sameCast _).1]
    unfold levelChange at hl
    have hl' := of_decide_eq_false hl
    unfold exitCheck saveProgress
    split_ifs with ha hb
    · exact absurd ⟨ha, hb⟩ hl'
    · rfl
    · rfl
  rw [isActive_congr i h1]
  unfold atExit
  rw [isActive_congr i (bossStep_enemies dt _).1, enemiesStep_active,
    isActive_congr i (atEnemies_sameCast dt keys s).1]
  rfl

/-- An enemy that is not active stays so over ticks that do not load a level. -/
theorem inactive_run (inp : Nat → ℚ × Keys) (s : State) (i j k : Nat)
    (hl : ∀ t, j ≤ t → t < j + k → levelChange (inp t).1 (inp t).2 (tickState inp s t) = false)
    (h : isActive i (tickState inp s j) = false) :
    isActive i (tickState inp s (j + k)) = false := by
  induction k with
  | zero => exact h
  | succ k ih =>
    show isActive i (update (inp (j + k)).1 (inp (j + k)).2 (tickState inp s (j + k))) = false
    rw [tick_active i _ _ _ (hl (j + k) (by omega) (by omega)),
      ih (fun t h1 h2 => hl t h1 (by omega))]
    rfl

theorem damage_once (inp : Nat → ℚ × Keys) (s : State) (i j k : Nat) (hjk : j < k)
    (hl : ∀ t, j ≤ t → t < k → levelChange (inp t).1 (inp t).2 (tickState inp s t) = false)
    (hj : dealsDamage i (inp j).1 (inp j).2 (tickState inp s j) = true) :
    dealsDamage i (inp k).1 (inp k).2 (tickState inp s k) = false := by
  have h1 : isActive i (tickState inp s (j + 1)) = false := by
    show isActive i (update (inp j).1 (inp j).2 (tickState inp s j)) = false
    rw [tick_active i _ _ _ (hl j (le_refl _) hjk), hj]
    simp
  obtain ⟨d, hd⟩ : ∃ d, k = j + 1 + d := ⟨k - j - 1, by omega⟩
  have h2 := inactive_run inp s i (j + 1) d (fun t a b => hl t (by omega) (by omega)) h1
  rw [← hd] at h2
  cases hk : dealsDamage i (inp k).1 (inp k).2 (tickState inp s k)
  · rfl
  · have h3 := enemyHits_active _ i hk
    rw [isActive_congr i (atEnemies_sameCast _ _ _).1, h2] at h3
    exact absurd h3 Bool.false_ne_true

/-! ## Lemmas: the boss of the final level over the ticks -/

theorem bossUpdate_pools (b : CoreGuardian) (dt : ℚ) (s : State) :
    (b.update dt s).1.shieldHealth = b.shieldHealth ∧ (b.update dt s).1.health = b.health := by
  unfold CoreGuardian.update
  split
  · exact ⟨rfl, rfl⟩
  · dsimp only
    constructor <;> split_ifs <;> rfl

/-- With the boss in phase 0 the boss step of a tick calls `update(dt)` and
never `receiveHit`. -/
theorem bossStep_shielded (dt : ℚ) (s : State) (b : CoreGuardian) (hb : s.boss = some b)
    (h0 : b.phase = 0) :
    (bossStep dt s).boss = some (b.update dt s).1 := by
  unfold bossStep
  rw [hb]
  dsimp only
  have hp := (CoreGuardian.update_phase_alive b dt s).1
  rw [if_neg (by
    intro h
    have := h.2.1
    rw [hp, h0] at this
    exact absurd this (by decide))]

theorem enemiesStep_boss (s : State) :
    (enemiesStep s).boss = s.boss ∧ (enemiesStep s).currentLevel = s.currentLevel := by
  have h := updateEnemies_sameCast s.enemies 0 s
  exact ⟨h.2.1, h.2.2⟩

theorem exitCheck_final (s : State) (h : s.currentLevel = 4) :
    (exitCheck s).boss = s.boss ∧ (exitCheck s).currentLevel = 4 := by
  unfold exitCheck saveProgress
  have hn : ¬ (s.currentLevel + 1 < (LEVELS.length : Int)) := by
    have : (LEVELS.length : Int) = 5 := rfl
    omega
  split_ifs
  · exact ⟨rfl, h⟩
  · exact ⟨rfl, h⟩

theorem update_FreshBoss (dt : ℚ) (keys : Keys) (s : State) (h : FreshBoss s) :
    FreshBoss (update dt keys s) := by
  obtain ⟨hl, b, hb, h0, h1, h2, h3⟩ := h
  have ha := atEnemies_sameCast dt keys s
  have he := enemiesStep_boss (atEnemies dt keys s)
  have hbe : (enemiesStep (atEnemies dt keys s)).boss = some b := by rw [he.1, ha.2.1, hb]
  have hbs := bossStep_shielded dt _ b hbe h0
  have hlv : (atExit dt keys s).currentLevel = 4 := by
    unfold atExit
    rw [(bossStep_enemies dt _).2, he.2, ha.2.2, hl]
  have hx := exitCheck_final (atExit dt keys s) hlv
  have hu : update dt keys s = particlesStep (cameraStep (exitCheck (atExit dt keys s))) := rfl
  have hc := cameraStep_sameCast (exitCheck (atExit dt keys s))
  refine ⟨?_, (b.update dt (enemiesStep (atEnemies dt keys s))).1, ?_, ?_, ?_, ?_, ?_⟩
  · rw [hu]
    show (cameraStep (exitCheck (atExit dt keys s))).currentLevel = 4
    rw [hc.2.2, hx.2]
  · rw [hu]
    show (cameraStep (exitCheck (atExit dt keys s))).boss = _
    rw [hc.2.1, hx.1]
    exact hbs
  · rw [(CoreGuardian.update_phase_alive _ _ _).1, h0]
  · rw [(bossUpdate_pools _ _ _).1, h1]
  · rw [(bossUpdate_pools _ _ _).2, h2]
  · rw [(CoreGuardian.update_phase_alive _ _ _).2, h3]

theorem loadLevel_FreshBoss (s : State) : FreshBoss (loadLevel s 4) := by
  refine ⟨(loadLevel_frame s 4 (by decide) (by decide)).1, ?_⟩
  obtain ⟨x, y, h⟩ := (loadLevel_boss s 4 (by decide) (by decide)).1 rfl
  exact ⟨_, h, rfl, rfl, rfl, rfl⟩

theorem run_FreshBoss (inp : Nat → ℚ × Keys) (s : State) (h : FreshBoss s) (n : Nat) :
    FreshBoss (tickState inp s n) := by
  induction n with
  | zero => exact h
  | succ n ih => exact update_FreshBoss _ _ _ ih

/-! ## Lemmas: the effect of a jump action and of a dash impulse -/

theorem moveStep_vy (l r : Bool) (s : State) : (moveStep l r s).player.vy = s.player.vy := by
  unfold moveStep
  dsimp only
  split_ifs <;> rfl

/-- The player when the tick reaches the feet collision, in the fields a jump
action writes: they are those `jumpStep` leaves. -/
theorem atFeet_jump_fields (dt : ℚ) (keys : Keys) (s : State) :
    (atFeet dt keys s).player.vy
        = (jumpStep keys.up (moveStep keys.left keys.right s)).player.vy
    ∧ (atFeet dt keys s).player.onGround
        = (jumpStep keys.up (moveStep keys.left keys.right s)).player.onGround
    ∧ (atFeet dt keys s).player.canDoubleJump
        = (jumpStep keys.up (moveStep keys.left keys.right s)).player.canDoubleJump := by
  obtain ⟨_, d2, d3, d4⟩ := dashStep_control keys.dash dt
    (jumpStep keys.up (moveStep keys.left keys.right s))
  exact ⟨d4, d2, d3⟩

/-- The fields a jump action writes, when the tick reaches the feet collision,
by jump action. -/
theorem atFeet_jump (dt : ℚ) (keys : Keys) (s : State) :
    (groundJump keys.up s.player = true →
      (atFeet dt keys s).player.vy = -(86 / 10)
      ∧ (atFeet dt keys s).player.onGround = false
      ∧ (atFeet dt keys s).player.canDoubleJump = true)
    ∧ (groundJump keys.up s.player = false → doubleJump keys.up s.player = true →
      (atFeet dt keys s).player.vy = -7
      ∧ (atFeet dt keys s).player.onGround = s.player.onGround
      ∧ (atFeet dt keys s).player.canDoubleJump = false)
    ∧ (groundJump keys.up s.player = false → doubleJump keys.up s.player = false →
      (atFeet dt keys s).player.vy = gravityVy s.player
      ∧ (atFeet dt keys s).player.onGround = s.player.onGround
      ∧ (atFeet dt keys s).player.canDoubleJump = s.player.canDoubleJump) := by
  obtain ⟨m1, m2, m3⟩ := moveStep_control keys.left keys.right s
  have mv := moveStep_vy keys.left keys.right s
  obtain ⟨a1, a2, a3⟩ := atFeet_jump_fields dt keys s
  have hj := jumpStep_player keys.up (moveStep keys.left keys.right s)
  have hgj : groundJump keys.up (moveStep keys.left keys.right s).player
      = groundJump keys.up s.player := by
    unfold groundJump; rw [m1, m2]
  have hdj : doubleJump keys.up (moveStep keys.left keys.right s).player
      = doubleJump keys.up s.player := by
    unfold doubleJump; rw [m1, m2, m3]
  rw [hgj, hdj] at hj
  rw [a1, a2, a3, hj]
  refine ⟨fun hg => ?_, fun hg hd => ?_, fun hg hd => ?_⟩
  · rw [if_pos hg]
    exact ⟨rfl, rfl, rfl⟩
  · rw [if_neg (by rw [hg]; exact Bool.false_ne_true), if_pos hd]
    exact ⟨rfl, m2, rfl⟩
  · rw [if_neg (by rw [hg]; exact Bool.false_ne_true), if_neg (by rw [hd]; exact Bool.false_ne_true)]
    refine ⟨?_, m2, m3⟩
    show clamp ((moveStep keys.left keys.right s).player.vy + GRAVITY * (6 / 10)) (-MAX_FALL) MAX_FALL
      = gravityVy s.player
    rw [mv]
    rfl

/-- The effect of a jump action is there exactly when the guard of one of the
two jump assignments holds. -/
theorem jumpEffect_eq (dt : ℚ) (keys : Keys) (s : State) :
    jumpEffect dt keys s = jumpAction keys.up s.player := by
  obtain ⟨h1, h2, h3⟩ := atFeet_jump dt keys s
  unfold jumpEffect jumpAction
  cases hg : groundJump keys.up s.player
  · cases hd : doubleJump keys.up s.player
    · obtain ⟨a, b, c⟩ := h3 hg hd
      rw [a, b, c]
      simp
    · obtain ⟨a, b, c⟩ := h2 hg hd
      have hc : s.player.canDoubleJump = true := by
        unfold doubleJump at hd
        simp only [Bool.and_eq_true] at hd
        exact hd.2
      rw [c, hc]
      simp
  · obtain ⟨a, b, c⟩ := h1 hg
    have hc : s.player.onGround = true := by
      unfold groundJump at hg
      simp only [Bool.and_eq_true] at hg
      exact hg.2
    rw [b, hc]
    simp

theorem airJump_eq (dt : ℚ) (keys : Keys) (s : State) :
    airJump dt keys s = doubleJump keys.up s.player := by
  unfold airJump
  rw [jumpEffect_eq]
  unfold jumpAction groundJump doubleJump
  cases keys.up <;> cases s.player._jumped <;> cases s.player.onGround <;>
    cases s.player.canDoubleJump <;> rfl

/-- A tick without the effect of a jump action leaves the gravity value in `vy`
and `onGround`, `canDoubleJump` as they were, when it reaches the feet
collision. -/
theorem no_jumpEffect (dt : ℚ) (keys : Keys) (s : State) (h : jumpEffect dt keys s = false) :
    (atFeet dt keys s).player.vy = gravityVy s.player
    ∧ (atFeet dt keys s).player.onGround = s.player.onGround
    ∧ (atFeet dt keys s).player.canDoubleJump = s.player.canDoubleJump := by
  unfold jumpEffect at h
  simp only [Bool.or_eq_false_iff, decide_eq_false_iff_not, ne_eq, not_not, bne_eq_false_iff_eq] at h
  exact ⟨h.1.1, h.1.2, h.2⟩

/-- The effect of a jump action is one of the two upward impulses. -/
theorem jumpEffect_impulse (dt : ℚ) (keys : Keys) (s : State) (h : jumpEffect dt keys s = true) :
    (s.player.onGround = true ∧ (atFeet dt keys s).player.vy = -(86 / 10))
    ∨ (s.player.onGround = false ∧ (atFeet dt keys s).player.vy = -7) := by
  obtain ⟨h1, h2, h3⟩ := atFeet_jump dt keys s
  rw [jumpEffect_eq] at h
  unfold jumpAction at h
  cases hg : groundJump keys.up s.player
  · rw [hg, Bool.false_or] at h
    refine Or.inr ⟨?_, (h2 hg h).1⟩
    unfold doubleJump at h
    simp only [Bool.and_eq_true, Bool.not_eq_true'] at h
    exact h.1.2
  · refine Or.inl ⟨?_, (h1 hg).1⟩
    unfold groundJump at hg
    simp only [Bool.and_eq_true] at hg
    exact hg.2

/-- The vertical velocity at the end of a tick is the one the tick had at the
feet collision, or 0 (landing), or -3 (boss knockback). -/
theorem update_vy_cases (dt : ℚ) (keys : Keys) (s : State) :
    (update dt keys s).player.vy = (atFeet dt keys s).player.vy
    ∨ (update dt keys s).player.vy = 0
    ∨ (update dt keys s).player.vy = -3 := by
  have hu : update dt keys s = particlesStep (cameraStep (exitCheck (bossStep dt (enemiesStep
      (useMine keys.use (worldBounds (feetCollision (atFeet dt keys s)))))))) := rfl
  rw [hu]
  rcases late_vy dt keys.use (feetCollision (atFeet dt keys s)) with h | h
  · rw [h]
    rcases feetCollision_vy (atFeet dt keys s) with h0 | h0
    · exact Or.inr (Or.inl h0)
    · exact Or.inl h0
  · exact Or.inr (Or.inr h)

/-- The fields the dash statement writes, when the tick reaches it and when it
reaches the feet collision. -/
theorem atDash_fields (dt : ℚ) (keys : Keys) (s : State) :
    (atDash keys s).player.vx = (moveStep keys.left keys.right s).player.vx
    ∧ (atDash keys s).player.facing = (moveStep keys.left keys.right s).player.facing
    ∧ (atDash keys s).player.dashCooldown = s.player.dashCooldown
    ∧ (atFeet dt keys s).player.vx = (dashStep keys.dash dt (atDash keys s)).player.vx
    ∧ (atFeet dt keys s).player.dashCooldown
        = (dashStep keys.dash dt (atDash keys s)).player.dashCooldown := by
  obtain ⟨m1, _⟩ := moveStep_dash_fields keys.left keys.right s
  obtain ⟨j1, j2, j3, _⟩ := jumpStep_dash_fields keys.up (moveStep keys.left keys.right s)
  exact ⟨j1, j2, j3.trans m1, rfl, rfl⟩

/-- A tick whose dash guard holds sets the cooldown to 80, runs it down once and
adds `facing * 6` to `vx`. -/
theorem dashFires_effect (dt : ℚ) (keys : Keys) (s : State)
    (h : dashFires keys.dash s.player = true) :
    (atFeet dt keys s).player.dashCooldown = 80 - dt * (6 / 100)
    ∧ (atFeet dt keys s).player.vx
        = (moveStep keys.left keys.right s).player.vx
          + (moveStep keys.left keys.right s).player.facing * 6 := by
  obtain ⟨a1, a2, _, a4, a5⟩ := atDash_fields dt keys s
  have hd := (dashStep_dash keys.dash dt (atDash keys s)).2.1 (((tick_dash dt keys s).2).trans h)
  rw [a4, a5, hd.1, hd.2, a1, a2]
  exact ⟨rfl, rfl⟩

/-- A tick whose dash guard fails leaves `vx` as the horizontal input left it
and the cooldown as the running cooldown leaves it. -/
theorem no_dashFires_effect (dt : ℚ) (keys : Keys) (s : State)
    (h : dashFires keys.dash s.player = false) :
    (atFeet dt keys s).player.vx = (moveStep keys.left keys.right s).player.vx
    ∧ (atFeet dt keys s).player.dashCooldown = runningCooldown dt s.player := by
  obtain ⟨a1, _, a3, a4, a5⟩ := atDash_fields dt keys s
  have hd := (dashStep_dash keys.dash dt (atDash keys s)).2.2 (((tick_dash dt keys s).2).trans h)
  rw [a4, a5, hd.1, hd.2, a1, a3]
  exact ⟨rfl, rfl⟩

/-- The effect of a dash impulse is there only if the dash guard holds. -/
theorem dashEffect_fires (dt : ℚ) (keys : Keys) (s : State) (h : dashEffect dt keys s = true) :
    dashFires keys.dash s.player = true := by
  cases hf : dashFires keys.dash s.player
  · obtain ⟨h1, h2⟩ := no_dashFires_effect dt keys s hf
    unfold dashEffect at h
    rw [h1, h2] at h
    simp at h
  · rfl

theorem dash_effect_once (inp : Nat → ℚ × Keys) (s : State) (n : Nat)
    (heff : dashEffect (inp n).1 (inp n).2 (tickState inp s n) = true) :
    (inp n).2.dash = true
    ∧ (tickState inp s n).player.dashCooldown ≤ 0
    ∧ (tickState inp s n).player._dashed = false
    ∧ ∀ m, m < n → (∀ j, m ≤ j → j < n → (inp j).2.dash = true) →
        dashEffect (inp m).1 (inp m).2 (tickState inp s m) = false := by
  obtain ⟨h1, h2, h3, h4⟩ := dash_once_per_hold inp s n (dashEffect_fires _ _ _ heff)
  refine ⟨h1, h2, h3, fun m hm hheld => ?_⟩
  cases he : dashEffect (inp m).1 (inp m).2 (tickState inp s m)
  · rfl
  · have := h4 m hm hheld
    rw [dashEffect_fires _ _ _ he] at this
    exact absurd this (by decide)

/-! ## Claims -/

/-- C1 (code defect): on level 0 with an `EXIT` tile under the player's feet
midpoint, one update tick loads level 1 (the current level becomes 1) but the
index handed to `saveProgress` is 2, not the new index 1. -/
theorem C1_exit_persists_index_after_next :
    exitState.currentLevel = 0
    ∧ feetTile (bossStep 16 (enemiesStep (useMine noKeys.use (worldBounds (feetCollision
        (integrate (dashStep noKeys.dash 16 (jumpStep noKeys.up
          (moveStep noKeys.left noKeys.right exitState))))))))) = TILE.EXIT
    ∧ (update 16 noKeys exitState).currentLevel = 1
    ∧ (update 16 noKeys exitState).saved = [2] := by
  decide!

/-- C2 (as stated) fails in row 0: in `topRowState` the probed cell `(1,0)` is in
range and holds `DIRT`, the soul-drop draw succeeds, and after the use action
the cell holds `SOUL`, not `EMPTY` (the soul is written at row `max(0, ty-1)`,
which is the mined row itself). -/
theorem C2_row_zero_counterexample :
    probe topRowState = (1, 0)
    ∧ topRowState.LEVEL_MAP.cell 0 1 = some TILE.DIRT
    ∧ (useMine true topRowState).LEVEL_MAP.cell 0 1 = some TILE.SOUL
    ∧ (useMine true topRowState).LEVEL_MAP.cell 0 1 ≠ some TILE.EMPTY := by
  have hf := topRowState_facts
  have hg := useMine_dig_grid topRowState 1 0 hf.1 hf.2.1 hf.2.2.1 (Or.inl hf.2.2.2.1)
  have hcell : (useMine true topRowState).LEVEL_MAP.cell 0 1 = some TILE.SOUL := by
    rw [hg, if_pos hf.2.2.2.2]
    exact Grid.cell_assign_same _ 0 1 TILE.SOUL (by simp [Grid.length_assign, topRowState])
  refine ⟨hf.2.1, hf.2.2.2.1, hcell, ?_⟩
  rw [hcell]
  decide

/-- C2 (amended): for every state, every in-range probed cell `(tx,ty)` holding
`DIRT` or `STONE` and every outcome of the soul-drop draw (the 41st draw of the
action, `s.rng 40`), after the use action the cell holds `EMPTY`, except that
in row 0 it holds `SOUL` when the draw is below 0.22. -/
theorem C2_mined_cell_cleared (s : State) (tx ty : Int) (hu : s.player._used = false)
    (hp : probe s = (tx, ty))
    (hr : 0 ≤ ty ∧ ty < (s.rows : Int) ∧ 0 ≤ tx ∧ tx < (s.cols : Int))
    (ht : s.LEVEL_MAP.cell ty.toNat tx.toNat = some TILE.DIRT
      ∨ s.LEVEL_MAP.cell ty.toNat tx.toNat = some TILE.STONE) :
    (useMine true s).LEVEL_MAP.cell ty.toNat tx.toNat
      = some (if ty = 0 ∧ s.rng 40 < 22 / 100 then TILE.SOUL else TILE.EMPTY) := by
  have hlen : ty.toNat < s.LEVEL_MAP.length := by
    rcases ht with ht | ht <;> exact Grid.lt_length_of_cell _ _ _ _ ht
  rw [useMine_dig_grid s tx ty hu hp hr ht]
  by_cases hd : s.rng 40 < 22 / 100
  · rw [if_pos hd]
    by_cases h0 : ty = 0
    · subst h0
      rw [if_pos ⟨rfl, hd⟩]
      exact Grid.cell_assign_same _ _ _ _ (by rw [Grid.length_assign]; exact hlen)
    · rw [if_neg (fun h => h0 h.1), Grid.cell_assign_other _ _ _ _ _ _ (Or.inl (by omega))]
      exact Grid.cell_assign_same _ _ _ _ hlen
  · rw [if_neg hd, if_neg (fun h => hd h.2)]
    exact Grid.cell_assign_same _ _ _ _ hlen

/-- C2 (amended) at `sanctumState`: the dirt tile `(3,2)` is dug with a
successful soul draw and holds `EMPTY` afterwards. -/
theorem C2_mined_cell_cleared_witness :
    probe sanctumState = (3, 2)
    ∧ sanctumState.LEVEL_MAP.cell 2 3 = some TILE.DIRT
    ∧ (useMine true sanctumState).LEVEL_MAP.cell 2 3 = some TILE.EMPTY := by
  refine ⟨sanctumState_facts.2.1, sanctumState_facts.2.2.2.1, ?_⟩
  have h := C2_mined_cell_cleared sanctumState 3 2 sanctumState_facts.1 sanctumState_facts.2.1
    sanctumState_facts.2.2.1 (Or.inl sanctumState_facts.2.2.2.1)
  simpa using h

/-- C3 (as stated) fails on level 3: in `sanctumState` the probed cell `(3,2)`
holds `DIRT`, the cell `(3,1)` above it holds `HEART`, the soul-drop draw
succeeds, and after the use action the cell `(3,1)` holds `SOUL`. -/
theorem C3_heart_overwritten_counterexample :
    probe sanctumState = (3, 2)
    ∧ sanctumState.LEVEL_MAP.cell 2 3 = some TILE.DIRT
    ∧ sanctumState.LEVEL_MAP.cell 1 3 = some TILE.HEART
    ∧ (useMine true sanctumState).LEVEL_MAP.cell 1 3 = some TILE.SOUL
    ∧ (useMine true sanctumState).LEVEL_MAP.cell 1 3 ≠ sanctumState.LEVEL_MAP.cell 1 3 := by
  have hf := sanctumState_facts
  have hg := useMine_dig_grid sanctumState 3 2 hf.1 hf.2.1 hf.2.2.1 (Or.inl hf.2.2.2.1)
  have hcell : (useMine true sanctumState).LEVEL_MAP.cell 1 3 = some TILE.SOUL := by
    rw [hg, if_pos hf.2.2.2.2.2]
    exact Grid.cell_assign_same _ 1 3 TILE.SOUL (by simp [Grid.length_assign, sanctumState])
  refine ⟨hf.2.1, hf.2.2.2.1, hf.2.2.2.2.1, hcell, ?_⟩
  rw [hcell, hf.2.2.2.2.1]
  decide

/-- C3 (amended): for every state and every use action whose in-range probed
cell `(tx,ty)` holds `DIRT` or `STONE`, each cell that held `SOUL`, `HEART`,
`SPAWN` or `EXIT` before the action holds the same tile after it, except the cell
`(tx, max(0, ty-1))` above the mined cell, which holds `SOUL` when the soul-drop
draw (`s.rng 40`) is below 0.22. -/
theorem C3_dig_frame (s : State) (tx ty : Int) (r c t : Nat) (hu : s.player._used = false)
    (hp : probe s = (tx, ty))
    (hr : 0 ≤ ty ∧ ty < (s.rows : Int) ∧ 0 ≤ tx ∧ tx < (s.cols : Int))
    (ht : s.LEVEL_MAP.cell ty.toNat tx.toNat = some TILE.DIRT
      ∨ s.LEVEL_MAP.cell ty.toNat tx.toNat = some TILE.STONE)
    (hc : s.LEVEL_MAP.cell r c = some t)
    (hk : t = TILE.SOUL ∨ t = TILE.HEART ∨ t = TILE.SPAWN ∨ t = TILE.EXIT) :
    (useMine true s).LEVEL_MAP.cell r c
      = some (if r = (max 0 (ty - 1)).toNat ∧ c = tx.toNat ∧ s.rng 40 < 22 / 100
          then TILE.SOUL else t) := by
  have hlen : ty.toNat < s.LEVEL_MAP.length := by
    rcases ht with ht | ht <;> exact Grid.lt_length_of_cell _ _ _ _ ht
  have hne : r ≠ ty.toNat ∨ c ≠ tx.toNat := by
    by_contra hcon
    have h1 : r = ty.toNat := by by_contra h; exact hcon (Or.inl h)
    have h2 : c = tx.toNat := by by_contra h; exact hcon (Or.inr h)
    rw [h1, h2] at hc
    rcases ht with ht | ht <;> rw [ht] at hc <;>
      rcases hk with hk | hk | hk | hk <;> subst hk <;> simp at hc
  rw [useMine_dig_grid s tx ty hu hp hr ht]
  by_cases hd : s.rng 40 < 22 / 100
  · rw [if_pos hd]
    by_cases ha : r = (max 0 (ty - 1)).toNat ∧ c = tx.toNat
    · rw [if_pos ⟨ha.1, ha.2, hd⟩, ha.1, ha.2]
      exact Grid.cell_assign_same _ _ _ _ (by rw [Grid.length_assign]; omega)
    · rw [if_neg (fun h => ha ⟨h.1, h.2.1⟩),
        Grid.cell_assign_other _ _ _ _ _ _ (by
          by_contra hcon
          exact ha ⟨by by_contra h; exact hcon (Or.inl h), by by_contra h; exact hcon (Or.inr h)⟩),
        Grid.cell_assign_other _ _ _ _ _ _ hne, hc]
  · rw [if_neg hd, if_neg (fun h => hd h.2.2), Grid.cell_assign_other _ _ _ _ _ _ hne, hc]

/-- C3 (amended) at `sanctumState`: the soul at `(4,0)` is still there after the
dirt tile `(3,2)` is dug. -/
theorem C3_dig_frame_witness :
    probe sanctumState = (3, 2)
    ∧ sanctumState.LEVEL_MAP.cell 2 3 = some TILE.DIRT
    ∧ sanctumState.LEVEL_MAP.cell 0 4 = some TILE.SOUL
    ∧ (useMine true sanctumState).LEVEL_MAP.cell 0 4 = some TILE.SOUL := by
  have hs : sanctumState.LEVEL_MAP.cell 0 4 = some TILE.SOUL := by
    simp [sanctumState, Grid.cell, jsGet, rowOf]
  refine ⟨sanctumState_facts.2.1, sanctumState_facts.2.2.2.1, hs, ?_⟩
  have h := C3_dig_frame sanctumState 3 2 0 4 TILE.SOUL sanctumState_facts.1 sanctumState_facts.2.1
    sanctumState_facts.2.2.1 (Or.inl sanctumState_facts.2.2.2.1) hs (Or.inl rfl)
  simpa using h

/-- C4 (as stated) fails on a dash press: from the initial state (`vx = 0`,
facing right, cooldown 0) a tick with the dash key held ends with `vx = 6`,
above `maxSpeed = 4.2`: the impulse is added after the clamp. -/
theorem C4_dash_counterexample :
    (update 16 dashKeys (initialState (fun _ => 0))).player.vx = 6
    ∧ ¬ ((update 16 dashKeys (initialState (fun _ => 0))).player.vx
          ≤ (update 16 dashKeys (initialState (fun _ => 0))).player.maxSpeed) := by
  decide!

/-- C4 (amended): for every state and input, at the end of an update tick the
horizontal velocity satisfies `|vx| <= maxSpeed` (4.2) when no dash impulse is
applied in the tick (dash key not held, or cooldown running, or latch set), and
`|vx| <= maxSpeed + 6 * |facing|` (10.2 for facing ±1) when it is. -/
theorem C4_horizontal_speed_bound (dt : ℚ) (keys : Keys) (s : State) :
    |(update dt keys s).player.vx|
      ≤ (update dt keys s).player.maxSpeed
        + (if keys.dash = true ∧ s.player.dashCooldown ≤ 0 ∧ s.player._dashed = false
            then 6 * |(update dt keys s).player.facing| else 0) :=
  update_speed_bound dt keys s

/-- C5 (code defect): in `dropState` the tick brings the player's bottom edge
to 47.12; the sample at `y + h + 1 = 48.12` finds the stone row 3, so
`onGround` becomes true, but the snap uses `floor((y + h)/16) = 2` and puts the
bottom edge at 32: at the post-snap position the tile under the feet midpoint
is `EMPTY`. -/
theorem C5_grounded_over_empty_tile :
    feetTile (integrate (dashStep false 16 (jumpStep false (moveStep false false dropState))))
      = TILE.STONE
    ∧ (feetCollision (integrate (dashStep false 16 (jumpStep false
        (moveStep false false dropState))))).player.onGround = true
    ∧ (feetCollision (integrate (dashStep false 16 (jumpStep false
        (moveStep false false dropState))))).player.y + 16 = 32
    ∧ feetTile (feetCollision (integrate (dashStep false 16 (jumpStep false
        (moveStep false false dropState))))) = TILE.EMPTY := by
  decide!

/-- C6 (as stated) fails: after `loadLevel(0)` the cell `(0,2)` that holds the
`SPAWN` marker in the level definition still holds `SPAWN` in the live grid (it
does not hold `EMPTY`). -/
theorem C6_spawn_marker_counterexample :
    (levelAt 0).map.cell 2 0 = some TILE.SPAWN
    ∧ (loadLevel (initialState (fun _ => 0)) 0).LEVEL_MAP.cell 2 0 = some TILE.SPAWN
    ∧ (loadLevel (initialState (fun _ => 0)) 0).LEVEL_MAP.cell 2 0 ≠ some TILE.EMPTY := by
  have hd : (levelAt 0).map.cell 2 0 = some TILE.SPAWN := by decide
  have h := loadedGrid_spawn_kept 0 (by decide) 2 (by decide) 0 (by decide) hd
  rw [show loadedGrid (levelAt 0) = (loadLevel (initialState (fun _ => 0)) 0).LEVEL_MAP from
    (loadLevel_LEVEL_MAP_valid (initialState (fun _ => 0)) 0 (le_refl _) (by decide)).symm] at h
  refine ⟨hd, h, ?_⟩
  rw [h]
  decide

/-- C6 (amended): for every valid level index `idx` (0..4) and every prior
state, after `loadLevel(idx)` the live grid contains no `ENEMY` tile, every cell
that held an `ENEMY` marker in the level definition holds `EMPTY`, and every
cell that held the `SPAWN` marker still holds `SPAWN` (the spawn marker is read,
not consumed). -/
theorem C6_enemy_markers_consumed (s : State) (idx : Int) (h0 : 0 ≤ idx) (h5 : idx < 5)
    (r c : Nat) :
    (loadLevel s idx).LEVEL_MAP.cell r c ≠ some TILE.ENEMY
    ∧ ((levelAt idx.toNat).map.cell r c = some TILE.ENEMY →
        (loadLevel s idx).LEVEL_MAP.cell r c = some TILE.EMPTY)
    ∧ ((levelAt idx.toNat).map.cell r c = some TILE.SPAWN →
        (loadLevel s idx).LEVEL_MAP.cell r c = some TILE.SPAWN) := by
  rw [loadLevel_LEVEL_MAP_valid s idx h0 h5]
  have hi : idx.toNat < 5 := by omega
  have hx := level_extent _ hi
  by_cases hin : r < 5 ∧ c < 20
  · exact ⟨loadedGrid_no_enemy _ hi r hin.1 c hin.2, loadedGrid_enemy_cleared _ hi r hin.1 c hin.2,
      loadedGrid_spawn_kept _ hi r hin.1 c hin.2⟩
  · have hout : 5 ≤ r ∨ 20 ≤ c := by omega
    have h1 := Grid.cell_eq_none _ 5 20 r c hx.1 hx.2.1 hout
    have h2 := Grid.cell_eq_none _ 5 20 r c hx.2.2.1 hx.2.2.2 hout
    rw [h1, h2]
    exact ⟨by simp, by simp, by simp⟩

/-- C6 (amended) at level 0 and the enemy marker cell `(19,2)`. -/
theorem C6_enemy_markers_consumed_witness :
    (0 : Int) ≤ 0 ∧ (0 : Int) < 5
    ∧ (levelAt 0).map.cell 2 19 = some TILE.ENEMY
    ∧ (loadLevel (initialState (fun _ => 0)) 0).LEVEL_MAP.cell 2 19 = some TILE.EMPTY :=
  ⟨le_refl _, by decide, by decide,
   (C6_enemy_markers_consumed (initialState (fun _ => 0)) 0 (le_refl _) (by decide) 2 19).2.1
     (by decide)⟩

/-- C7 (as stated) fails: six calls `hurtPlayer(1)` from the initial state
(health 5) reach a state with health `-1`; `hurtPlayer` subtracts without a
floor. -/
theorem C7_negative_health_counterexample :
    Reachable sixHits ∧ sixHits.player.health = -1 ∧ ¬ (0 ≤ sixHits.player.health) := by
  refine ⟨?_, by decide!, by decide!⟩
  exact Reachable.step (Reachable.step (Reachable.step (Reachable.step (Reachable.step
    (Reachable.step (Reachable.init _) (Step.hurt 1 (by decide) _)) (Step.hurt 1 (by decide) _))
    (Step.hurt 1 (by decide) _)) (Step.hurt 1 (by decide) _)) (Step.hurt 1 (by decide) _))
    (Step.hurt 1 (by decide) _)

/-- C7 (amended): in every state reachable from the initial state (health 5) by
update ticks, `hurtPlayer` calls with a non-negative amount, use actions, level
loads, deferred callbacks and restarts, `player.health` is an integer with
`health <= 9`; there is no lower bound. -/
theorem C7_health_at_most_nine (s : State) (h : Reachable s) : s.player.health ≤ 9 :=
  reachable_health_le s h

/-- C7 (amended) at the state after six hits. -/
theorem C7_health_at_most_nine_witness : Reachable sixHits ∧ sixHits.player.health ≤ 9 :=
  ⟨Reachable.step (Reachable.step (Reachable.step (Reachable.step (Reachable.step
    (Reachable.step (Reachable.init _) (Step.hurt 1 (by decide) _)) (Step.hurt 1 (by decide) _))
    (Step.hurt 1 (by decide) _)) (Step.hurt 1 (by decide) _)) (Step.hurt 1 (by decide) _))
    (Step.hurt 1 (by decide) _),
   C7_health_at_most_nine sixHits
    (Reachable.step (Reachable.step (Reachable.step (Reachable.step (Reachable.step
    (Reachable.step (Reachable.init _) (Step.hurt 1 (by decide) _)) (Step.hurt 1 (by decide) _))
    (Step.hurt 1 (by decide) _)) (Step.hurt 1 (by decide) _)) (Step.hurt 1 (by decide) _))
    (Step.hurt 1 (by decide) _))⟩

/-- C8: out-of-range grid access is inert.  For every world point whose cell
`(floor(px/16), floor(py/16))` lies outside `[0,cols) x [0,rows)`, and for every
in-range cell that lies beyond the end of a shorter row, `tileAt` returns
`EMPTY`; and for every `(tx,ty)` outside `[0,cols) x [0,rows)` and every value,
`setTile` leaves the whole state (in particular the whole grid) unchanged. -/
theorem C8_out_of_range_access_inert (s : State) :
    (∀ px py : ℚ,
        ¬ (0 ≤ ⌊px / TILE_SIZE⌋ ∧ ⌊px / TILE_SIZE⌋ < (s.cols : Int)
            ∧ 0 ≤ ⌊py / TILE_SIZE⌋ ∧ ⌊py / TILE_SIZE⌋ < (s.rows : Int)) →
        tileAt s px py = TILE.EMPTY)
    ∧ (∀ (px py : ℚ) (row : Row),
        0 ≤ ⌊px / TILE_SIZE⌋ → ⌊px / TILE_SIZE⌋ < (s.cols : Int) →
        0 ≤ ⌊py / TILE_SIZE⌋ → ⌊py / TILE_SIZE⌋ < (s.rows : Int) →
        s.LEVEL_MAP[⌊py / TILE_SIZE⌋.toNat]? = some row →
        row.length ≤ ⌊px / TILE_SIZE⌋.toNat →
        tileAt s px py = TILE.EMPTY)
    ∧ (∀ (tx ty : Int) (val : Nat),
        ¬ (0 ≤ tx ∧ tx < (s.cols : Int) ∧ 0 ≤ ty ∧ ty < (s.rows : Int)) →
        setTile s tx ty val = s) := by
  refine ⟨?_, ?_, ?_⟩
  · intro px py h
    have hg : ⌊py / TILE_SIZE⌋ < 0 ∨ ⌊py / TILE_SIZE⌋ ≥ (s.rows : Int)
        ∨ ⌊px / TILE_SIZE⌋ < 0 ∨ ⌊px / TILE_SIZE⌋ ≥ (s.cols : Int) := by omega
    unfold tileAt
    simp only [if_pos hg]
  · intro px py row h1 h2 h3 h4 hrow hlen
    unfold tileAt
    have hn : ¬ (⌊py / TILE_SIZE⌋ < 0 ∨ ⌊py / TILE_SIZE⌋ ≥ (s.rows : Int)
        ∨ ⌊px / TILE_SIZE⌋ < 0 ∨ ⌊px / TILE_SIZE⌋ ≥ (s.cols : Int)) := by omega
    simp only [if_neg hn]
    unfold Grid.cell jsGet
    rw [hrow, Option.some_bind, List.getElem?_eq_none hlen]
    rfl
  · intro tx ty val h
    have hg : ty < 0 ∨ ty ≥ (s.rows : Int) ∨ tx < 0 ∨ tx ≥ (s.cols : Int) := by omega
    unfold setTile
    simp only [if_pos hg]

/-- C8 at concrete points of `raggedState`: a point left of the grid, the cell
`(2,1)` past the end of the one-cell second row, and a write at column 3. -/
theorem C8_out_of_range_access_inert_witness :
    tileAt raggedState (-5) 3 = TILE.EMPTY
    ∧ tileAt raggedState 40 20 = TILE.EMPTY
    ∧ setTile raggedState 3 0 TILE.EXIT = raggedState :=
  ⟨(C8_out_of_range_access_inert raggedState).1 (-5) 3 (by norm_num [raggedState]),
   (C8_out_of_range_access_inert raggedState).2.1 40 20 (rowOf [2])
     (by norm_num) (by norm_num [raggedState]) (by norm_num) (by norm_num [raggedState])
     (by norm_num [raggedState]) (by norm_num [rowOf]),
   (C8_out_of_range_access_inert raggedState).2.2 3 0 TILE.EXIT (by norm_num [raggedState])⟩

/-- C9: result and effect of `receiveHit` by phase.  For every boss, every
world state and every damage `d > 0`: in phase 0 the call returns `false` and
leaves body health unchanged (also when this hit breaks the shield); in phase 1
or 2 it returns `true` and body health afterwards is body health before minus
`d` (whatever the sign of the difference). -/
theorem C9_receiveHit_by_phase (b : CoreGuardian) (s : State) (d : ℚ) (hd : 0 < d) :
    (b.phase = 0 → (b.receiveHit d s).1 = false ∧ (b.receiveHit d s).2.1.health = b.health)
    ∧ (b.phase = 1 ∨ b.phase = 2 →
        (b.receiveHit d s).1 = true ∧ (b.receiveHit d s).2.1.health = b.health - d) := by
  have _ := hd
  constructor
  · intro h0
    unfold CoreGuardian.receiveHit
    simp only [if_pos h0]
    refine ⟨trivial, ?_⟩
    split <;> rfl
  · intro h12
    have hne : b.phase ≠ 0 := by omega
    unfold CoreGuardian.receiveHit
    simp only [if_neg hne]
    refine ⟨trivial, ?_⟩
    split <;> split <;> simp [CoreGuardian.die_fst]

/-- C9 on a fresh boss (phase 0) and on the same boss once vulnerable, hit by
2. -/
theorem C9_receiveHit_by_phase_witness :
    (0 : ℚ) < 2
    ∧ ((CoreGuardian.new 105 20).receiveHit 2 raggedState).1 = false
    ∧ ((CoreGuardian.new 105 20).receiveHit 2 raggedState).2.1.health = 36
    ∧ ({ CoreGuardian.new 105 20 with phase := 1 }.receiveHit 2 raggedState).1 = true
    ∧ ({ CoreGuardian.new 105 20 with phase := 1 }.receiveHit 2 raggedState).2.1.health = 36 - 2 :=
  ⟨by norm_num,
   ((C9_receiveHit_by_phase (CoreGuardian.new 105 20) raggedState 2 (by norm_num)).1 rfl).1,
   ((C9_receiveHit_by_phase (CoreGuardian.new 105 20) raggedState 2 (by norm_num)).1 rfl).2,
   ((C9_receiveHit_by_phase { CoreGuardian.new 105 20 with phase := 1 } raggedState 2
      (by norm_num)).2 (Or.inl rfl)).1,
   ((C9_receiveHit_by_phase { CoreGuardian.new 105 20 with phase := 1 } raggedState 2
      (by norm_num)).2 (Or.inl rfl)).2⟩

/-- C10: boss phase is monotonic.  For every boss with phase in `{0,1,2}` and
each of its operations (`receiveHit` with any damage, `update`, `die`), the
phase afterwards is in `{0,1,2}` and not below the phase before, and a boss
that is not alive is not alive afterwards. -/
theorem C10_boss_phase_monotonic (b : CoreGuardian) (s : State) (d dt : ℚ) (hp : b.phase ≤ 2) :
    ((b.receiveHit d s).2.1.phase ≤ 2 ∧ b.phase ≤ (b.receiveHit d s).2.1.phase
        ∧ (b.alive = false → (b.receiveHit d s).2.1.alive = false))
    ∧ ((b.update dt s).1.phase ≤ 2 ∧ b.phase ≤ (b.update dt s).1.phase
        ∧ (b.alive = false → (b.update dt s).1.alive = false))
    ∧ ((b.die s).1.phase ≤ 2 ∧ b.phase ≤ (b.die s).1.phase
        ∧ (b.alive = false → (b.die s).1.alive = false)) := by
  refine ⟨⟨(b.receiveHit_phase d s hp).1, (b.receiveHit_phase d s hp).2,
      b.receiveHit_alive d s⟩, ?_, ?_⟩
  · rw [(b.update_phase_alive dt s).1, (b.update_phase_alive dt s).2]
    exact ⟨hp, le_refl _, id⟩
  · rw [CoreGuardian.die_fst]
    exact ⟨hp, le_refl _, fun _ => rfl⟩

/-- C10 on a vulnerable boss with 3 body health left, hit by 2: the phase moves
from 1 to 2. -/
theorem C10_boss_phase_monotonic_witness :
    ({ CoreGuardian.new 105 20 with phase := 1, health := 3 } : CoreGuardian).phase ≤ 2
    ∧ ({ CoreGuardian.new 105 20 with phase := 1, health := 3 }.receiveHit 2 raggedState).2.1.phase ≤ 2
    ∧ 1 ≤ ({ CoreGuardian.new 105 20 with phase := 1, health := 3 }.receiveHit 2 raggedState).2.1.phase :=
  ⟨by decide,
   (C10_boss_phase_monotonic { CoreGuardian.new 105 20 with phase := 1, health := 3 } raggedState 2 16
      (by decide)).1.1,
   (C10_boss_phase_monotonic { CoreGuardian.new 105 20 with phase := 1, health := 3 } raggedState 2 16
      (by decide)).1.2.1⟩

/-- C11: shield-break scenario.  Starting from a freshly constructed boss
(phase 0, `shieldHealth` 14, `health` 36), after `k` calls of `receiveHit(2)`
with `k < 7` the phase is still 0, and after exactly 7 calls the phase is 1 and
body health is still 36. -/
theorem C11_shield_breaks_on_seventh_hit (x y : ℚ) (s : State) (k : Nat) (hk : k < 7) :
    (CoreGuardian.new x y).phase = 0 ∧ (CoreGuardian.new x y).shieldHealth = 14
    ∧ (CoreGuardian.new x y).health = 36
    ∧ (receiveHits 2 k (CoreGuardian.new x y) s).1.phase = 0
    ∧ (receiveHits 2 7 (CoreGuardian.new x y) s).1.phase = 1
    ∧ (receiveHits 2 7 (CoreGuardian.new x y) s).1.health = 36 :=
  ⟨rfl, rfl, rfl, (receiveHits_shield x y s k hk).1, (receiveHits_seven x y s).1,
    (receiveHits_seven x y s).2⟩

/-- C11 at the boss of the final level, `k = 6`. -/
theorem C11_shield_breaks_on_seventh_hit_witness :
    6 < 7
    ∧ (receiveHits 2 6 (CoreGuardian.new 105 20) raggedState).1.phase = 0
    ∧ (receiveHits 2 7 (CoreGuardian.new 105 20) raggedState).1.phase = 1
    ∧ (receiveHits 2 7 (CoreGuardian.new 105 20) raggedState).1.health = 36 :=
  ⟨by decide,
   (C11_shield_breaks_on_seventh_hit 105 20 raggedState 6 (by decide)).2.2.2.1,
   (C11_shield_breaks_on_seventh_hit 105 20 raggedState 6 (by decide)).2.2.2.2.1,
   (C11_shield_breaks_on_seventh_hit 105 20 raggedState 6 (by decide)).2.2.2.2.2⟩

/-- C12: final-level completion.  For every boss in phase 1 or 2 and every hit
that brings body health to `<= 0`, `receiveHit` sets `alive` to false, hands the
completed sentinel `-1` to `saveProgress` and schedules the exit callback; when
that callback runs, in whatever state the game is then, the grid cell
`(cols-2, rows-2)` holds `EXIT`; on the final level that cell is `(10,3)`. -/
theorem C12_final_level_completion :
    (∀ (b : CoreGuardian) (d : ℚ) (s : State), (b.phase = 1 ∨ b.phase = 2) → b.health - d ≤ 0 →
        (b.receiveHit d s).2.1.alive = false
        ∧ (b.receiveHit d s).2.2.saved = -1 :: s.saved
        ∧ (b.receiveHit d s).2.2.timers = Timer.placeExit :: s.timers)
    ∧ (∀ s : State, Reachable s →
        (Timer.placeExit.fire s).LEVEL_MAP.cell (s.rows - 2) (s.cols - 2) = some TILE.EXIT)
    ∧ (∀ s : State, (loadLevel s 4).cols - 2 = 10 ∧ (loadLevel s 4).rows - 2 = 3) := by
  refine ⟨receiveHit_lethal, fun s hs => placeExit_cell s (reachable_GridOk s hs), fun s => ?_⟩
  obtain ⟨hc, hr⟩ := finalLevel_extent s
  rw [hc, hr]
  exact ⟨rfl, rfl⟩

/-- C12 on a vulnerable boss with 2 body health left, hit by 2, and the exit
callback run in the initial state (cell `(18,3)` of level 0). -/
theorem C12_final_level_completion_witness :
    ({ CoreGuardian.new 105 20 with phase := 1, health := 2 }.receiveHit 2 raggedState).2.1.alive = false
    ∧ ({ CoreGuardian.new 105 20 with phase := 1, health := 2 }.receiveHit 2 raggedState).2.2.saved
        = -1 :: raggedState.saved
    ∧ Reachable (initialState (fun _ => 0))
    ∧ (Timer.placeExit.fire (initialState (fun _ => 0))).LEVEL_MAP.cell 3 18 = some TILE.EXIT :=
  ⟨(C12_final_level_completion.1 { CoreGuardian.new 105 20 with phase := 1, health := 2 } 2 raggedState
      (Or.inl rfl) (by norm_num [CoreGuardian.new])).1,
   (C12_final_level_completion.1 { CoreGuardian.new 105 20 with phase := 1, health := 2 } 2 raggedState
      (Or.inl rfl) (by norm_num [CoreGuardian.new])).2.1,
   Reachable.init _,
   C12_final_level_completion.2.1 (initialState (fun _ => 0)) (Reachable.init _)⟩

/-- C13: single-shot jump latch.  A jump action of a tick is read off what
`update` has done to the player when it reaches the feet collision (`vy` is not
the value gravity alone leaves, or `onGround` or `canDoubleJump` has changed).
For every state and every run of `n` consecutive update ticks (ticks
`a, ..., a+n-1` of any input sequence) during which the jump key is held, at
most one tick of the run performs a jump action; in every tick of the run after
the first, `vy` at the feet collision is the value gravity alone leaves,
`onGround` and `canDoubleJump` are as the tick found them, and `vy` at the end
of the tick is that value, or 0 (landing) or -3 (boss knockback); and a jump
action is the assignment of -8.6 to `vy` on the ground or of -7 in the air. -/
theorem C13_single_jump_per_hold (inp : Nat → ℚ × Keys) (s : State) (a n : Nat)
    (hheld : ∀ j, a ≤ j → j < a + n → (inp j).2.up = true) :
    (List.range n).countP
        (fun k => jumpEffect (inp (a + k)).1 (inp (a + k)).2 (tickState inp s (a + k))) ≤ 1
    ∧ (∀ k, k + 1 < n →
        (atFeet (inp (a + k + 1)).1 (inp (a + k + 1)).2 (tickState inp s (a + k + 1))).player.vy
            = gravityVy (tickState inp s (a + k + 1)).player
        ∧ (atFeet (inp (a + k + 1)).1 (inp (a + k + 1)).2
              (tickState inp s (a + k + 1))).player.onGround
            = (tickState inp s (a + k + 1)).player.onGround
        ∧ (atFeet (inp (a + k + 1)).1 (inp (a + k + 1)).2
              (tickState inp s (a + k + 1))).player.canDoubleJump
            = (tickState inp s (a + k + 1)).player.canDoubleJump
        ∧ ((tickState inp s (a + k + 1 + 1)).player.vy
              = gravityVy (tickState inp s (a + k + 1)).player
            ∨ (tickState inp s (a + k + 1 + 1)).player.vy = 0
            ∨ (tickState inp s (a + k + 1 + 1)).player.vy = -3))
    ∧ (∀ k, k < n →
        jumpEffect (inp (a + k)).1 (inp (a + k)).2 (tickState inp s (a + k)) = true →
        ((tickState inp s (a + k)).player.onGround = true
          ∧ (atFeet (inp (a + k)).1 (inp (a + k)).2 (tickState inp s (a + k))).player.vy
              = -(86 / 10))
        ∨ ((tickState inp s (a + k)).player.onGround = false
          ∧ (atFeet (inp (a + k)).1 (inp (a + k)).2 (tickState inp s (a + k))).player.vy
              = -7)) := by
  refine ⟨?_, fun k hk => ?_, fun k _ he => jumpEffect_impulse _ _ _ he⟩
  · have hfun : (fun k => jumpEffect (inp (a + k)).1 (inp (a + k)).2 (tickState inp s (a + k)))
        = (fun k => jumpAction (inp (a + k)).2.up (tickState inp s (a + k)).player) :=
      funext (fun k => jumpEffect_eq _ _ _)
    rw [hfun]
    exact jump_count_le_one inp s a n hheld
  · have hno : jumpEffect (inp (a + k + 1)).1 (inp (a + k + 1)).2 (tickState inp s (a + k + 1))
        = false := by
      rw [jumpEffect_eq]
      exact no_jump_after_first inp s a k (hheld (a + k) (by omega) (by omega))
    obtain ⟨h1, h2, h3⟩ := no_jumpEffect _ _ _ hno
    refine ⟨h1, h2, h3, ?_⟩
    have hv := update_vy_cases (inp (a + k + 1)).1 (inp (a + k + 1)).2 (tickState inp s (a + k + 1))
    rw [h1] at hv
    exact hv

/-- C13 on two ticks from `sanctumState` (player on the ground) with the space
key held: the first tick performs the ground jump (`vy = -8.6`), the second
leaves the gravity value `-8.06` although a double jump is available, and the
count over the two ticks is at most one. -/
theorem C13_single_jump_per_hold_witness :
    jumpEffect (heldJump 0).1 (heldJump 0).2 (tickState heldJump sanctumState 0) = true
    ∧ (atFeet (heldJump 0).1 (heldJump 0).2 (tickState heldJump sanctumState 0)).player.vy
        = -(86 / 10)
    ∧ (tickState heldJump sanctumState 1).player.canDoubleJump = true
    ∧ (atFeet (heldJump (0 + 0 + 1)).1 (heldJump (0 + 0 + 1)).2
          (tickState heldJump sanctumState (0 + 0 + 1))).player.vy = -(806 / 100)
    ∧ (List.range 2).countP
        (fun k => jumpEffect (heldJump (0 + k)).1 (heldJump (0 + k)).2
          (tickState heldJump sanctumState (0 + k))) ≤ 1 := by
  have h := C13_single_jump_per_hold heldJump sanctumState 0 2 (fun _ _ _ => rfl)
  have hg : gravityVy (tickState heldJump sanctumState (0 + 0 + 1)).player = -(806 / 100) := by
    decide!
  refine ⟨by decide!, by decide!, by decide!, ?_, h.1⟩
  rw [← hg]
  exact (h.2.1 0 (by decide)).1

/-- C14: double-jump availability.  A double jump of a tick is a jump action
performed while the player is not on the ground, read off what `update` has done
to the player when it reaches the feet collision; it is the assignment of -7 to
`vy`, with `canDoubleJump` cleared.  For every sequence of update ticks from a
state with `canDoubleJump` true (the initial player state), `canDoubleJump` is
false at the end of tick `n` exactly when some tick `t <= n` performed a double
jump and the feet-collision step detected no non-empty tile in any of the ticks
`t, ..., n`; between two ticks that perform a double jump there is a tick whose
feet-collision step detects a non-empty tile; and that detection is the value of
`onGround` at the end of the tick. -/
theorem C14_double_jump_availability (inp : Nat → ℚ × Keys) (s : State)
    (hs : s.player.canDoubleJump = true) :
    (∀ n, (tickState inp s (n + 1)).player.canDoubleJump = false ↔
      ∃ t, t ≤ n ∧ airJump (inp t).1 (inp t).2 (tickState inp s t) = true
        ∧ ∀ j, t ≤ j → j ≤ n → contact (inp j).1 (inp j).2 (tickState inp s j) = false)
    ∧ (∀ t u, t < u →
        airJump (inp t).1 (inp t).2 (tickState inp s t) = true →
        airJump (inp u).1 (inp u).2 (tickState inp s u) = true →
        ∃ j, t ≤ j ∧ j < u ∧ contact (inp j).1 (inp j).2 (tickState inp s j) = true)
    ∧ (∀ t, airJump (inp t).1 (inp t).2 (tickState inp s t) = true →
        (atFeet (inp t).1 (inp t).2 (tickState inp s t)).player.vy = -7
        ∧ (atFeet (inp t).1 (inp t).2 (tickState inp s t)).player.canDoubleJump = false)
    ∧ (∀ t, (tickState inp s (t + 1)).player.onGround
        = contact (inp t).1 (inp t).2 (tickState inp s t)) := by
  refine ⟨fun n => ?_, fun t u htu h1 h2 => ?_, fun t h => ?_, fun t => (tick_control _ _ _).2.1⟩
  · simp only [airJump_eq]
    exact canDoubleJump_iff inp s hs n
  · rw [airJump_eq] at h1 h2
    exact doubleJump_needs_contact inp s hs t u htu h1 h2
  · rw [airJump_eq] at h
    have hg : groundJump (inp t).2.up (tickState inp s t).player = false := by
      unfold doubleJump at h
      unfold groundJump
      simp only [Bool.and_eq_true, Bool.not_eq_true'] at h
      rw [h.1.2]
      simp
    obtain ⟨a, _, c⟩ := (atFeet_jump (inp t).1 (inp t).2 (tickState inp s t)).2.1 hg h
    exact ⟨a, c⟩

/-- C14 from the initial state with the space key held: tick 0 performs a
double jump in the air (`vy = -7`) and detects no tile, and `canDoubleJump` is
false at its end. -/
theorem C14_double_jump_availability_witness :
    (initialState (fun _ => 0)).player.canDoubleJump = true
    ∧ airJump (heldJump 0).1 (heldJump 0).2 (tickState heldJump (initialState (fun _ => 0)) 0) = true
    ∧ (atFeet (heldJump 0).1 (heldJump 0).2
        (tickState heldJump (initialState (fun _ => 0)) 0)).player.vy = -7
    ∧ contact (heldJump 0).1 (heldJump 0).2 (tickState heldJump (initialState (fun _ => 0)) 0) = false
    ∧ (tickState heldJump (initialState (fun _ => 0)) (0 + 1)).player.canDoubleJump = false := by
  have hd : airJump (heldJump 0).1 (heldJump 0).2
      (tickState heldJump (initialState (fun _ => 0)) 0) = true := by decide!
  have hc : contact (heldJump 0).1 (heldJump 0).2
      (tickState heldJump (initialState (fun _ => 0)) 0) = false := by decide!
  have h := C14_double_jump_availability heldJump (initialState (fun _ => 0)) rfl
  refine ⟨rfl, hd, (h.2.2.1 0 hd).1, hc, ?_⟩
  exact (h.1 0).mpr
    ⟨0, le_refl _, hd, fun j h1 h2 => by
      have : j = 0 := by omega
      subst this
      exact hc⟩

/-- C15: pickups.  For every state and every use action whose in-range probed
cell `(tx,ty)` holds `SOUL`, the cell becomes `EMPTY`, `souls` increases by
exactly 1 and `health` is unchanged; if it holds `HEART`, the cell becomes
`EMPTY`, `health` becomes `min(9, health + 1)` and `souls` is unchanged; in both
cases no other grid cell changes. -/
theorem C15_pickups (s : State) (tx ty : Int) (hu : s.player._used = false)
    (hp : probe s = (tx, ty))
    (hr : 0 ≤ ty ∧ ty < (s.rows : Int) ∧ 0 ≤ tx ∧ tx < (s.cols : Int)) :
    (s.LEVEL_MAP.cell ty.toNat tx.toNat = some TILE.SOUL →
      (useMine true s).LEVEL_MAP.cell ty.toNat tx.toNat = some TILE.EMPTY
      ∧ (useMine true s).player.souls = s.player.souls + 1
      ∧ (useMine true s).player.health = s.player.health
      ∧ ∀ r c : Nat, (r ≠ ty.toNat ∨ c ≠ tx.toNat) →
          (useMine true s).LEVEL_MAP.cell r c = s.LEVEL_MAP.cell r c)
    ∧ (s.LEVEL_MAP.cell ty.toNat tx.toNat = some TILE.HEART →
      (useMine true s).LEVEL_MAP.cell ty.toNat tx.toNat = some TILE.EMPTY
      ∧ (useMine true s).player.health = min 9 (s.player.health + 1)
      ∧ (useMine true s).player.souls = s.player.souls
      ∧ ∀ r c : Nat, (r ≠ ty.toNat ∨ c ≠ tx.toNat) →
          (useMine true s).LEVEL_MAP.cell r c = s.LEVEL_MAP.cell r c) := by
  rw [useMine_fresh s tx ty hu hp hr]
  constructor
  · intro ht
    have hlen := Grid.lt_length_of_cell _ _ _ _ ht
    rw [useAt_soul { s with player := { s.player with _used := true } } tx ty ht]
    exact ⟨Grid.cell_assign_same _ _ _ _ hlen, rfl, rfl,
      fun r c h => Grid.cell_assign_other _ _ _ _ _ _ h⟩
  · intro ht
    have hlen := Grid.lt_length_of_cell _ _ _ _ ht
    rw [useAt_heart { s with player := { s.player with _used := true } } tx ty ht]
    exact ⟨Grid.cell_assign_same _ _ _ _ hlen, rfl, rfl,
      fun r c h => Grid.cell_assign_other _ _ _ _ _ _ h⟩

/-- C15 at the soul `(4,1)` of level 0 and at the heart `(3,1)` of level 3
(health 5 becomes 6). -/
theorem C15_pickups_witness :
    probe soulState = (4, 1)
    ∧ soulState.LEVEL_MAP.cell 1 4 = some TILE.SOUL
    ∧ (useMine true soulState).LEVEL_MAP.cell 1 4 = some TILE.EMPTY
    ∧ (useMine true soulState).player.souls = 0 + 1
    ∧ probe heartState = (3, 1)
    ∧ heartState.LEVEL_MAP.cell 1 3 = some TILE.HEART
    ∧ (useMine true heartState).player.health = min 9 (5 + 1) := by
  have hp1 : probe soulState = (4, 1) := by decide!
  have hc1 : soulState.LEVEL_MAP.cell 1 4 = some TILE.SOUL := by decide
  have hp2 : probe heartState = (3, 1) := by decide!
  have hc2 : heartState.LEVEL_MAP.cell 1 3 = some TILE.HEART := by decide
  have h1 := (C15_pickups soulState 4 1 rfl hp1 (by decide)).1 hc1
  have h2 := (C15_pickups heartState 3 1 rfl hp2 (by decide)).2 hc2
  exact ⟨hp1, hc1, h1.1, h1.2.1, hp2, hc2, h2.2.1⟩

/-- C16: level reload resets the world from the static definition.  For every
valid level index `idx` and every prior state, after `loadLevel(idx)` the live
grid equals `LEVELS[idx].map` with each `ENEMY` marker replaced by `EMPTY`, the
enemy positions are exactly `(c*16, r*16)` for the `ENEMY` markers of the
definition in row-major order, a boss exists iff `idx` is the final level 4 and
it is fresh (phase 0, shield 14, health 36, alive), and player health and souls
are unchanged. -/
theorem C16_level_reload (s : State) (idx : Int) (h0 : 0 ≤ idx) (h5 : idx < 5) :
    (loadLevel s idx).LEVEL_MAP = specGrid (levelAt idx.toNat)
    ∧ (loadLevel s idx).enemies.map Enemy.pos
        = (markerCells (levelAt idx.toNat).map).map markerPos
    ∧ ((∃ b, (loadLevel s idx).boss = some b) ↔ idx = 4)
    ∧ (∀ b, (loadLevel s idx).boss = some b →
        b.phase = 0 ∧ b.shieldHealth = 14 ∧ b.health = 36 ∧ b.alive = true)
    ∧ (loadLevel s idx).player.health = s.player.health
    ∧ (loadLevel s idx).player.souls = s.player.souls := by
  obtain ⟨hb4, hbn⟩ := loadLevel_boss s idx h0 h5
  obtain ⟨x, y, hp⟩ := loadLevel_player s idx
  refine ⟨?_, loadLevel_enemies s idx h0 h5, ?_, ?_, by rw [hp], by rw [hp]⟩
  · rw [loadLevel_LEVEL_MAP_valid s idx h0 h5]
    exact level_specGrid idx.toNat (by omega)
  · constructor
    · rintro ⟨b, hb⟩
      by_contra hne
      rw [hbn hne] at hb
      exact absurd hb (by simp)
    · intro h4
      obtain ⟨bx, bY, hb⟩ := hb4 h4
      exact ⟨_, hb⟩
  · intro b hb
    by_cases h4 : idx = 4
    · obtain ⟨bx, bY, hb'⟩ := hb4 h4
      rw [hb'] at hb
      have : b = CoreGuardian.new bx bY := (Option.some.inj hb).symm
      rw [this]
      exact ⟨rfl, rfl, rfl, rfl⟩
    · rw [hbn h4] at hb
      exact absurd hb (by simp)

/-- C16 on a reload of the final level from a state of level 3: the grid of
level 4 with its marker `(10,1)` cleared, and a boss. -/
theorem C16_level_reload_witness :
    (0 : Int) ≤ 4 ∧ (4 : Int) < 5
    ∧ (loadLevel sanctumState 4).LEVEL_MAP
        = [ rowOf [0,0,0,0,0,0,4,0,0,0,0,0], rowOf [9,0,0,0,0,0,0,0,0,0,0,0],
            filled 12 2, filled 12 2, filled 12 2 ]
    ∧ (∃ b, (loadLevel sanctumState 4).boss = some b)
    ∧ (loadLevel sanctumState 4).player.health = sanctumState.player.health :=
  ⟨by decide, by decide,
   (C16_level_reload sanctumState 4 (by decide) (by decide)).1.trans (by decide),
   (C16_level_reload sanctumState 4 (by decide) (by decide)).2.2.1.mpr rfl,
   (C16_level_reload sanctumState 4 (by decide) (by decide)).2.2.2.2.1⟩

/-- C17: an out-of-range level index is a no-op.  For every state and every
integer `idx` with `idx < 0` or `idx >= 5`, `loadLevel(idx)` returns the state
unchanged: the current level, the live grid, `cols`/`rows`, the enemies, the
boss, the particles, the player and the camera (and everything else) are as
before. -/
theorem C17_loadLevel_out_of_range (s : State) (idx : Int) (h : idx < 0 ∨ 5 ≤ idx) :
    loadLevel s idx = s
    ∧ (loadLevel s idx).currentLevel = s.currentLevel
    ∧ (loadLevel s idx).LEVEL_MAP = s.LEVEL_MAP
    ∧ (loadLevel s idx).cols = s.cols ∧ (loadLevel s idx).rows = s.rows
    ∧ (loadLevel s idx).enemies = s.enemies ∧ (loadLevel s idx).boss = s.boss
    ∧ (loadLevel s idx).particles = s.particles
    ∧ (loadLevel s idx).player = s.player ∧ (loadLevel s idx).cam = s.cam := by
  rw [loadLevel_invalid s idx h]
  exact ⟨rfl, rfl, rfl, rfl, rfl, rfl, rfl, rfl, rfl, rfl⟩

/-- C17 at the indices 5 and -1 on a state of level 3. -/
theorem C17_loadLevel_out_of_range_witness :
    ((5 : Int) < 0 ∨ (5 : Int) ≤ 5) ∧ loadLevel sanctumState 5 = sanctumState
    ∧ ((-1 : Int) < 0 ∨ (5 : Int) ≤ -1) ∧ loadLevel sanctumState (-1) = sanctumState :=
  ⟨Or.inr (le_refl _), (C17_loadLevel_out_of_range sanctumState 5 (Or.inr (le_refl _))).1,
   Or.inl (by decide), (C17_loadLevel_out_of_range sanctumState (-1) (Or.inl (by decide))).1⟩

/-- C18: spawn placement.  For every grid (any state), `spawnPlayerAtMap` places
the player at `(c*16 + 4, r*16 - player.h - 2)` where `(r,c)` is the first `SPAWN`
cell of the scan `r < rows, c < cols` in row-major order (smallest `r`, then
smallest `c`), and at the default `(40,40)` when the scan finds no `SPAWN` cell;
after `loadLevel` of a valid index the camera equals
`(max(0, player.x - 160), max(0, player.y - 90))`. -/
theorem C18_spawn_placement (s : State) :
    (∀ r c : Nat, r < s.rows → c < s.cols → s.LEVEL_MAP.cell r c = some TILE.SPAWN →
        (∀ r1 c1 : Nat, r1 < s.rows → c1 < s.cols → (r1 < r ∨ (r1 = r ∧ c1 < c)) →
          s.LEVEL_MAP.cell r1 c1 ≠ some TILE.SPAWN) →
        (spawnPlayerAtMap s).player.x = (c : ℚ) * 16 + 4
        ∧ (spawnPlayerAtMap s).player.y = (r : ℚ) * 16 - s.player.h - 2)
    ∧ ((∀ r c : Nat, r < s.rows → c < s.cols → s.LEVEL_MAP.cell r c ≠ some TILE.SPAWN) →
        (spawnPlayerAtMap s).player.x = 40 ∧ (spawnPlayerAtMap s).player.y = 40)
    ∧ (∀ idx : Int, 0 ≤ idx → idx < 5 →
        (loadLevel s idx).cam.x = max 0 ((loadLevel s idx).player.x - 160)
        ∧ (loadLevel s idx).cam.y = max 0 ((loadLevel s idx).player.y - 90)) := by
  refine ⟨?_, ?_, fun idx h0 h5 => loadLevel_cam s idx h0 h5⟩
  · intro r c hr hc hs hmin
    unfold spawnPlayerAtMap
    rw [findSpawn_first s.LEVEL_MAP s.rows s.cols r c hr hc hs hmin]
    exact ⟨rfl, rfl⟩
  · intro h
    unfold spawnPlayerAtMap
    rw [findSpawn_none s.LEVEL_MAP s.rows s.cols h]
    exact ⟨rfl, rfl⟩

/-- C18 on level 3 (spawn marker at row 2, column 0: the player is placed at
`(4,14)`), and the camera after `loadLevel(0)`. -/
theorem C18_spawn_placement_witness :
    sanctumState.LEVEL_MAP.cell 2 0 = some TILE.SPAWN
    ∧ (spawnPlayerAtMap sanctumState).player.x = ((0 : Nat) : ℚ) * 16 + 4
    ∧ (spawnPlayerAtMap sanctumState).player.y = ((2 : Nat) : ℚ) * 16 - sanctumState.player.h - 2
    ∧ (loadLevel sanctumState 0).cam.x = max 0 ((loadLevel sanctumState 0).player.x - 160) := by
  have hs : sanctumState.LEVEL_MAP.cell 2 0 = some TILE.SPAWN := by decide
  have hmin : ∀ r1 c1 : Nat, r1 < sanctumState.rows → c1 < sanctumState.cols →
      (r1 < 2 ∨ (r1 = 2 ∧ c1 < 0)) → sanctumState.LEVEL_MAP.cell r1 c1 ≠ some TILE.SPAWN := by
    have h : ∀ r1 < 2, ∀ c1 < 14, sanctumState.LEVEL_MAP.cell r1 c1 ≠ some TILE.SPAWN := by decide
    intro r1 c1 _ hc1 hlt
    rcases hlt with hlt | hlt
    · exact h r1 hlt c1 hc1
    · omega
  have h := (C18_spawn_placement sanctumState).1 2 0 (by decide) (by decide) hs hmin
  exact ⟨hs, h.1, h.2,
    ((C18_spawn_placement sanctumState).2.2 0 (by decide) (by decide)).1⟩

/-- C19: vertical speed bound.  For every state (whatever the incoming `vy`)
and every input, at the end of an update tick the player's vertical velocity
satisfies `-MAX_FALL <= vy <= MAX_FALL` with `MAX_FALL = 18`; this covers ticks
with a jump, a landing or a boss knockback. -/
theorem C19_vertical_speed_bound (dt : ℚ) (keys : Keys) (s : State) :
    MAX_FALL = 18
    ∧ -MAX_FALL ≤ (update dt keys s).player.vy ∧ (update dt keys s).player.vy ≤ MAX_FALL :=
  ⟨rfl, update_vy dt keys s⟩

/-- C20: horizontal world bounds.  For every state whose grid has at least one
column (so that the interval is not empty; every state of the game has at least
two) and every input, at the end of an update tick
`0 <= player.x <= cols*16 - player.w`, where `cols` is the width of the live grid
at the end of the tick; this includes the ticks in which an exit transition
loads the next level and re-places the player at its spawn. -/
theorem C20_horizontal_world_bounds (dt : ℚ) (keys : Keys) (s : State) (hc : 1 ≤ s.cols) :
    0 ≤ (update dt keys s).player.x
    ∧ (update dt keys s).player.x
        ≤ ((update dt keys s).cols : ℚ) * TILE_SIZE - (update dt keys s).player.w :=
  update_x dt keys s hc

/-- C20 on the tick of `exitState` that loads level 1: the player is re-placed at
`x = 4` and the grid is 18 wide. -/
theorem C20_horizontal_world_bounds_witness :
    1 ≤ exitState.cols
    ∧ (update 16 noKeys exitState).player.x = 4
    ∧ (update 16 noKeys exitState).cols = 18
    ∧ 0 ≤ (update 16 noKeys exitState).player.x
    ∧ (update 16 noKeys exitState).player.x
        ≤ ((update 16 noKeys exitState).cols : ℚ) * TILE_SIZE
          - (update 16 noKeys exitState).player.w :=
  ⟨by decide, by decide!, by decide!,
   (C20_horizontal_world_bounds 16 noKeys exitState (by decide)).1,
   (C20_horizontal_world_bounds 16 noKeys exitState (by decide)).2⟩

/-- C21 (code defect): the second tick after `loadLevel(0)`, no key held.  The
player is spawned with its bottom edge at 30 and falls; the first tick leaves it
at 30.54, and in the second tick the integration brings it to 31.62.  The sample
at `y + h + 1 = 32.62` finds the `SPAWN` tile of row 2, whose top boundary is
`16 * floor(32.62/16) = 32`, but the snap `floor((y + h)/16) * 16 = 16` puts the
bottom edge at 16, one tile above the sampled tile, with `vy = 0` and `onGround`
true. -/
theorem C21_snap_above_sampled_tile :
    (loadLevel (initialState (fun _ => 0)) 0).player.y
        + (loadLevel (initialState (fun _ => 0)) 0).player.h = 30
    ∧ spawnFall.player.y + spawnFall.player.h = 3054 / 100
    ∧ (atFeet 16 noKeys spawnFall).player.y + (atFeet 16 noKeys spawnFall).player.h = 3162 / 100
    ∧ feetTile (atFeet 16 noKeys spawnFall) = TILE.SPAWN
    ∧ (16 * ⌊((atFeet 16 noKeys spawnFall).player.y
        + (atFeet 16 noKeys spawnFall).player.h + 1) / 16⌋ : Int) = 32
    ∧ (feetCollision (atFeet 16 noKeys spawnFall)).player.y
        + (feetCollision (atFeet 16 noKeys spawnFall)).player.h = 16
    ∧ (feetCollision (atFeet 16 noKeys spawnFall)).player.vy = 0
    ∧ (feetCollision (atFeet 16 noKeys spawnFall)).player.onGround = true
    ∧ (update 16 noKeys spawnFall).player.y + (update 16 noKeys spawnFall).player.h = 16 := by
  decide!

/-- C22 (as stated) fails on a key held through the cooldown.  From the initial
state with 40 ms ticks: tick 0 dashes on a press, the key is released in tick 1
and pressed again in tick 2, while the cooldown is running (75.2), and kept
held; the cooldown elapses during tick 33, and tick 34 applies a dash impulse
(`vx` is 6 above the value the horizontal input left, the cooldown is set to 80
and run down to 77.6) although the key was held in tick 33 as well. -/
theorem C22_held_dash_counterexample :
    dashEffect (heldDash 0).1 (heldDash 0).2 (tickState heldDash (initialState (fun _ => 0)) 0) = true
    ∧ (heldDash 1).2.dash = false
    ∧ (heldDash 2).2.dash = true
    ∧ (tickState heldDash (initialState (fun _ => 0)) 2).player.dashCooldown = 752 / 10
    ∧ (heldDash 33).2.dash = true
    ∧ (heldDash 34).2.dash = true
    ∧ dashEffect (heldDash 34).1 (heldDash 34).2
        (tickState heldDash (initialState (fun _ => 0)) 34) = true
    ∧ (tickState heldDash (initialState (fun _ => 0)) 35).player.dashCooldown = 776 / 10
    ∧ (tickState heldDash (initialState (fun _ => 0)) 35).player.vx
        = (moveStep false false (tickState heldDash (initialState (fun _ => 0)) 34)).player.vx + 6 := by
  decide!

/-- C22 (amended).  A dash impulse of a tick is read off what `update` has done
to the player when it reaches the feet collision (`vx` is not the value the
horizontal input left, or the cooldown is not the one the running cooldown
leaves).  For every state and every sequence of update ticks, if tick `n`
applies a dash impulse, then the dash key is held in tick `n`,
`dashCooldown <= 0` and the latch `_dashed` is clear when the tick starts, the
tick sets the cooldown to 80 (run down once in the same tick) and adds
`facing * 6` to `vx`, and no earlier tick `m` applied a dash impulse with the
key held in all of the ticks `m, ..., n-1`: at most one dash per uninterrupted
hold of the key. -/
theorem C22_dash_once_per_hold (inp : Nat → ℚ × Keys) (s : State) (n : Nat)
    (heff : dashEffect (inp n).1 (inp n).2 (tickState inp s n) = true) :
    (inp n).2.dash = true
    ∧ (tickState inp s n).player.dashCooldown ≤ 0
    ∧ (tickState inp s n).player._dashed = false
    ∧ (atFeet (inp n).1 (inp n).2 (tickState inp s n)).player.dashCooldown
        = 80 - (inp n).1 * (6 / 100)
    ∧ (atFeet (inp n).1 (inp n).2 (tickState inp s n)).player.vx
        = (moveStep (inp n).2.left (inp n).2.right (tickState inp s n)).player.vx
          + (moveStep (inp n).2.left (inp n).2.right (tickState inp s n)).player.facing * 6
    ∧ ∀ m, m < n → (∀ j, m ≤ j → j < n → (inp j).2.dash = true) →
        dashEffect (inp m).1 (inp m).2 (tickState inp s m) = false := by
  obtain ⟨h1, h2, h3, h4⟩ := dash_effect_once inp s n heff
  obtain ⟨e1, e2⟩ := dashFires_effect (inp n).1 (inp n).2 (tickState inp s n)
    (dashEffect_fires _ _ _ heff)
  exact ⟨h1, h2, h3, e1, e2, h4⟩

/-- C22 (amended) on the run of `heldDash` from the initial state: tick 34
applies a dash impulse with the key held, the cooldown elapsed and the latch
clear, and tick 2, from which on the key is held, applied none. -/
theorem C22_dash_once_per_hold_witness :
    dashEffect (heldDash 34).1 (heldDash 34).2
        (tickState heldDash (initialState (fun _ => 0)) 34) = true
    ∧ (heldDash 34).2.dash = true
    ∧ (tickState heldDash (initialState (fun _ => 0)) 34).player.dashCooldown ≤ 0
    ∧ (tickState heldDash (initialState (fun _ => 0)) 34).player._dashed = false
    ∧ dashEffect (heldDash 2).1 (heldDash 2).2
        (tickState heldDash (initialState (fun _ => 0)) 2) = false := by
  have heff : dashEffect (heldDash 34).1 (heldDash 34).2
      (tickState heldDash (initialState (fun _ => 0)) 34) = true := by decide!
  have h := C22_dash_once_per_hold heldDash (initialState (fun _ => 0)) 34 heff
  refine ⟨heff, h.1, h.2.1, h.2.2.1, h.2.2.2.2.2 2 (by decide) ?_⟩
  intro j h1 h2
  have hj : j ≠ 1 := by omega
  simp only [heldDash, if_neg hj]
  rfl

/-- C23 (as stated) fails when the wall probe fires in the same call.  The
enemy `wallEnemy` moves right (`vx = 1`) with the dirt block just ahead: the
wall probe of `update()` reverses `vx` to `-1`, the enemy moves to `x = 50` and
overlaps the player while active, the contact branch deals 1 damage, clears
`active` and reverses `vx` again: the call ends with `vx = 1`, the sign the
enemy had before the call. -/
theorem C23_wall_contact_counterexample :
    wallEnemy.vx = 1
    ∧ wallEnemy.active = true
    ∧ wallEnemy.wallAhead wallState = true
    ∧ rectsIntersect (wallEnemy.moved wallState).rect wallState.player.rect = true
    ∧ (wallEnemy.update 0 wallState).2.player.health = wallState.player.health - 1
    ∧ (wallEnemy.update 0 wallState).1.active = false
    ∧ (wallEnemy.update 0 wallState).1.vx = 1
    ∧ ¬ ((wallEnemy.update 0 wallState).1.vx = -wallEnemy.vx) := by
  decide!

/-- C23 (amended): for every enemy and every state, if the enemy at its
post-move position overlaps the player and `active` is true, one `update()` call
reduces `player.health` by exactly 1, sets `active` to false and reverses the
sign of the `vx` the enemy moved with (its `vx` after the wall probe of the same
call: the call ends with `-vx` when the probe found no tile ahead, and with the
`vx` it started with when the probe had reversed it); otherwise the call leaves
`player.health` unchanged.  Hence over a run of update ticks that loads no level
(a level load replaces the enemies), if the enemy `enemies[i]` deals contact
damage in a tick, it deals none in any later tick of the run. -/
theorem C23_enemy_contact_damage :
    (∀ (e : Enemy) (i : Nat) (s : State),
        rectsIntersect (e.moved s).rect s.player.rect = true → e.active = true →
        (e.update i s).2.player.health = s.player.health - 1
        ∧ (e.update i s).1.active = false
        ∧ (e.update i s).1.vx = -(e.moved s).vx
        ∧ (e.update i s).1.vx = (if e.wallAhead s = true then e.vx else -e.vx))
    ∧ (∀ (e : Enemy) (i : Nat) (s : State),
        ¬ (rectsIntersect (e.moved s).rect s.player.rect = true ∧ e.active = true) →
        (e.update i s).2.player.health = s.player.health)
    ∧ (∀ (inp : Nat → ℚ × Keys) (s : State) (i j k : Nat), j < k →
        (∀ t, j ≤ t → t < k → levelChange (inp t).1 (inp t).2 (tickState inp s t) = false) →
        dealsDamage i (inp j).1 (inp j).2 (tickState inp s j) = true →
        dealsDamage i (inp k).1 (inp k).2 (tickState inp s k) = false) := by
  refine ⟨?_, ?_, fun inp s i j k hjk hl hj => damage_once inp s i j k hjk hl hj⟩
  · intro e i s hov ha
    have hh : e.hits s = true := by
      unfold Enemy.hits
      rw [hov, (moved_vx_active e s).2, ha]
      rfl
    obtain ⟨h1, h2⟩ := enemyUpdate_hit e i s hh
    have hvx : (e.update i s).1.vx = -(e.moved s).vx := by
      rw [h2]
      show (e.moved s).vx * -1 = -(e.moved s).vx
      ring
    refine ⟨h1, by rw [h2], hvx, ?_⟩
    rw [hvx, (moved_vx_active e s).1]
    split_ifs <;> ring
  · intro e i s hn
    have hh : e.hits s = false := by
      cases h : e.hits s
      · rfl
      · exfalso
        apply hn
        have ha := hits_active e s h
        unfold Enemy.hits at h
        simp only [Bool.and_eq_true] at h
        exact ⟨h.1, ha⟩
    rw [enemyUpdate_miss e i s hh]

/-- C23 (amended) on `wallState`: the call of `update()` on `wallEnemy` takes
the player from health 5 to 4; the same enemy with `active` false deals none;
and over two ticks with no key held the enemy deals damage in the first tick and
none in the second, in which it still overlaps the player. -/
theorem C23_enemy_contact_damage_witness :
    rectsIntersect (wallEnemy.moved wallState).rect wallState.player.rect = true
    ∧ wallEnemy.active = true
    ∧ (wallEnemy.update 0 wallState).2.player.health = 5 - 1
    ∧ ({ wallEnemy with active := false }.update 0 wallState).2.player.health = 5
    ∧ dealsDamage 0 (idle 0).1 (idle 0).2 (tickState idle wallState 0) = true
    ∧ rectsIntersect
        (((tickState idle wallState 1).enemies.headD wallEnemy).moved
          (atEnemies 16 noKeys (tickState idle wallState 1))).rect
        (atEnemies 16 noKeys (tickState idle wallState 1)).player.rect = true
    ∧ dealsDamage 0 (idle 1).1 (idle 1).2 (tickState idle wallState 1) = false := by
  have hov : rectsIntersect (wallEnemy.moved wallState).rect wallState.player.rect = true := by
    decide!
  have hd : dealsDamage 0 (idle 0).1 (idle 0).2 (tickState idle wallState 0) = true := by decide!
  refine ⟨hov, rfl, (C23_enemy_contact_damage.1 wallEnemy 0 wallState hov rfl).1,
    C23_enemy_contact_damage.2.1 { wallEnemy with active := false } 0 wallState
      (fun h => Bool.false_ne_true h.2), hd, by decide!,
    C23_enemy_contact_damage.2.2 idle wallState 0 0 1 (by decide) ?_ hd⟩
  intro t h1 h2
  have ht : t = 0 := by omega
  subst ht
  decide!

/-- C24: a freshly spawned boss is never damaged by update ticks.  For every
prior state (with any stream of random draws), every input sequence and every
number `n` of update ticks run from the state `loadLevel(4)` produces, the boss
exists and has `phase = 0`, `shieldHealth = 14`, `health = 36` and
`alive = true`. -/
theorem C24_fresh_boss_never_damaged (s : State) (inp : Nat → ℚ × Keys) (n : Nat) :
    ∃ b, (tickState inp (loadLevel s 4) n).boss = some b
      ∧ b.phase = 0 ∧ b.shieldHealth = 14 ∧ b.health = 36 ∧ b.alive = true :=
  (run_FreshBoss inp (loadLevel s 4) (loadLevel_FreshBoss s) n).2

end LostWorlds
